import Mathlib

/-!
# nsAppFileLocationProvider: directory enumerators and the location provider

A shallow embedding of `xpcom/io/nsAppFileLocationProvider.cpp`.

* An `nsresult` is a natural number below `2^32`; it is a failure when bit 31 is set.
* An `nsIFile` is represented by its native path (`Path`).
* A `const char*` into a NUL-terminated buffer is represented by the characters
  from the pointee onwards (`CPtr`): `*p` is the head (NUL at the end of the list),
  `++p` is the tail, and for two pointers into the same buffer `q - p` is
  `p.length - q.length`.
* Everything outside the file (the directory service, the file system, `nsIFile`
  methods, the environment) is a field of an environment record, and the state of
  the outside world is threaded explicitly through every call.
-/

set_option autoImplicit false

namespace XPCOM

/-! ## Result codes -/

/-- An XPCOM result code (32 bits). -/
abbrev Nsresult := Nat

def NS_OK : Nsresult := 0
def NS_ERROR_FAILURE : Nsresult := 0x80004005
def NS_ERROR_INVALID_ARG : Nsresult := 0x80070057
def NS_ERROR_UNEXPECTED : Nsresult := 0x8000ffff

/-- The macro `NS_FAILED`: the severity bit (bit 31) is set. -/
def NS_FAILED (rv : Nsresult) : Bool := decide (2 ^ 31 ≤ rv % 2 ^ 32)

/-- The macro `NS_SUCCEEDED`: the severity bit is clear. -/
def NS_SUCCEEDED (rv : Nsresult) : Bool := !NS_FAILED rv

/-! ## Build configuration -/

/-- The preprocessor symbols the file branches on. -/
structure Build where
  MOZ_WIDGET_COCOA : Bool
  XP_WIN : Bool
  XP_UNIX : Bool
  ENABLE_SYSTEM_EXTENSION_DIRS : Bool
  TOR_BROWSER_DATA_OUTSIDE_APP_DIR : Bool
  /-- Stands for `defined(HAVE_USR_LIB64_DIR) && defined(__LP64__)`. -/
  USR_LIB64 : Bool
  /-- Stands for `defined(__OpenBSD__) || defined(__FreeBSD__)`. -/
  BSD : Bool
deriving DecidableEq, Repr

/-- The macro `PATH_SEPARATOR` (lines 432-436). -/
def PATH_SEPARATOR (b : Build) : Char := if b.XP_WIN then ';' else ':'

/-! ## Files, C strings and the outside world of an enumerator -/

/-- An `nsIFile`, identified by its native path. -/
abbrev Path := String

/-- A `const char*` into a NUL-terminated buffer: the characters from the pointee on. -/
abbrev CPtr := List Char

/-- The string terminator. -/
def NUL : Char := Char.ofNat 0

/-- Dereference: `*p`; reading the end of the buffer gives the terminator. -/
def CPtr.deref (p : CPtr) : Char := p.headD NUL

/-- Pointer increment: `++p`. -/
def CPtr.next (p : CPtr) : CPtr := p.tail

/-- What an enumerator sees of the outside world, whose state has type `σ`.
* `GetFile k w`: the provider's `GetFile(k, &dontCare, getter_AddRefs(testFile))`:
  the result code, `testFile` after the call, and the world after the call;
* `Exists f w`: `f->Exists(&exists)`: the result code and `exists`;
* `NS_NewNativeLocalFile s`: the out-parameter `localFile` after
  `NS_NewNativeLocalFile(s, true, getter_AddRefs(localFile))`. -/
structure Env (σ : Type) where
  GetFile : String → σ → (Nsresult × Option Path) × σ
  Exists : Path → σ → Nsresult × Bool
  NS_NewNativeLocalFile : List Char → Option Path

/-- The test `NS_SUCCEEDED(f->Exists(&exists)) && exists`. -/
def Env.existsOk {σ : Type} (env : Env σ) (f : Path) (w : σ) : Bool :=
  NS_SUCCEEDED (env.Exists f w).1 && (env.Exists f w).2

/-! ## nsAppDirectoryEnumerator (lines 363-425) -/

/-- The fields of `nsAppDirectoryEnumerator`; `mCurrentKey` points into a
null-terminated array of keys and is represented by the keys before the null. -/
structure nsAppDirectoryEnumerator where
  mCurrentKey : List String
  mNext : Option Path
deriving DecidableEq, Repr

/-- The loop `while (!mNext && *mCurrentKey) { ... }` of `HasMoreElements`
(lines 381-390), on `mCurrentKey`, `mNext` and the world. -/
def nsAppDirectoryEnumerator.keyLoop {σ : Type} (env : Env σ) :
    List String → Option Path → σ → List String × Option Path × σ
  | keys, some f, w => (keys, some f, w)
  | [], none, w => ([], none, w)
  | k :: keys, none, w =>
    let r := env.GetFile k w
    match r.1.2 with
    | some testFile =>
      if env.existsOk testFile r.2 then
        nsAppDirectoryEnumerator.keyLoop env keys (some testFile) r.2
      else
        nsAppDirectoryEnumerator.keyLoop env keys none r.2
    | none => nsAppDirectoryEnumerator.keyLoop env keys none r.2

/-- `nsAppDirectoryEnumerator::HasMoreElements` (lines 379-393): `*aResult`, the
enumerator afterwards and the world afterwards (the method returns `NS_OK`). -/
def nsAppDirectoryEnumerator.HasMoreElements {σ : Type} (env : Env σ)
    (e : nsAppDirectoryEnumerator) (w : σ) : Bool × nsAppDirectoryEnumerator × σ :=
  let r := nsAppDirectoryEnumerator.keyLoop env e.mCurrentKey e.mNext w
  (r.2.1.isSome, { mCurrentKey := r.1, mNext := r.2.1 }, r.2.2)

/-- `nsAppDirectoryEnumerator::GetNext` (lines 395-413) with a non-null `aResult`:
the result code and `*aResult`, the enumerator afterwards, the world afterwards. -/
def nsAppDirectoryEnumerator.GetNext {σ : Type} (env : Env σ)
    (e : nsAppDirectoryEnumerator) (w : σ) :
    (Nsresult × Option Path) × nsAppDirectoryEnumerator × σ :=
  let h := nsAppDirectoryEnumerator.HasMoreElements env e w
  if !h.1 then
    ((NS_ERROR_FAILURE, none), h.2.1, h.2.2)
  else
    ((if h.2.1.mNext.isSome then NS_OK else NS_ERROR_FAILURE, h.2.1.mNext),
      { h.2.1 with mNext := none }, h.2.2)

/-! ## nsPathsDirectoryEnumerator (lines 438-498) -/

/-- The fields of `nsPathsDirectoryEnumerator`: those of the base class and
`mEndPath` (`none` for a null pointer). -/
structure nsPathsDirectoryEnumerator extends nsAppDirectoryEnumerator where
  mEndPath : Option CPtr
deriving DecidableEq, Repr

/-- The loop `while (*pathVar == PATH_SEPARATOR) ++pathVar;` (lines 464-466). -/
def skipSeparators (sep : Char) : CPtr → CPtr
  | [] => []
  | c :: cs => if c = sep then skipSeparators sep cs else c :: cs

/-- The condition-and-body part of `do ++mEndPath; while (*mEndPath && *mEndPath !=
PATH_SEPARATOR);` (lines 468-470), entered after the first increment. -/
def scanToSeparator (sep : Char) : CPtr → CPtr
  | [] => []
  | c :: cs => if c ≠ NUL ∧ c ≠ sep then scanToSeparator sep cs else c :: cs

/-- The expression `Substring(pathVar, mEndPath)` for two pointers into one buffer:
the characters from `aStart` up to `aEnd`. The length is `aEnd - aStart`; when
`aStart` lies after `aEnd` there is no such span (the unsigned length wraps around and
reaches far beyond the terminator), which is reported as `none`. -/
def Substring (aStart aEnd : CPtr) : Option (List Char) :=
  if aEnd.length ≤ aStart.length then some (aStart.take (aStart.length - aEnd.length))
  else none

/-- The statement `if (*mEndPath == PATH_SEPARATOR) ++mEndPath;` (lines 476-478). -/
def skipOneSeparator (sep : Char) (p : CPtr) : CPtr :=
  if p.deref = sep then p.next else p

/-- One iteration of the loop body (lines 461-485) from a non-null `mEndPath`:
`mEndPath` afterwards and the file assigned to `mNext`, if any; `none` reports an
ill-formed `Substring`. -/
def nsPathsDirectoryEnumerator.pathStep {σ : Type} (env : Env σ) (sep : Char) (w : σ)
    (mEndPath : CPtr) : Option (CPtr × Option Path) :=
  let pathVar := skipSeparators sep mEndPath
  let mEndPath1 := scanToSeparator sep mEndPath.next
  match Substring pathVar mEndPath1 with
  | none => none
  | some span =>
    let localFile := env.NS_NewNativeLocalFile span
    let mEndPath2 := skipOneSeparator sep mEndPath1
    match localFile with
    | some f => if env.existsOk f w then some (mEndPath2, some f) else some (mEndPath2, none)
    | none => some (mEndPath2, none)

/-- The loop `while (!mNext && *mEndPath) { ... }` (lines 460-486) on `mEndPath` and
`mNext`, for a non-null `mEndPath`. The first argument bounds the number of
iterations; `none` reports an ill-formed `Substring`. -/
def nsPathsDirectoryEnumerator.pathLoop {σ : Type} (env : Env σ) (sep : Char) (w : σ) :
    Nat → CPtr → Option Path → Option (CPtr × Option Path)
  | _, mEndPath, some f => some (mEndPath, some f)
  | 0, mEndPath, none => some (mEndPath, none)
  | n + 1, mEndPath, none =>
    if mEndPath.deref = NUL then some (mEndPath, none)
    else
      match nsPathsDirectoryEnumerator.pathStep env sep w mEndPath with
      | none => none
      | some r => nsPathsDirectoryEnumerator.pathLoop env sep w n r.1 r.2

/-- The statement `if (mEndPath) while ...` (lines 459-486): `mEndPath` and `mNext`
afterwards. Every iteration moves `mEndPath` forward, so its distance to the
terminator bounds the number of iterations. -/
def nsPathsDirectoryEnumerator.pathPhase {σ : Type} (env : Env σ) (sep : Char) (w : σ)
    (mEndPath : Option CPtr) (mNext : Option Path) : Option (Option CPtr × Option Path) :=
  match mEndPath with
  | none => some (none, mNext)
  | some p =>
    (nsPathsDirectoryEnumerator.pathLoop env sep w p.length p mNext).map
      (fun r => (some r.1, r.2))

/-- `nsPathsDirectoryEnumerator::HasMoreElements` (lines 457-494): `*aResult`, the
enumerator afterwards and the world afterwards; `none` when an ill-formed
`Substring` was taken. -/
def nsPathsDirectoryEnumerator.HasMoreElements {σ : Type} (env : Env σ) (b : Build)
    (e : nsPathsDirectoryEnumerator) (w : σ) :
    Option (Bool × nsPathsDirectoryEnumerator × σ) :=
  match nsPathsDirectoryEnumerator.pathPhase env (PATH_SEPARATOR b) w e.mEndPath e.mNext with
  | none => none
  | some r =>
    if r.2.isSome then
      some (true, { mCurrentKey := e.mCurrentKey, mNext := r.2, mEndPath := r.1 }, w)
    else
      let h := nsAppDirectoryEnumerator.HasMoreElements env
        { mCurrentKey := e.mCurrentKey, mNext := r.2 } w
      some (h.1, { tonsAppDirectoryEnumerator := h.2.1, mEndPath := r.1 }, h.2.2)

/-- `GetNext` as inherited by `nsPathsDirectoryEnumerator` (lines 395-413): the body
of the base class, whose call of the virtual `HasMoreElements` reaches the override. -/
def nsPathsDirectoryEnumerator.GetNext {σ : Type} (env : Env σ) (b : Build)
    (e : nsPathsDirectoryEnumerator) (w : σ) :
    Option ((Nsresult × Option Path) × nsPathsDirectoryEnumerator × σ) :=
  match nsPathsDirectoryEnumerator.HasMoreElements env b e w with
  | none => none
  | some h =>
    if !h.1 then
      some ((NS_ERROR_FAILURE, none), h.2.1, h.2.2)
    else
      some ((if h.2.1.mNext.isSome then NS_OK else NS_ERROR_FAILURE, h.2.1.mNext),
        { h.2.1 with mNext := none }, h.2.2)

/-- The constructor `nsAppDirectoryEnumerator(aProvider, aKeyList)` (lines 372-377). -/
def nsAppDirectoryEnumerator.new (aKeyList : List String) : nsAppDirectoryEnumerator :=
  { mCurrentKey := aKeyList, mNext := none }

/-- The constructor `nsPathsDirectoryEnumerator(aProvider, aKeyList)` (lines 450-455):
`aKeyList[0]` is the path list, the remainder the keys. -/
def nsPathsDirectoryEnumerator.new (pathList : Option CPtr) (keys : List String) :
    nsPathsDirectoryEnumerator :=
  { tonsAppDirectoryEnumerator := nsAppDirectoryEnumerator.new keys, mEndPath := pathList }

/-! ## Consumers and reference sequences -/

/-- A consumer that drains an `nsAppDirectoryEnumerator`: at most `n` rounds of
`HasMoreElements` followed, when it reports `true`, by `GetNext`; the files handed
out by `GetNext`, in order. -/
def nsAppDirectoryEnumerator.drain {σ : Type} (env : Env σ) :
    Nat → nsAppDirectoryEnumerator → σ → List Path
  | 0, _, _ => []
  | n + 1, e, w =>
    let h := nsAppDirectoryEnumerator.HasMoreElements env e w
    if h.1 then
      let g := nsAppDirectoryEnumerator.GetNext env h.2.1 h.2.2
      g.1.2.toList ++ nsAppDirectoryEnumerator.drain env n g.2.1 g.2.2
    else []

/-- The reference sequence for a key list: the keys are resolved in order, each
once, and a key contributes the file its `GetFile` hands back when that file
exists on disk. -/
def resolvedExisting {σ : Type} (env : Env σ) : List String → σ → List Path
  | [], _ => []
  | k :: keys, w =>
    let r := env.GetFile k w
    match r.1.2 with
    | some f =>
      if env.existsOk f r.2 then f :: resolvedExisting env keys r.2
      else resolvedExisting env keys r.2
    | none => resolvedExisting env keys r.2

/-- The world after every key of a list has been resolved in order. -/
def worldAfterKeys {σ : Type} (env : Env σ) : List String → σ → σ
  | [], w => w
  | k :: keys, w => worldAfterKeys env keys (env.GetFile k w).2

/-- Scenario A: `K1` resolves to `/missing`, `K2` resolves to `/P`, and of the two
only `/P` exists on disk. -/
def scenarioA : Env Unit where
  GetFile := fun k w =>
    (if k = "K1" then (NS_OK, some "/missing")
     else if k = "K2" then (NS_OK, some "/P")
     else (NS_ERROR_FAILURE, none), w)
  Exists := fun f _ => (NS_OK, decide (f = "/P"))
  NS_NewNativeLocalFile := fun s => some (String.mk s)

/-- A consumer that drains an `nsPathsDirectoryEnumerator`: at most `n` rounds of
`HasMoreElements` followed, when it reports `true`, by `GetNext`; the files handed
out by `GetNext`, in order, or `none` when a call took an ill-formed `Substring`. -/
def nsPathsDirectoryEnumerator.drain {σ : Type} (env : Env σ) (b : Build) :
    Nat → nsPathsDirectoryEnumerator → σ → Option (List Path)
  | 0, _, _ => some []
  | n + 1, e, w =>
    match nsPathsDirectoryEnumerator.HasMoreElements env b e w with
    | none => none
    | some h =>
      if h.1 then
        match nsPathsDirectoryEnumerator.GetNext env b h.2.1 h.2.2 with
        | none => none
        | some g =>
          (nsPathsDirectoryEnumerator.drain env b n g.2.1 g.2.2).map (fun out => g.1.2.toList ++ out)
      else some []

/-- The reference sequence for a path list: the loop body is applied from the
start of the list until the terminator is reached, and every iteration
contributes the file it found, if any (`none` when an iteration takes an
ill-formed `Substring`). The first argument bounds the number of iterations. -/
def pathListExisting {σ : Type} (env : Env σ) (sep : Char) (w : σ) :
    Nat → CPtr → Option (List Path)
  | 0, _ => some []
  | n + 1, p =>
    if p.deref = NUL then some []
    else
      match nsPathsDirectoryEnumerator.pathStep env sep w p with
      | none => none
      | some r => (pathListExisting env sep w n r.1).map (fun out => r.2.toList ++ out)

/-- The reference sequence of a whole path list (a null pointer holds no entry). -/
def pathListEntries {σ : Type} (env : Env σ) (sep : Char) (w : σ) : Option CPtr → Option (List Path)
  | none => some []
  | some p => pathListExisting env sep w p.length p

/-- The two operations of `nsISimpleEnumerator`. -/
inductive Call where
  | hasMoreElements
  | getNext
deriving DecidableEq, Repr

/-- What a caller observes of one call: `*aResult` of `HasMoreElements`, or the
result code and `*aResult` of `GetNext`. -/
inductive Obs where
  | more (r : Bool)
  | next (rv : Nsresult) (f : Option Path)
deriving DecidableEq, Repr

/-- A sequence of calls on an `nsAppDirectoryEnumerator`, the world being changed
only by the calls themselves: the observations, the enumerator and the world at
the end. -/
def nsAppDirectoryEnumerator.run {σ : Type} (env : Env σ) :
    List Call → nsAppDirectoryEnumerator → σ → List Obs × nsAppDirectoryEnumerator × σ
  | [], e, w => ([], e, w)
  | Call.hasMoreElements :: cs, e, w =>
    let h := nsAppDirectoryEnumerator.HasMoreElements env e w
    let r := nsAppDirectoryEnumerator.run env cs h.2.1 h.2.2
    (Obs.more h.1 :: r.1, r.2)
  | Call.getNext :: cs, e, w =>
    let g := nsAppDirectoryEnumerator.GetNext env e w
    let r := nsAppDirectoryEnumerator.run env cs g.2.1 g.2.2
    (Obs.next g.1.1 g.1.2 :: r.1, r.2)

/-- A sequence of calls on an `nsPathsDirectoryEnumerator`, the world being changed
only by the calls themselves (`none` when a call took an ill-formed `Substring`). -/
def nsPathsDirectoryEnumerator.run {σ : Type} (env : Env σ) (b : Build) :
    List Call → nsPathsDirectoryEnumerator → σ →
      Option (List Obs × nsPathsDirectoryEnumerator × σ)
  | [], e, w => some ([], e, w)
  | Call.hasMoreElements :: cs, e, w =>
    match nsPathsDirectoryEnumerator.HasMoreElements env b e w with
    | none => none
    | some h =>
      (nsPathsDirectoryEnumerator.run env b cs h.2.1 h.2.2).map
        (fun r => (Obs.more h.1 :: r.1, r.2))
  | Call.getNext :: cs, e, w =>
    match nsPathsDirectoryEnumerator.GetNext env b e w with
    | none => none
    | some g =>
      (nsPathsDirectoryEnumerator.run env b cs g.2.1 g.2.2).map
        (fun r => (Obs.next g.1.1 g.1.2 :: r.1, r.2))

/-- A sequence of calls on an `nsAppDirectoryEnumerator` in a world that changes
freely: every call comes with the provider, the file system and the world state
it meets. The observations and the enumerator at the end. -/
def nsAppDirectoryEnumerator.runOpen {σ : Type} :
    List (Call × Env σ × σ) → nsAppDirectoryEnumerator → List Obs × nsAppDirectoryEnumerator
  | [], e => ([], e)
  | (Call.hasMoreElements, env, w) :: cs, e =>
    let h := nsAppDirectoryEnumerator.HasMoreElements env e w
    let r := nsAppDirectoryEnumerator.runOpen cs h.2.1
    (Obs.more h.1 :: r.1, r.2)
  | (Call.getNext, env, w) :: cs, e =>
    let g := nsAppDirectoryEnumerator.GetNext env e w
    let r := nsAppDirectoryEnumerator.runOpen cs g.2.1
    (Obs.next g.1.1 g.1.2 :: r.1, r.2)

/-- A sequence of calls on an `nsPathsDirectoryEnumerator` in a world that changes
freely (`none` when a call took an ill-formed `Substring`). -/
def nsPathsDirectoryEnumerator.runOpen {σ : Type} (b : Build) :
    List (Call × Env σ × σ) → nsPathsDirectoryEnumerator →
      Option (List Obs × nsPathsDirectoryEnumerator)
  | [], e => some ([], e)
  | (Call.hasMoreElements, env, w) :: cs, e =>
    match nsPathsDirectoryEnumerator.HasMoreElements env b e w with
    | none => none
    | some h =>
      (nsPathsDirectoryEnumerator.runOpen b cs h.2.1).map (fun r => (Obs.more h.1 :: r.1, r.2))
  | (Call.getNext, env, w) :: cs, e =>
    match nsPathsDirectoryEnumerator.GetNext env b e w with
    | none => none
    | some g =>
      (nsPathsDirectoryEnumerator.runOpen b cs g.2.1).map
        (fun r => (Obs.next g.1.1 g.1.2 :: r.1, r.2))

/-- A build for a Unix-like system (separator `:`), none of the options set. -/
def unixBuild : Build :=
  { MOZ_WIDGET_COCOA := false, XP_WIN := false, XP_UNIX := true,
    ENABLE_SYSTEM_EXTENSION_DIRS := false, TOR_BROWSER_DATA_OUTSIDE_APP_DIR := false,
    USR_LIB64 := false, BSD := false }

/-- What an `nsPathsDirectoryEnumerator` still has to hand out: the buffered file,
then the reference sequence of the rest of the path list, then the reference
sequence of the remaining keys. -/
def nsPathsDirectoryEnumerator.pending {σ : Type} (env : Env σ) (b : Build)
    (e : nsPathsDirectoryEnumerator) (w : σ) : Option (List Path) :=
  (pathListEntries env (PATH_SEPARATOR b) w e.mEndPath).map
    (fun ps => e.mNext.toList ++ (ps ++ resolvedExisting env e.mCurrentKey w))

/-- What is left to scan: the distance of `mEndPath` to the terminator plus the
number of remaining keys. -/
def nsPathsDirectoryEnumerator.size (e : nsPathsDirectoryEnumerator) : Nat :=
  (match e.mEndPath with
    | none => 0
    | some p => p.length) + e.mCurrentKey.length

/-- Whether the path list still has characters to scan: `mEndPath && *mEndPath`. -/
def nsPathsDirectoryEnumerator.pathListLeft (e : nsPathsDirectoryEnumerator) : Bool :=
  match e.mEndPath with
  | none => false
  | some p => p.deref != NUL

/-- What a caller observes of a call on an enumerator that has nothing left:
`HasMoreElements` reports `false`, `GetNext` fails with `NS_ERROR_FAILURE` and
hands out nothing. -/
def Obs.exhausted : Call → Obs
  | Call.hasMoreElements => Obs.more false
  | Call.getNext => Obs.next NS_ERROR_FAILURE none

/-- An environment in which every key resolves to `/late` and every file exists. -/
def lateEnv : Env Unit where
  GetFile := fun _ w => ((NS_OK, some "/late"), w)
  Exists := fun _ _ => (NS_OK, true)
  NS_NewNativeLocalFile := fun s => some (String.mk s)

/-! ## The outside world of the provider -/

/-- A failure code: a result code with the severity bit set. -/
structure Failure where
  rv : Nsresult
  failed : NS_FAILED rv = true
deriving DecidableEq, Repr

/-- The outcome of a call into code outside this file that hands back an object
through an out-parameter: `NS_OK` with the object, or a failure code with the
out-parameter left null. -/
abbrev XResult (α : Type) := Except Failure α

/-- The result code of an outcome. -/
def XResult.code {α : Type} : XResult α → Nsresult
  | Except.ok _ => NS_OK
  | Except.error e => e.rv

/-- The constants of `nsAppDirectoryServiceDefs.h`, `nsDirectoryServiceDefs.h` and
`nsXULAppAPI.h` the file uses, which are not part of it. -/
structure Defs where
  NS_APP_APPLICATION_REGISTRY_DIR : String
  NS_APP_APPLICATION_REGISTRY_FILE : String
  NS_APP_DEFAULTS_50_DIR : String
  NS_APP_PREF_DEFAULTS_50_DIR : String
  NS_APP_USER_PROFILES_ROOT_DIR : String
  NS_APP_USER_PROFILES_LOCAL_ROOT_DIR : String
  NS_APP_RES_DIR : String
  NS_APP_CHROME_DIR : String
  NS_APP_PLUGINS_DIR : String
  NS_APP_SEARCH_DIR : String
  NS_APP_USER_SEARCH_DIR : String
  NS_APP_INSTALL_CLEANUP_DIR : String
  NS_APP_USER_PROFILE_50_DIR : String
  NS_APP_PLUGINS_DIR_LIST : String
  NS_APP_SEARCH_DIR_LIST : String
  NS_APP_DISTRIBUTION_SEARCH_DIR_LIST : String
  NS_XPCOM_CURRENT_PROCESS_DIR : String
  NS_OS_CURRENT_PROCESS_DIR : String
  XRE_EXECUTABLE_FILE : String
deriving DecidableEq, Repr

/-- The values these constants have in the Mozilla headers. -/
def mozillaDefs : Defs where
  NS_APP_APPLICATION_REGISTRY_DIR := "AppRegD"
  NS_APP_APPLICATION_REGISTRY_FILE := "AppRegF"
  NS_APP_DEFAULTS_50_DIR := "DefRt"
  NS_APP_PREF_DEFAULTS_50_DIR := "PrfDef"
  NS_APP_USER_PROFILES_ROOT_DIR := "DefProfRt"
  NS_APP_USER_PROFILES_LOCAL_ROOT_DIR := "DefProfLRt"
  NS_APP_RES_DIR := "ARes"
  NS_APP_CHROME_DIR := "AChrom"
  NS_APP_PLUGINS_DIR := "APlugns"
  NS_APP_SEARCH_DIR := "SrchPlugns"
  NS_APP_USER_SEARCH_DIR := "UsrSrchPlugns"
  NS_APP_INSTALL_CLEANUP_DIR := "XPIClnupD"
  NS_APP_USER_PROFILE_50_DIR := "ProfD"
  NS_APP_PLUGINS_DIR_LIST := "APluginsDL"
  NS_APP_SEARCH_DIR_LIST := "SrchPluginsDL"
  NS_APP_DISTRIBUTION_SEARCH_DIR_LIST := "SrchPluginsDistDL"
  NS_XPCOM_CURRENT_PROCESS_DIR := "XCurProcD"
  NS_OS_CURRENT_PROCESS_DIR := "CurProcD"
  XRE_EXECUTABLE_FILE := "XREExeF"

/-- The locally defined keys (lines 50-59). -/
def NS_ENV_PLUGINS_DIR : String := "EnvPlugins"
def NS_USER_PLUGINS_DIR : String := "UserPlugins"
def NS_MACOSX_USER_PLUGIN_DIR : String := "OSXUserPlugins"
def NS_MACOSX_LOCAL_PLUGIN_DIR : String := "OSXLocalPlugins"
def NS_MACOSX_JAVA2_PLUGIN_DIR : String := "OSXJavaPlugins"
def NS_SYSTEM_PLUGINS_DIR : String := "SysPlugins"

/-- The directory names (lines 61-66). -/
def DEFAULTS_DIR_NAME : String := "defaults"
def DEFAULTS_PREF_DIR_NAME : String := "pref"
def RES_DIR_NAME : String := "res"
def CHROME_DIR_NAME : String := "chrome"
def PLUGINS_DIR_NAME : String := "plugins"
def SEARCH_DIR_NAME : String := "searchplugins"

/-- The macro `APP_REGISTRY_NAME` (lines 37-44). -/
def APP_REGISTRY_NAME (b : Build) : String :=
  if b.MOZ_WIDGET_COCOA then "Application Registry"
  else if b.XP_WIN then "registry.dat"
  else "appreg"

/-- The macro `XPCOM_FILE_PATH_SEPARATOR` of `nsXPCOMPrivate.h`. -/
def XPCOM_FILE_PATH_SEPARATOR (b : Build) : String := if b.XP_WIN then "\\" else "/"

/-- The constant `nsIFile::DIRECTORY_TYPE`. -/
def DIRECTORY_TYPE : Nat := 1

/-- The two folder domains passed to `FSFindFolder`. -/
inductive FSDomain where
  | kUserDomain
  | kLocalDomain
deriving DecidableEq, Repr

/-- An address in the storage that holds the strings of the environment: what a
non-null `char*` handed back by `PR_GetEnv` is. -/
abbrev Addr := Nat

/-- The code outside the file that the provider calls, over a world of type `σ`.
A call that may change or be recorded by the world returns the world afterwards.
* `do_GetService`: the result code of
  `do_GetService(NS_DIRECTORY_SERVICE_CONTRACTID, &rv)`;
* `directoryService_Get k`: `directoryService->Get(k, NS_GET_IID(nsIFile), ...)`;
* `TorBrowser_GetUserDataDir exe`, `NS_GetSpecialDirectory k`;
* `PR_GetEnv name`: the pointer `PR_GetEnv(name)` returns, `none` for the null
  pointer (the variable is unset);
* `charsAt a`: what reading through a pointer finds, the characters the storage
  holds from address `a` up to the first terminator in that world. The storage is
  not owned by the provider: the same address may hold other characters in a later
  world;
* `Exists f`, `Create f type permissions`, `Clone f` (the result code; the clone is
  a copy of `f`), `AppendNative f name`, `AppendRelativeNativePath f name` (on
  failure the file is left as it was): the `nsIFile` methods;
* `NS_NewNativeLocalFile path`;
* `FSFindFolder domain` (the folder reference when the call returns `noErr`),
  `NS_NewLocalFileWithFSRef ref`, `Gestalt` (the system version when the call
  returns `noErr`): Mac OS X only. -/
structure Sys (σ : Type) where
  do_GetService : σ → Nsresult × σ
  directoryService_Get : String → σ → XResult Path × σ
  TorBrowser_GetUserDataDir : Path → σ → XResult Path × σ
  NS_GetSpecialDirectory : String → σ → XResult Path × σ
  PR_GetEnv : String → σ → Option Addr
  charsAt : Addr → σ → CPtr
  Exists : Path → σ → Nsresult × Bool
  Create : Path → Nat → Nat → σ → Nsresult × σ
  Clone : Path → Nsresult
  AppendNative : Path → String → XResult Path
  AppendRelativeNativePath : Path → String → XResult Path
  NS_NewNativeLocalFile : List Char → XResult Path
  FSFindFolder : FSDomain → σ → Option Nat × σ
  NS_NewLocalFileWithFSRef : Nat → XResult Path
  Gestalt : σ → Option Nat

/-! ## nsAppFileLocationProvider (lines 72-357) -/

/-- The field of `nsAppFileLocationProvider`. -/
structure nsAppFileLocationProvider where
  mMozBinDirectory : Option Path
deriving DecidableEq, Repr

/-- The constructor (lines 72-74). -/
def nsAppFileLocationProvider.new : nsAppFileLocationProvider :=
  { mMozBinDirectory := none }

/-- The end of `CloneMozBinDirectory` (lines 262-269): clone `mMozBinDirectory`. -/
def nsAppFileLocationProvider.cloneBin {σ : Type} (sys : Sys σ) (dir : Path)
    (self : nsAppFileLocationProvider) (w : σ) :
    (Nsresult × Option Path) × nsAppFileLocationProvider × σ :=
  let rv := sys.Clone dir
  if NS_FAILED rv then ((rv, none), self, w)
  else ((NS_OK, some dir), self, w)

/-- `nsAppFileLocationProvider::CloneMozBinDirectory` (lines 232-270) with a non-null
`aLocalFile`: the result code and `*aLocalFile`, the provider and the world afterwards. -/
def nsAppFileLocationProvider.CloneMozBinDirectory {σ : Type} (sys : Sys σ) (d : Defs)
    (self : nsAppFileLocationProvider) (w : σ) :
    (Nsresult × Option Path) × nsAppFileLocationProvider × σ :=
  match self.mMozBinDirectory with
  | some dir => nsAppFileLocationProvider.cloneBin sys dir self w
  | none =>
    let s := sys.do_GetService w
    if NS_FAILED s.1 then ((s.1, none), self, s.2)
    else
      let g1 := sys.directoryService_Get d.NS_XPCOM_CURRENT_PROCESS_DIR s.2
      match g1.1 with
      | Except.ok dir =>
        nsAppFileLocationProvider.cloneBin sys dir { mMozBinDirectory := some dir } g1.2
      | Except.error _ =>
        let g2 := sys.directoryService_Get d.NS_OS_CURRENT_PROCESS_DIR g1.2
        match g2.1 with
        | Except.ok dir =>
          nsAppFileLocationProvider.cloneBin sys dir { mMozBinDirectory := some dir } g2.2
        | Except.error e => ((e.rv, none), self, g2.2)

/-- `nsAppFileLocationProvider::GetProductDirectory` (lines 285-332) with a non-null
`aLocalFile`: the result code and `*aLocalFile`, and the world afterwards. -/
def nsAppFileLocationProvider.GetProductDirectory {σ : Type} (sys : Sys σ) (b : Build)
    (d : Defs) (aLocal : Bool) (w : σ) : (Nsresult × Option Path) × σ :=
  let s := sys.do_GetService w
  if NS_FAILED s.1 then ((s.1, none), s.2)
  else
    let g := sys.directoryService_Get d.XRE_EXECUTABLE_FILE s.2
    match g.1 with
    | Except.error e => ((e.rv, none), g.2)
    | Except.ok exeFile =>
      let u := sys.TorBrowser_GetUserDataDir exeFile g.2
      match u.1 with
      | Except.error e => ((e.rv, none), u.2)
      | Except.ok localDir0 =>
        let a :=
          if b.TOR_BROWSER_DATA_OUTSIDE_APP_DIR then sys.AppendNative localDir0 "Browser"
          else sys.AppendRelativeNativePath localDir0
            ("Data" ++ XPCOM_FILE_PATH_SEPARATOR b ++ "Browser")
        match a with
        | Except.error e => ((e.rv, none), u.2)
        | Except.ok localDir1 =>
          let c := if aLocal then sys.AppendNative localDir1 "Caches" else Except.ok localDir1
          match c with
          | Except.error e => ((e.rv, none), u.2)
          | Except.ok localDir =>
            let x := sys.Exists localDir u.2
            let cr :=
              if NS_SUCCEEDED x.1 && !x.2 then sys.Create localDir DIRECTORY_TYPE 0o700 u.2
              else (x.1, u.2)
            if NS_FAILED cr.1 then ((cr.1, none), cr.2)
            else ((cr.1, some localDir), cr.2)

/-- `nsAppFileLocationProvider::GetDefaultUserProfileRoot` (lines 338-357). -/
def nsAppFileLocationProvider.GetDefaultUserProfileRoot {σ : Type} (sys : Sys σ) (b : Build)
    (d : Defs) (aLocal : Bool) (w : σ) : (Nsresult × Option Path) × σ :=
  let r := nsAppFileLocationProvider.GetProductDirectory sys b d aLocal w
  if NS_FAILED r.1.1 then ((r.1.1, none), r.2)
  else r

/-- The result code and the out-parameter of an outcome. -/
def XResult.out : XResult Path → Nsresult × Option Path
  | Except.ok f => (NS_OK, some f)
  | Except.error e => (e.rv, none)

/-- The characters of the C string at `p`: `nsDependentCString(p)`. -/
def CPtr.cstr (p : CPtr) : List Char := p.takeWhile (fun c => c != NUL)

/-- The pattern `if (NS_SUCCEEDED(rv)) rv = localFile->Append...(name);` applied to a
result code and `localFile` (with whatever state comes along): a failed append
leaves `localFile` as it was. -/
def thenAppend {S : Type} (append : Path → String → XResult Path) (name : String)
    (r : (Nsresult × Option Path) × S) : (Nsresult × Option Path) × S :=
  if NS_SUCCEEDED r.1.1 then
    match r.1.2 with
    | some f =>
      match append f name with
      | Except.ok f1 => ((NS_OK, some f1), r.2)
      | Except.error e => ((e.rv, some f), r.2)
    | none => r
  else r

/-- The string `sysLPlgDir` (lines 191-198). -/
def sysLPlgDir (b : Build) : String :=
  if b.USR_LIB64 then "/usr/lib64/mozilla/plugins"
  else if b.BSD then "/usr/local/lib/mozilla/plugins"
  else "/usr/lib/mozilla/plugins"

/-- The string `java2PluginDirPath` (lines 165-166). -/
def java2PluginDirPath : String :=
  "/System/Library/Java/Support/Deploy.bundle/Contents/Resources/"

/-- The Mac OS X branches for a plug-in folder (lines 148-163): `rv` and `localFile`. -/
def macPluginFolder {σ : Type} (sys : Sys σ) (domain : FSDomain) (w : σ) :
    (Nsresult × Option Path) × σ :=
  let r := sys.FSFindFolder domain w
  match r.1 with
  | some fileRef => ((sys.NS_NewLocalFileWithFSRef fileRef).out, r.2)
  | none => ((NS_ERROR_FAILURE, none), r.2)

/-- The keys `GetFile` compares `aProp` with, for a build. -/
def recognizedKeys (b : Build) (d : Defs) : List String :=
  [d.NS_APP_APPLICATION_REGISTRY_DIR, d.NS_APP_APPLICATION_REGISTRY_FILE,
    d.NS_APP_DEFAULTS_50_DIR, d.NS_APP_PREF_DEFAULTS_50_DIR,
    d.NS_APP_USER_PROFILES_ROOT_DIR, d.NS_APP_USER_PROFILES_LOCAL_ROOT_DIR,
    d.NS_APP_RES_DIR, d.NS_APP_CHROME_DIR, d.NS_APP_PLUGINS_DIR]
  ++ (if b.MOZ_WIDGET_COCOA then
        [NS_MACOSX_USER_PLUGIN_DIR, NS_MACOSX_LOCAL_PLUGIN_DIR, NS_MACOSX_JAVA2_PLUGIN_DIR]
      else
        [NS_ENV_PLUGINS_DIR, NS_USER_PLUGINS_DIR]
        ++ (if b.XP_UNIX then [NS_SYSTEM_PLUGINS_DIR] else []))
  ++ [d.NS_APP_SEARCH_DIR, d.NS_APP_USER_SEARCH_DIR, d.NS_APP_INSTALL_CLEANUP_DIR]

/-- The chain of comparisons of `GetFile` (lines 107-221) for a non-null `aProp`:
`rv` and `localFile`, then `*aResult`, then the provider and the world. `rv` starts
as `NS_ERROR_FAILURE`, `localFile` and `*aResult` as null. The calls of
`GetProductDirectory` and `GetDefaultUserProfileRoot` with one argument take the
default `aLocal = false` of the class declaration. -/
def nsAppFileLocationProvider.branches {σ : Type} (sys : Sys σ) (b : Build) (d : Defs)
    (aProp : String) (self : nsAppFileLocationProvider) (w : σ) :
    ((Nsresult × Option Path) × Option Path) × nsAppFileLocationProvider × σ :=
  let product := fun (aLocal : Bool) =>
    nsAppFileLocationProvider.GetProductDirectory sys b d aLocal w
  let bin := nsAppFileLocationProvider.CloneMozBinDirectory sys d self w
  let plain := fun (r : (Nsresult × Option Path) × σ) =>
    (((r.1, none) : (Nsresult × Option Path) × Option Path), self, r.2)
  let withBin := fun (r : (Nsresult × Option Path) × nsAppFileLocationProvider × σ) =>
    (((r.1, none) : (Nsresult × Option Path) × Option Path), r.2)
  if aProp = d.NS_APP_APPLICATION_REGISTRY_DIR then
    plain (product false)
  else if aProp = d.NS_APP_APPLICATION_REGISTRY_FILE then
    plain (thenAppend sys.AppendNative (APP_REGISTRY_NAME b) (product false))
  else if aProp = d.NS_APP_DEFAULTS_50_DIR then
    withBin (thenAppend sys.AppendRelativeNativePath DEFAULTS_DIR_NAME bin)
  else if aProp = d.NS_APP_PREF_DEFAULTS_50_DIR then
    withBin (thenAppend sys.AppendRelativeNativePath DEFAULTS_PREF_DIR_NAME
      (thenAppend sys.AppendRelativeNativePath DEFAULTS_DIR_NAME bin))
  else if aProp = d.NS_APP_USER_PROFILES_ROOT_DIR then
    plain (nsAppFileLocationProvider.GetDefaultUserProfileRoot sys b d false w)
  else if aProp = d.NS_APP_USER_PROFILES_LOCAL_ROOT_DIR then
    plain (nsAppFileLocationProvider.GetDefaultUserProfileRoot sys b d true w)
  else if aProp = d.NS_APP_RES_DIR then
    withBin (thenAppend sys.AppendRelativeNativePath RES_DIR_NAME bin)
  else if aProp = d.NS_APP_CHROME_DIR then
    withBin (thenAppend sys.AppendRelativeNativePath CHROME_DIR_NAME bin)
  else if aProp = d.NS_APP_PLUGINS_DIR then
    withBin (thenAppend sys.AppendRelativeNativePath PLUGINS_DIR_NAME bin)
  else if b.MOZ_WIDGET_COCOA = true ∧ aProp = NS_MACOSX_USER_PLUGIN_DIR then
    plain (macPluginFolder sys FSDomain.kUserDomain w)
  else if b.MOZ_WIDGET_COCOA = true ∧ aProp = NS_MACOSX_LOCAL_PLUGIN_DIR then
    plain (macPluginFolder sys FSDomain.kLocalDomain w)
  else if b.MOZ_WIDGET_COCOA = true ∧ aProp = NS_MACOSX_JAVA2_PLUGIN_DIR then
    plain ((sys.NS_NewNativeLocalFile java2PluginDirPath.toList).out, w)
  else if b.MOZ_WIDGET_COCOA = false ∧ aProp = NS_ENV_PLUGINS_DIR then
    match sys.PR_GetEnv "MOZ_PLUGIN_PATH" w with
    | some pathVar =>
      if (sys.charsAt pathVar w).deref ≠ NUL then
        plain ((sys.NS_NewNativeLocalFile (sys.charsAt pathVar w).cstr).out, w)
      else plain ((NS_ERROR_FAILURE, none), w)
    | none => plain ((NS_ERROR_FAILURE, none), w)
  else if b.MOZ_WIDGET_COCOA = false ∧ aProp = NS_USER_PLUGINS_DIR then
    if b.ENABLE_SYSTEM_EXTENSION_DIRS then
      plain (thenAppend sys.AppendRelativeNativePath PLUGINS_DIR_NAME (product false))
    else plain ((NS_ERROR_FAILURE, none), w)
  else if b.MOZ_WIDGET_COCOA = false ∧ b.XP_UNIX = true ∧ aProp = NS_SYSTEM_PLUGINS_DIR then
    if b.ENABLE_SYSTEM_EXTENSION_DIRS then
      plain ((sys.NS_NewNativeLocalFile (sysLPlgDir b).toList).out, w)
    else plain ((NS_ERROR_FAILURE, none), w)
  else if aProp = d.NS_APP_SEARCH_DIR then
    withBin (thenAppend sys.AppendRelativeNativePath SEARCH_DIR_NAME bin)
  else if aProp = d.NS_APP_USER_SEARCH_DIR then
    let s := sys.NS_GetSpecialDirectory d.NS_APP_USER_PROFILE_50_DIR w
    match s.1 with
    | Except.ok f =>
      match sys.AppendNative f SEARCH_DIR_NAME with
      | Except.ok f1 => (((NS_OK, none), some f1), self, s.2)
      | Except.error e => (((e.rv, none), some f), self, s.2)
    | Except.error e => (((e.rv, none), none), self, s.2)
  else if aProp = d.NS_APP_INSTALL_CLEANUP_DIR then
    withBin bin
  else
    (((NS_ERROR_FAILURE, none), none), self, w)

/-- `nsAppFileLocationProvider::GetFile` (lines 88-229): the result code and
`*aResult` (null before the call), the provider and the world afterwards.
`*aPersistent` is `true` after every call with a non-null `aProp`. -/
def nsAppFileLocationProvider.GetFile {σ : Type} (sys : Sys σ) (b : Build) (d : Defs)
    (aProp : Option String) (self : nsAppFileLocationProvider) (w : σ) :
    (Nsresult × Option Path) × nsAppFileLocationProvider × σ :=
  match aProp with
  | none => ((NS_ERROR_INVALID_ARG, none), self, w)
  | some aProp =>
    let r := nsAppFileLocationProvider.branches sys b d aProp self w
    if r.1.1.2.isSome && NS_SUCCEEDED r.1.1.1 then ((NS_OK, r.1.1.2), r.2)
    else ((r.1.1.1, r.1.2), r.2)

/-- The provider as the enumerators see it: the world of an enumerator is the
provider together with the outside world. -/
def nsAppFileLocationProvider.env {σ : Type} (sys : Sys σ) (b : Build) (d : Defs) :
    Env (nsAppFileLocationProvider × σ) where
  GetFile := fun k s =>
    ((nsAppFileLocationProvider.GetFile sys b d (some k) s.1 s.2).1,
      (nsAppFileLocationProvider.GetFile sys b d (some k) s.1 s.2).2)
  Exists := fun f s => sys.Exists f s.2
  NS_NewNativeLocalFile := fun path => (sys.NS_NewNativeLocalFile path).out.2

/-! ## GetFiles (lines 500-575) -/

/-- A non-null value of `keys[0]` (lines 533-536, 544-547): the pointer that
`PR_GetEnv` returned, or the address of the static `nullstr`. -/
inductive KeyPtr where
  | env (a : Addr)
  | nullstr
deriving DecidableEq, Repr

/-- Reading through `keys[0]`: the characters from the pointer up to the terminator
as the storage holds them in the world `w`; `nullstr` is constant and holds the
terminator only. -/
def KeyPtr.chars {σ : Type} (sys : Sys σ) (w : σ) : KeyPtr → CPtr
  | KeyPtr.env a => sys.charsAt a w
  | KeyPtr.nullstr => []

/-- The variables with static storage duration: `version` of `IsOSXLeopard`, and of
the three `keys` arrays of `GetFiles` what is not constant: whether the Mac OS X
array has been initialised (and then its keys before the first null), and the
pointer `keys[0]` of the plug-in and of the search array (null at program start). -/
structure Statics where
  version : Nat
  cocoaKeys : Option (List String)
  pluginKeys0 : Option KeyPtr
  searchKeys0 : Option KeyPtr
deriving DecidableEq, Repr

/-- The statics at program start. -/
def Statics.initial : Statics :=
  { version := 0, cocoaKeys := none, pluginKeys0 := none, searchKeys0 := none }

/-- `nsAppFileLocationProvider::IsOSXLeopard` (lines 559-574): the result and
`version` afterwards. -/
def IsOSXLeopard {σ : Type} (sys : Sys σ) (version : Nat) (w : σ) : Bool × Nat :=
  let version1 :=
    if version = 0 then
      match sys.Gestalt w with
      | none => 0
      | some v => v % 2 ^ 16
    else version
  (decide (0x1050 ≤ version1) && decide (version1 < 0x1060), version1)

/-- What `GetFiles` hands back. -/
inductive Enumerator where
  | app (e : nsAppDirectoryEnumerator)
  | paths (e : nsPathsDirectoryEnumerator)
  | empty
deriving DecidableEq, Repr

/-- Modelled from the spec: `NS_NewEmptyEnumerator` of `nsEnumeratorUtils`, which is
not part of this file. The request it serves "is defined to always yield an empty
sequence regardless of provider state, a deliberate, documented no-op, not an
error": the call succeeds and hands back an enumerator without elements. -/
def NS_NewEmptyEnumerator : Nsresult × Option Enumerator := (NS_OK, some Enumerator.empty)

/-- Modelled from the spec: `HasMoreElements` of the enumerator that
`NS_NewEmptyEnumerator` hands back, which is not part of this file. The request
"returns a cursor whose first `has_next()` call is false". -/
def emptyEnumeratorHasMoreElements : Bool := false

/-- `HasMoreElements` on what `GetFiles` hands back. -/
def Enumerator.HasMoreElements {σ : Type} (env : Env σ) (b : Build) :
    Enumerator → σ → Option (Bool × Enumerator × σ)
  | Enumerator.app e, w =>
    let h := nsAppDirectoryEnumerator.HasMoreElements env e w
    some (h.1, Enumerator.app h.2.1, h.2.2)
  | Enumerator.paths e, w =>
    (nsPathsDirectoryEnumerator.HasMoreElements env b e w).map
      (fun h => (h.1, Enumerator.paths h.2.1, h.2.2))
  | Enumerator.empty, w => some (emptyEnumeratorHasMoreElements, Enumerator.empty, w)

/-- The statement `if (!keys[0] && !(keys[0] = PR_GetEnv(name))) keys[0] = &nullstr;`
(lines 533-536, 544-547): the pointer `keys[0]` afterwards. -/
def pathListSlot {σ : Type} (sys : Sys σ) (name : String) (keys0 : Option KeyPtr) (w : σ) :
    KeyPtr :=
  match keys0 with
  | some p => p
  | none =>
    match sys.PR_GetEnv name w with
    | some a => KeyPtr.env a
    | none => KeyPtr.nullstr

/-- `nsAppFileLocationProvider::GetFiles` (lines 500-556) with a non-null `aResult`:
the result code and `*aResult`, and the statics afterwards. The constructor of
`nsPathsDirectoryEnumerator` copies the pointer `keys[0]` into `mEndPath` (line
453); the enumerator handed back is the one over the characters that pointer leads
to in the world of the call, the storage being taken as unchanged for as long as
that enumerator is in use. -/
def nsAppFileLocationProvider.GetFiles {σ : Type} (sys : Sys σ) (b : Build) (d : Defs)
    (aProp : String) (st : Statics) (w : σ) : (Nsresult × Option Enumerator) × Statics :=
  let r1 : (Nsresult × Option Enumerator) × Statics :=
    if aProp = d.NS_APP_PLUGINS_DIR_LIST then
      if b.MOZ_WIDGET_COCOA then
        match st.cocoaKeys with
        | some keys => ((NS_OK, some (Enumerator.app (nsAppDirectoryEnumerator.new keys))), st)
        | none =>
          let leopard := IsOSXLeopard sys st.version w
          let keys := [d.NS_APP_PLUGINS_DIR, NS_MACOSX_USER_PLUGIN_DIR, NS_MACOSX_LOCAL_PLUGIN_DIR]
            ++ (if leopard.1 then [NS_MACOSX_JAVA2_PLUGIN_DIR] else [])
          ((NS_OK, some (Enumerator.app (nsAppDirectoryEnumerator.new keys))),
            { st with version := leopard.2, cocoaKeys := some keys })
      else
        let keys0 := pathListSlot sys "MOZ_PLUGIN_PATH" st.pluginKeys0 w
        let keys := [NS_USER_PLUGINS_DIR, d.NS_APP_PLUGINS_DIR]
          ++ (if b.XP_UNIX then [NS_SYSTEM_PLUGINS_DIR] else [])
        ((NS_OK, some (Enumerator.paths
            (nsPathsDirectoryEnumerator.new (some (keys0.chars sys w)) keys))),
          { st with pluginKeys0 := some keys0 })
    else ((NS_ERROR_FAILURE, none), st)
  let r2 : (Nsresult × Option Enumerator) × Statics :=
    if aProp = d.NS_APP_SEARCH_DIR_LIST then
      let keys0 := pathListSlot sys "MOZ_SEARCH_ENGINE_PATH" r1.2.searchKeys0 w
      ((NS_OK, some (Enumerator.paths
          (nsPathsDirectoryEnumerator.new (some (keys0.chars sys w)) [d.NS_APP_USER_SEARCH_DIR]))),
        { r1.2 with searchKeys0 := some keys0 })
    else r1
  if aProp = d.NS_APP_DISTRIBUTION_SEARCH_DIR_LIST then (NS_NewEmptyEnumerator, r2.2)
  else r2

/-! ## A concrete outside world -/

/-- The failure code `NS_ERROR_FAILURE` as an outcome. -/
def Failure.generic : Failure := ⟨NS_ERROR_FAILURE, by decide⟩

/-- A small outside world whose state is the value of the environment variable
`MOZ_PLUGIN_PATH` (`none` when unset), kept at address 0: the profile directory is
`/profile` and is the only file that exists, `AppendNative` fails, the directory
service knows no directory. -/
def demoSys : Sys (Option CPtr) where
  do_GetService := fun w => (NS_OK, w)
  directoryService_Get := fun _ w => (Except.error Failure.generic, w)
  TorBrowser_GetUserDataDir := fun _ w => (Except.error Failure.generic, w)
  NS_GetSpecialDirectory := fun k w =>
    (if k = "ProfD" then Except.ok "/profile" else Except.error Failure.generic, w)
  PR_GetEnv := fun name w => if name = "MOZ_PLUGIN_PATH" then w.map (fun _ => 0) else none
  charsAt := fun a w => if a = 0 then w.getD [] else []
  Exists := fun f _ => (NS_OK, decide (f = "/profile"))
  Create := fun _ _ _ w => (NS_ERROR_FAILURE, w)
  Clone := fun _ => NS_OK
  AppendNative := fun _ _ => Except.error Failure.generic
  AppendRelativeNativePath := fun f name => Except.ok (f ++ "/" ++ name)
  NS_NewNativeLocalFile := fun path => Except.ok (String.mk path)
  FSFindFolder := fun _ w => (none, w)
  NS_NewLocalFileWithFSRef := fun _ => Except.error Failure.generic
  Gestalt := fun _ => none

/-- The environment as a world: the table of the variables (for a variable that is
set, the address of its value) and the storage (the characters from an address up
to the first terminator). -/
structure Environ where
  vars : String → Option Addr
  storage : Addr → CPtr

/-- The environment without variables, over storage that holds terminators only. -/
def Environ.empty : Environ := { vars := fun _ => none, storage := fun _ => [] }

/-- Writing the string `s` into the storage at address `a`. -/
def Environ.store (e : Environ) (a : Addr) (s : CPtr) : Environ :=
  { e with storage := fun a1 => if a1 = a then s else e.storage a1 }

/-- Making the table entry of the variable `name` point to `a` (`none`: removing
the variable from the table); the storage is left as it is. -/
def Environ.point (e : Environ) (name : String) (a : Option Addr) : Environ :=
  { e with vars := fun n => if n = name then a else e.vars n }

/-- The outside world `demoSys` over such an environment: `PR_GetEnv` looks the
variable up in the table, and reading through a pointer reads the storage. -/
def envSys : Sys Environ where
  do_GetService := fun w => (NS_OK, w)
  directoryService_Get := fun _ w => (Except.error Failure.generic, w)
  TorBrowser_GetUserDataDir := fun _ w => (Except.error Failure.generic, w)
  NS_GetSpecialDirectory := fun k w =>
    (if k = "ProfD" then Except.ok "/profile" else Except.error Failure.generic, w)
  PR_GetEnv := fun name w => w.vars name
  charsAt := fun a w => w.storage a
  Exists := fun f _ => (NS_OK, decide (f = "/profile"))
  Create := fun _ _ _ w => (NS_ERROR_FAILURE, w)
  Clone := fun _ => NS_OK
  AppendNative := fun _ _ => Except.error Failure.generic
  AppendRelativeNativePath := fun f name => Except.ok (f ++ "/" ++ name)
  NS_NewNativeLocalFile := fun path => Except.ok (String.mk path)
  FSFindFolder := fun _ w => (none, w)
  NS_NewLocalFileWithFSRef := fun _ => Except.error Failure.generic
  Gestalt := fun _ => none

/-- The environment in which `MOZ_PLUGIN_PATH` is set to `/o`, stored at address 1. -/
def envSet : Environ :=
  (Environ.empty.store 1 ['/', 'o']).point "MOZ_PLUGIN_PATH" (some 1)

/-- The environment `envSet` after the variable was set to `/n` in newly allocated
storage at address 2: the old string is still at address 1. -/
def envReplaced : Environ :=
  (envSet.store 2 ['/', 'n']).point "MOZ_PLUGIN_PATH" (some 2)

/-- The environment `envSet` after the value was overwritten with `/n` where it
stands, at address 1. -/
def envOverwritten : Environ := envSet.store 1 ['/', 'n']

/-- The environment `envSet` after the variable was removed from the table: the old
string is still at address 1. -/
def envUnset : Environ := envSet.point "MOZ_PLUGIN_PATH" none

/-- Appending relative path components one after the other with
`AppendRelativeNativePath`, stopping at the first failure. -/
def Sys.appendAll {σ : Type} (sys : Sys σ) : Path → List String → XResult Path
  | f, [] => Except.ok f
  | f, name :: names =>
    match sys.AppendRelativeNativePath f name with
    | Except.ok f1 => Sys.appendAll sys f1 names
    | Except.error e => Except.error e

/-- The derived keys with their relative suffixes, as the specification lists them:
defaults, pref defaults, res, chrome, plugins, search. -/
def derivedKeys (d : Defs) : List (String × List String) :=
  [(d.NS_APP_DEFAULTS_50_DIR, ["defaults"]),
   (d.NS_APP_PREF_DEFAULTS_50_DIR, ["defaults", "pref"]),
   (d.NS_APP_RES_DIR, ["res"]),
   (d.NS_APP_CHROME_DIR, ["chrome"]),
   (d.NS_APP_PLUGINS_DIR, ["plugins"]),
   (d.NS_APP_SEARCH_DIR, ["searchplugins"])]

/-- A file system as a world: the files that exist and the `Create` calls made so
far (file, type, permissions), oldest first. -/
structure FS where
  existing : List Path
  creates : List (Path × Nat × Nat)
deriving DecidableEq, Repr

/-- An outside world over a file system: the directory service knows the start-up
process directory `/app` and the executable `/app/firefox`, the user data
directory is `/app/TorBrowser`, appending joins with `/`, a file exists when it is
in the file system, and `Create` adds it and is recorded. -/
def fsSys : Sys FS where
  do_GetService := fun w => (NS_OK, w)
  directoryService_Get := fun k w =>
    (if k = "XCurProcD" then Except.ok "/app"
     else if k = "XREExeF" then Except.ok "/app/firefox"
     else Except.error Failure.generic, w)
  TorBrowser_GetUserDataDir := fun _ w => (Except.ok "/app/TorBrowser", w)
  NS_GetSpecialDirectory := fun _ w => (Except.error Failure.generic, w)
  PR_GetEnv := fun _ _ => none
  charsAt := fun _ _ => []
  Exists := fun f w => (NS_OK, decide (f ∈ w.existing))
  Create := fun f type permissions w =>
    (NS_OK, { existing := f :: w.existing, creates := w.creates ++ [(f, type, permissions)] })
  Clone := fun _ => NS_OK
  AppendNative := fun f name => Except.ok (f ++ "/" ++ name)
  AppendRelativeNativePath := fun f name => Except.ok (f ++ "/" ++ name)
  NS_NewNativeLocalFile := fun path => Except.ok (String.mk path)
  FSFindFolder := fun _ w => (none, w)
  NS_NewLocalFileWithFSRef := fun _ => Except.error Failure.generic
  Gestalt := fun _ => none

/-- The empty file system. -/
def FS.empty : FS := { existing := [], creates := [] }

/-- A sequence of `GetFile` calls on one provider, each made with whatever code
outside the file, key and world it meets: the provider at the end. -/
def nsAppFileLocationProvider.resolveSeq {σ : Type} (b : Build) (d : Defs) :
    List (Sys σ × Option String × σ) → nsAppFileLocationProvider → nsAppFileLocationProvider
  | [], self => self
  | (sys, aProp, w) :: calls, self =>
    nsAppFileLocationProvider.resolveSeq b d calls
      (nsAppFileLocationProvider.GetFile sys b d aProp self w).2.1

/-- The outside world `fsSys` with an `nsIFile` whose `Clone` fails. -/
def cloneFailSys : Sys FS := { fsSys with Clone := fun _ => NS_ERROR_FAILURE }

/-- The first part of `GetProductDirectory` (lines 297-317): the directory
`localDir` whose existence is then checked, or the failure that ends the call
before, and the world afterwards. -/
def nsAppFileLocationProvider.productPath {σ : Type} (sys : Sys σ) (b : Build) (d : Defs)
    (aLocal : Bool) (w : σ) : XResult Path × σ :=
  let s := sys.do_GetService w
  if h : NS_FAILED s.1 = true then (Except.error ⟨s.1, h⟩, s.2)
  else
    let g := sys.directoryService_Get d.XRE_EXECUTABLE_FILE s.2
    match g.1 with
    | Except.error e => (Except.error e, g.2)
    | Except.ok exeFile =>
      let u := sys.TorBrowser_GetUserDataDir exeFile g.2
      match u.1 with
      | Except.error e => (Except.error e, u.2)
      | Except.ok localDir0 =>
        let a :=
          if b.TOR_BROWSER_DATA_OUTSIDE_APP_DIR then sys.AppendNative localDir0 "Browser"
          else sys.AppendRelativeNativePath localDir0
            ("Data" ++ XPCOM_FILE_PATH_SEPARATOR b ++ "Browser")
        match a with
        | Except.error e => (Except.error e, u.2)
        | Except.ok localDir1 =>
          ((if aLocal then sys.AppendNative localDir1 "Caches" else Except.ok localDir1), u.2)

/-- The code outside the file instrumented to record, in the world, every `Create`
call (file, type, permissions), oldest first. -/
def Sys.recordCreate {σ : Type} (sys : Sys σ) : Sys (σ × List (Path × Nat × Nat)) where
  do_GetService := fun w => ((sys.do_GetService w.1).1, ((sys.do_GetService w.1).2, w.2))
  directoryService_Get := fun k w =>
    ((sys.directoryService_Get k w.1).1, ((sys.directoryService_Get k w.1).2, w.2))
  TorBrowser_GetUserDataDir := fun f w =>
    ((sys.TorBrowser_GetUserDataDir f w.1).1, ((sys.TorBrowser_GetUserDataDir f w.1).2, w.2))
  NS_GetSpecialDirectory := fun k w =>
    ((sys.NS_GetSpecialDirectory k w.1).1, ((sys.NS_GetSpecialDirectory k w.1).2, w.2))
  PR_GetEnv := fun name w => sys.PR_GetEnv name w.1
  charsAt := fun a w => sys.charsAt a w.1
  Exists := fun f w => sys.Exists f w.1
  Create := fun f type permissions w =>
    ((sys.Create f type permissions w.1).1,
      ((sys.Create f type permissions w.1).2, w.2 ++ [(f, type, permissions)]))
  Clone := sys.Clone
  AppendNative := sys.AppendNative
  AppendRelativeNativePath := sys.AppendRelativeNativePath
  NS_NewNativeLocalFile := sys.NS_NewNativeLocalFile
  FSFindFolder := fun domain w =>
    ((sys.FSFindFolder domain w.1).1, ((sys.FSFindFolder domain w.1).2, w.2))
  NS_NewLocalFileWithFSRef := sys.NS_NewLocalFileWithFSRef
  Gestalt := fun w => sys.Gestalt w.1

/-- Answers of the code outside the file that do not depend on the world: the
result code of `do_GetService`, the directory service, the user data directory,
the two appends, and the result code of `Create` for each file. -/
structure Answers where
  serviceRv : Nsresult
  directoryGet : String → XResult Path
  userDataDir : Path → XResult Path
  appendNative : Path → String → XResult Path
  appendRelative : Path → String → XResult Path
  createRv : Path → Nsresult

/-- The outside world made of such answers and a file system: a file exists when
it is in the file system, every `Create` call is recorded, and a `Create` that
succeeds adds the file to the file system. -/
def Answers.sys (a : Answers) : Sys FS where
  do_GetService := fun w => (a.serviceRv, w)
  directoryService_Get := fun k w => (a.directoryGet k, w)
  TorBrowser_GetUserDataDir := fun f w => (a.userDataDir f, w)
  NS_GetSpecialDirectory := fun _ w => (Except.error Failure.generic, w)
  PR_GetEnv := fun _ _ => none
  charsAt := fun _ _ => []
  Exists := fun f w => (NS_OK, decide (f ∈ w.existing))
  Create := fun f type permissions w =>
    (a.createRv f,
      { existing := if NS_FAILED (a.createRv f) then w.existing else f :: w.existing,
        creates := w.creates ++ [(f, type, permissions)] })
  Clone := fun _ => NS_OK
  AppendNative := a.appendNative
  AppendRelativeNativePath := a.appendRelative
  NS_NewNativeLocalFile := fun path => Except.ok (String.mk path)
  FSFindFolder := fun _ w => (none, w)
  NS_NewLocalFileWithFSRef := fun _ => Except.error Failure.generic
  Gestalt := fun _ => none

/-- Answers for which the product directory is `/app/TorBrowser/Data/Browser`. -/
def torAnswers : Answers where
  serviceRv := NS_OK
  directoryGet := fun k =>
    if k = "XREExeF" then Except.ok "/app/firefox" else Except.error Failure.generic
  userDataDir := fun _ => Except.ok "/app/TorBrowser"
  appendNative := fun f name => Except.ok (f ++ "/" ++ name)
  appendRelative := fun f name => Except.ok (f ++ "/" ++ name)
  createRv := fun _ => NS_OK

/-- A result code and an out-parameter agree when a success code comes with a file. -/
def okHasFile (r : Nsresult × Option Path) : Prop :=
  NS_SUCCEEDED r.1 = true → r.2.isSome = true

/-- What the comparisons of `GetFile` leave behind is sound when a success code
comes with a file in `localFile` or in `*aResult`. -/
def branchOk {S : Type} (br : ((Nsresult × Option Path) × Option Path) × S) : Prop :=
  NS_SUCCEEDED br.1.1.1 = true → br.1.1.2.isSome = true ∨ br.1.2.isSome = true

/-- The pointer `q` is not before the pointer `p` into the same buffer (and both
are null or both are not): the characters from `q` on are a final segment of the
characters from `p` on. -/
def CPtr.notBefore : Option CPtr → Option CPtr → Prop
  | none, none => True
  | some q, some p => q <:+ p
  | _, _ => False

/-- The scan position: the offset of the pointer `p` in the buffer `S`. -/
def scanOffset (S p : CPtr) : Nat := S.length - p.length

/-! # Properties -/

/-! ## Lemmas on the key loop -/

theorem keyLoop_some {σ : Type} (env : Env σ) (keys : List String) (f : Path) (w : σ) :
    nsAppDirectoryEnumerator.keyLoop env keys (some f) w = (keys, some f, w) := by
  cases keys <;> rfl

theorem keyLoop_nil {σ : Type} (env : Env σ) (m : Option Path) (w : σ) :
    nsAppDirectoryEnumerator.keyLoop env [] m w = ([], m, w) := by
  cases m <;> rfl

theorem keyLoop_cons_hit {σ : Type} (env : Env σ) (k : String) (keys : List String) (w : σ)
    (f : Path) (hf : (env.GetFile k w).1.2 = some f)
    (hx : env.existsOk f (env.GetFile k w).2 = true) :
    nsAppDirectoryEnumerator.keyLoop env (k :: keys) none w
      = (keys, some f, (env.GetFile k w).2) := by
  simp only [nsAppDirectoryEnumerator.keyLoop, hf, hx, if_true, keyLoop_some]

theorem keyLoop_cons_miss {σ : Type} (env : Env σ) (k : String) (keys : List String) (w : σ)
    (h : ∀ f, (env.GetFile k w).1.2 = some f → env.existsOk f (env.GetFile k w).2 = false) :
    nsAppDirectoryEnumerator.keyLoop env (k :: keys) none w
      = nsAppDirectoryEnumerator.keyLoop env keys none (env.GetFile k w).2 := by
  cases hf : (env.GetFile k w).1.2 with
  | none => simp only [nsAppDirectoryEnumerator.keyLoop, hf]
  | some f => simp [nsAppDirectoryEnumerator.keyLoop, hf, h f hf]

theorem drain_keys {σ : Type} (env : Env σ) (keys : List String) :
    ∀ (n : Nat) (w : σ), keys.length < n →
      nsAppDirectoryEnumerator.drain env n { mCurrentKey := keys, mNext := none } w
        = resolvedExisting env keys w := by
  induction keys with
  | nil =>
    intro n w hn
    cases n with
    | zero => simp at hn
    | succ n => rfl
  | cons k keys ih =>
    intro n w hn
    cases n with
    | zero => simp at hn
    | succ n =>
      have hn1 : keys.length < n := by simpa using hn
      cases hf : (env.GetFile k w).1.2 with
      | none =>
        have hl := keyLoop_cons_miss env k keys w (by intro f h; rw [hf] at h; cases h)
        have := ih (n + 1) (env.GetFile k w).2 (by omega)
        simp only [nsAppDirectoryEnumerator.drain, nsAppDirectoryEnumerator.HasMoreElements,
          resolvedExisting, hf] at this ⊢
        rw [hl]; exact this
      | some f =>
        cases hx : env.existsOk f (env.GetFile k w).2 with
        | false =>
          have hl := keyLoop_cons_miss env k keys w (by
            intro g h; rw [hf] at h; cases h; exact hx)
          have := ih (n + 1) (env.GetFile k w).2 (by omega)
          simp only [nsAppDirectoryEnumerator.drain, nsAppDirectoryEnumerator.HasMoreElements,
            resolvedExisting, hf, hx] at this ⊢
          rw [hl]; simpa using this
        | true =>
          have hl := keyLoop_cons_hit env k keys w f hf hx
          have := ih n (env.GetFile k w).2 hn1
          simp only [nsAppDirectoryEnumerator.drain, nsAppDirectoryEnumerator.HasMoreElements,
            nsAppDirectoryEnumerator.GetNext, resolvedExisting, hf, hx, hl, keyLoop_some]
          simpa using this

theorem resolvedExisting_eq_filterMap (env : Env Unit) (L : List String) :
    resolvedExisting env L ()
      = L.filterMap (fun k => ((env.GetFile k ()).1.2).filter (fun f => env.existsOk f ())) := by
  induction L with
  | nil => rfl
  | cons k L ih =>
    cases hf : (env.GetFile k ()).1.2 with
    | none => simp [resolvedExisting, hf, ih, List.filterMap_cons]
    | some f =>
      cases hx : env.existsOk f () <;>
        simp [resolvedExisting, hf, hx, ih, List.filterMap_cons, Option.filter]

/-- C1: draining an `nsAppDirectoryEnumerator` built over a key list `L` by
`HasMoreElements`/`GetNext` rounds hands out exactly the reference sequence of `L`
(each key resolved once, in order, contributing its file when that file exists),
for every provider, file system and world, and with any number of rounds beyond
`L.length + 1`; for a provider and file system that do not depend on the world
this is the `filterMap` of `L`; and in Scenario A the output is exactly `[P]`. -/
theorem C1_keyListCursor_drain :
    (∀ (σ : Type) (env : Env σ) (L : List String) (w : σ) (n : Nat),
      nsAppDirectoryEnumerator.drain env (L.length + 1 + n) (nsAppDirectoryEnumerator.new L) w
        = resolvedExisting env L w)
    ∧ (∀ (env : Env Unit) (L : List String) (n : Nat),
      nsAppDirectoryEnumerator.drain env (L.length + 1 + n) (nsAppDirectoryEnumerator.new L) ()
        = L.filterMap
            (fun k => ((env.GetFile k ()).1.2).filter (fun f => env.existsOk f ())))
    ∧ nsAppDirectoryEnumerator.drain scenarioA 3 (nsAppDirectoryEnumerator.new ["K1", "K2"]) ()
        = ["/P"] := by
  refine ⟨?_, ?_, ?_⟩
  · intro σ env L w n
    exact drain_keys env L (L.length + 1 + n) w (by omega)
  · intro env L n
    rw [← resolvedExisting_eq_filterMap]
    exact drain_keys env L (L.length + 1 + n) () (by omega)
  · decide

/-! ## Lemmas on the path loop -/

theorem deref_ne_NUL_length_pos (p : CPtr) (h : p.deref ≠ NUL) : 0 < p.length := by
  cases p with
  | nil => exact absurd rfl h
  | cons c cs => simp

theorem scanToSeparator_length_le (sep : Char) (p : CPtr) :
    (scanToSeparator sep p).length ≤ p.length := by
  induction p with
  | nil => simp [scanToSeparator]
  | cons c cs ih =>
    unfold scanToSeparator
    split
    · exact Nat.le_succ_of_le ih
    · exact Nat.le_refl _

theorem skipOneSeparator_length_le (sep : Char) (p : CPtr) :
    (skipOneSeparator sep p).length ≤ p.length := by
  unfold skipOneSeparator CPtr.next
  split
  · simp
  · exact Nat.le_refl _

theorem pathStep_length_lt {σ : Type} (env : Env σ) (sep : Char) (w : σ) (p : CPtr)
    (r : CPtr × Option Path) (hp : p.deref ≠ NUL)
    (h : nsPathsDirectoryEnumerator.pathStep env sep w p = some r) :
    r.1.length < p.length := by
  have hpos := deref_ne_NUL_length_pos p hp
  have h1 : (skipOneSeparator sep (scanToSeparator sep p.next)).length < p.length := by
    have a := skipOneSeparator_length_le sep (scanToSeparator sep p.next)
    have c := scanToSeparator_length_le sep p.next
    have d : p.next.length = p.length - 1 := by simp [CPtr.next]
    omega
  unfold nsPathsDirectoryEnumerator.pathStep at h
  simp only at h
  split at h
  · cases h
  · split at h
    · split at h <;> (cases h; exact h1)
    · cases h; exact h1

theorem pathLoop_some {σ : Type} (env : Env σ) (sep : Char) (w : σ) (n : Nat) (p : CPtr)
    (f : Path) :
    nsPathsDirectoryEnumerator.pathLoop env sep w n p (some f) = some (p, some f) := by
  cases n <;> rfl

theorem pathLoop_at_end {σ : Type} (env : Env σ) (sep : Char) (w : σ) (n : Nat) (p : CPtr)
    (m : Option Path) (hp : p.deref = NUL) :
    nsPathsDirectoryEnumerator.pathLoop env sep w n p m = some (p, m) := by
  cases m with
  | some f => exact pathLoop_some env sep w n p f
  | none =>
    cases n with
    | zero => rfl
    | succ n => simp [nsPathsDirectoryEnumerator.pathLoop, hp]

/-- Enough fuel: beyond the distance to the terminator, more iterations change nothing. -/
theorem pathLoop_fuel {σ : Type} (env : Env σ) (sep : Char) (w : σ) :
    ∀ (n : Nat) (p : CPtr) (m : Option Path) (k : Nat), p.length ≤ n →
      nsPathsDirectoryEnumerator.pathLoop env sep w (n + k) p m
        = nsPathsDirectoryEnumerator.pathLoop env sep w n p m := by
  intro n
  induction n with
  | zero =>
    intro p m k hp
    have : p = [] := List.length_eq_zero.mp (Nat.le_zero.mp hp)
    subst this
    rw [pathLoop_at_end env sep w _ [] m rfl, pathLoop_at_end env sep w _ [] m rfl]
  | succ n ih =>
    intro p m k hp
    cases m with
    | some f => rw [pathLoop_some, pathLoop_some]
    | none =>
      have e : n + 1 + k = (n + k) + 1 := by omega
      rw [e]
      by_cases hd : p.deref = NUL
      · rw [pathLoop_at_end env sep w _ p none hd, pathLoop_at_end env sep w _ p none hd]
      · simp only [nsPathsDirectoryEnumerator.pathLoop, hd, if_false]
        cases hs : nsPathsDirectoryEnumerator.pathStep env sep w p with
        | none => rfl
        | some r =>
          have := pathStep_length_lt env sep w p r hd hs
          exact ih r.1 r.2 k (by omega)

theorem pathListExisting_fuel {σ : Type} (env : Env σ) (sep : Char) (w : σ) :
    ∀ (n : Nat) (p : CPtr) (k : Nat), p.length ≤ n →
      pathListExisting env sep w (n + k) p = pathListExisting env sep w n p := by
  intro n
  induction n with
  | zero =>
    intro p k hp
    have : p = [] := List.length_eq_zero.mp (Nat.le_zero.mp hp)
    subst this
    cases k with
    | zero => rfl
    | succ k => simp [pathListExisting, CPtr.deref]
  | succ n ih =>
    intro p k hp
    have e : n + 1 + k = (n + k) + 1 := by omega
    rw [e]
    by_cases hd : p.deref = NUL
    · simp [pathListExisting, hd]
    · simp only [pathListExisting, hd, if_false]
      cases hs : nsPathsDirectoryEnumerator.pathStep env sep w p with
      | none => rfl
      | some r =>
        have := pathStep_length_lt env sep w p r hd hs
        simp only [ih r.1 k (by omega)]

theorem pathLoop_unfold {σ : Type} (env : Env σ) (sep : Char) (w : σ) (p : CPtr)
    (hd : p.deref ≠ NUL) :
    nsPathsDirectoryEnumerator.pathLoop env sep w p.length p none
      = match nsPathsDirectoryEnumerator.pathStep env sep w p with
        | none => none
        | some r => nsPathsDirectoryEnumerator.pathLoop env sep w r.1.length r.1 r.2 := by
  obtain ⟨n, hn⟩ : ∃ n, p.length = n + 1 :=
    ⟨p.length - 1, by have := deref_ne_NUL_length_pos p hd; omega⟩
  rw [hn]
  simp only [nsPathsDirectoryEnumerator.pathLoop, hd, if_false]
  cases hs : nsPathsDirectoryEnumerator.pathStep env sep w p with
  | none => rfl
  | some r =>
    have hlt := pathStep_length_lt env sep w p r hd hs
    obtain ⟨k, hk⟩ : ∃ k, n = r.1.length + k := ⟨n - r.1.length, by omega⟩
    simp only [hk]
    exact pathLoop_fuel env sep w r.1.length r.1 r.2 k (Nat.le_refl _)

theorem pathListEntries_at_end {σ : Type} (env : Env σ) (sep : Char) (w : σ) (p : CPtr)
    (hd : p.deref = NUL) : pathListEntries env sep w (some p) = some [] := by
  show pathListExisting env sep w p.length p = some []
  cases h : p.length with
  | zero => rfl
  | succ n => simp [pathListExisting, hd]

theorem pathListEntries_unfold {σ : Type} (env : Env σ) (sep : Char) (w : σ) (p : CPtr)
    (hd : p.deref ≠ NUL) :
    pathListEntries env sep w (some p)
      = match nsPathsDirectoryEnumerator.pathStep env sep w p with
        | none => none
        | some r => (pathListEntries env sep w (some r.1)).map (fun out => r.2.toList ++ out) := by
  obtain ⟨n, hn⟩ : ∃ n, p.length = n + 1 :=
    ⟨p.length - 1, by have := deref_ne_NUL_length_pos p hd; omega⟩
  show pathListExisting env sep w p.length p = _
  rw [hn]
  simp only [pathListExisting, hd, if_false]
  cases hs : nsPathsDirectoryEnumerator.pathStep env sep w p with
  | none => rfl
  | some r =>
    have hlt := pathStep_length_lt env sep w p r hd hs
    obtain ⟨k, hk⟩ : ∃ k, n = r.1.length + k := ⟨n - r.1.length, by omega⟩
    show _ = Option.map _ (pathListExisting env sep w r.1.length r.1)
    simp only [hk]
    rw [pathListExisting_fuel env sep w r.1.length r.1 k (Nat.le_refl _)]

/-- The path loop against the reference sequence: a fault of the loop is a fault of
the reference, and otherwise the file the loop found followed by the entries of
the rest of the list are the entries of the list. -/
theorem pathLoop_entries {σ : Type} (env : Env σ) (sep : Char) (w : σ) :
    ∀ (n : Nat) (p : CPtr), p.length ≤ n →
      match nsPathsDirectoryEnumerator.pathLoop env sep w p.length p none with
      | none => pathListEntries env sep w (some p) = none
      | some r =>
        pathListEntries env sep w (some p)
            = (pathListEntries env sep w (some r.1)).map (fun out => r.2.toList ++ out)
          ∧ r.1.length ≤ p.length
          ∧ (r.2 = none → r.1.deref = NUL)
          ∧ (r.2.isSome = true → r.1.length < p.length) := by
  intro n
  induction n with
  | zero =>
    intro p hp
    have : p = [] := List.length_eq_zero.mp (Nat.le_zero.mp hp)
    subst this
    simp [nsPathsDirectoryEnumerator.pathLoop, pathListEntries, pathListExisting, CPtr.deref]
  | succ n ih =>
    intro p hp
    by_cases hd : p.deref = NUL
    · rw [pathLoop_at_end env sep w _ p none hd]
      simp [pathListEntries_at_end env sep w p hd, hd]
    · rw [pathLoop_unfold env sep w p hd, pathListEntries_unfold env sep w p hd]
      cases hs : nsPathsDirectoryEnumerator.pathStep env sep w p with
      | none => simp
      | some r =>
        have hlt := pathStep_length_lt env sep w p r hd hs
        obtain ⟨p1, m⟩ := r
        cases m with
        | some f =>
          simp only [pathLoop_some]
          exact ⟨trivial, Nat.le_of_lt hlt, by simp, fun _ => hlt⟩
        | none =>
          have h1 := ih p1 (by simp at hlt; omega)
          simp only at h1 ⊢
          cases hl : nsPathsDirectoryEnumerator.pathLoop env sep w p1.length p1 none with
          | none =>
            rw [hl] at h1
            simp only at h1 ⊢
            simp [h1]
          | some r2 =>
            rw [hl] at h1
            simp only at h1 ⊢
            obtain ⟨a, b1, c, d⟩ := h1
            simp only [Option.toList, List.nil_append] at a ⊢
            refine ⟨?_, ?_, c, ?_⟩
            · simpa using a
            · simp at hlt; omega
            · intro h; have := d h; simp at hlt; omega

theorem keyLoop_resolved {σ : Type} (env : Env σ) (keys : List String) :
    ∀ (w : σ),
      resolvedExisting env keys w
          = (nsAppDirectoryEnumerator.keyLoop env keys none w).2.1.toList
            ++ resolvedExisting env (nsAppDirectoryEnumerator.keyLoop env keys none w).1
                (nsAppDirectoryEnumerator.keyLoop env keys none w).2.2
        ∧ ((nsAppDirectoryEnumerator.keyLoop env keys none w).2.1 = none →
            (nsAppDirectoryEnumerator.keyLoop env keys none w).1 = [])
        ∧ (nsAppDirectoryEnumerator.keyLoop env keys none w).1.length ≤ keys.length
        ∧ ((nsAppDirectoryEnumerator.keyLoop env keys none w).2.1.isSome = true →
            (nsAppDirectoryEnumerator.keyLoop env keys none w).1.length < keys.length) := by
  induction keys with
  | nil => intro w; simp [nsAppDirectoryEnumerator.keyLoop, resolvedExisting]
  | cons k keys ih =>
    intro w
    cases hf : (env.GetFile k w).1.2 with
    | none =>
      have hl := keyLoop_cons_miss env k keys w (by intro f h; rw [hf] at h; cases h)
      obtain ⟨a, b1, c, d⟩ := ih (env.GetFile k w).2
      rw [hl]
      refine ⟨?_, b1, Nat.le_succ_of_le c, fun h => Nat.lt_succ_of_lt (d h)⟩
      simpa [resolvedExisting, hf] using a
    | some f =>
      cases hx : env.existsOk f (env.GetFile k w).2 with
      | false =>
        have hl := keyLoop_cons_miss env k keys w (by
          intro g h; rw [hf] at h; cases h; exact hx)
        obtain ⟨a, b1, c, d⟩ := ih (env.GetFile k w).2
        rw [hl]
        refine ⟨?_, b1, Nat.le_succ_of_le c, fun h => Nat.lt_succ_of_lt (d h)⟩
        simpa [resolvedExisting, hf, hx] using a
      | true =>
        rw [keyLoop_cons_hit env k keys w f hf hx]
        simp [resolvedExisting, hf, hx]

theorem keyLoop_none_keys {σ : Type} (env : Env σ) (keys : List String) (m : Option Path)
    (w : σ) (h : (nsAppDirectoryEnumerator.keyLoop env keys m w).2.1 = none) :
    (nsAppDirectoryEnumerator.keyLoop env keys m w).1 = [] := by
  cases m with
  | some f => rw [keyLoop_some] at h; cases h
  | none => exact (keyLoop_resolved env keys w).2.1 h

/-! ## The shape of `HasMoreElements` on the path enumerator -/

theorem paths_hasMore_buffered {σ : Type} (env : Env σ) (b : Build)
    (e : nsPathsDirectoryEnumerator) (w : σ) (f : Path) (hm : e.mNext = some f) :
    nsPathsDirectoryEnumerator.HasMoreElements env b e w = some (true, e, w) := by
  obtain ⟨⟨keys, m⟩, ep⟩ := e
  simp only at hm
  subst hm
  cases ep with
  | none => simp [nsPathsDirectoryEnumerator.HasMoreElements, nsPathsDirectoryEnumerator.pathPhase]
  | some p =>
    simp [nsPathsDirectoryEnumerator.HasMoreElements, nsPathsDirectoryEnumerator.pathPhase,
      pathLoop_some]

theorem paths_hasMore_null {σ : Type} (env : Env σ) (b : Build) (keys : List String) (w : σ) :
    nsPathsDirectoryEnumerator.HasMoreElements env b
        { mCurrentKey := keys, mNext := none, mEndPath := none } w
      = some ((nsAppDirectoryEnumerator.keyLoop env keys none w).2.1.isSome,
          { mCurrentKey := (nsAppDirectoryEnumerator.keyLoop env keys none w).1,
            mNext := (nsAppDirectoryEnumerator.keyLoop env keys none w).2.1, mEndPath := none },
          (nsAppDirectoryEnumerator.keyLoop env keys none w).2.2) := by
  simp [nsPathsDirectoryEnumerator.HasMoreElements, nsPathsDirectoryEnumerator.pathPhase,
    nsAppDirectoryEnumerator.HasMoreElements]

theorem paths_hasMore_scan {σ : Type} (env : Env σ) (b : Build) (keys : List String)
    (p : CPtr) (w : σ) :
    nsPathsDirectoryEnumerator.HasMoreElements env b
        { mCurrentKey := keys, mNext := none, mEndPath := some p } w
      = match nsPathsDirectoryEnumerator.pathLoop env (PATH_SEPARATOR b) w p.length p none with
        | none => none
        | some (p1, some f) =>
          some (true, { mCurrentKey := keys, mNext := some f, mEndPath := some p1 }, w)
        | some (p1, none) =>
          some ((nsAppDirectoryEnumerator.keyLoop env keys none w).2.1.isSome,
            { mCurrentKey := (nsAppDirectoryEnumerator.keyLoop env keys none w).1,
              mNext := (nsAppDirectoryEnumerator.keyLoop env keys none w).2.1,
              mEndPath := some p1 },
            (nsAppDirectoryEnumerator.keyLoop env keys none w).2.2) := by
  simp only [nsPathsDirectoryEnumerator.HasMoreElements, nsPathsDirectoryEnumerator.pathPhase,
    nsAppDirectoryEnumerator.HasMoreElements]
  cases hl : nsPathsDirectoryEnumerator.pathLoop env (PATH_SEPARATOR b) w p.length p none with
  | none => rfl
  | some r =>
    obtain ⟨p1, m⟩ := r
    cases m <;> simp

/-- What one `HasMoreElements` on the path enumerator does: a fault is a fault of
the reference sequence; otherwise nothing pending is lost, the answer tells whether
a file is buffered, an empty buffer means everything is consumed, nothing is
consumed while a file was buffered already, and as long as the path list is not
used up the world and the keys are untouched. -/
theorem paths_hasMore_spec {σ : Type} (env : Env σ) (b : Build)
    (e : nsPathsDirectoryEnumerator) (w : σ) :
    match nsPathsDirectoryEnumerator.HasMoreElements env b e w with
    | none => nsPathsDirectoryEnumerator.pending env b e w = none
    | some h =>
      nsPathsDirectoryEnumerator.pending env b h.2.1 h.2.2
          = nsPathsDirectoryEnumerator.pending env b e w
        ∧ h.1 = h.2.1.mNext.isSome
        ∧ (h.2.1.mNext = none →
            h.2.1.mCurrentKey = [] ∧ ∀ p, h.2.1.mEndPath = some p → p.deref = NUL)
        ∧ h.2.1.size ≤ e.size
        ∧ (e.mNext = none → h.1 = true → h.2.1.size < e.size)
        ∧ (∀ p, h.2.1.mEndPath = some p → p.deref ≠ NUL →
            h.2.2 = w ∧ h.2.1.mCurrentKey = e.mCurrentKey) := by
  obtain ⟨⟨keys, m⟩, ep⟩ := e
  cases m with
  | some f =>
    rw [paths_hasMore_buffered env b _ w f rfl]
    simp
  | none =>
    have hk := keyLoop_resolved env keys w
    obtain ⟨k1, k2, k3, k4⟩ := hk
    cases ep with
    | none =>
      rw [paths_hasMore_null]
      simp only [nsPathsDirectoryEnumerator.pending, pathListEntries,
        nsPathsDirectoryEnumerator.size, Option.map_some', List.nil_append]
      refine ⟨by rw [k1]; rfl, trivial, ?_, by simpa using k3, ?_, ?_⟩
      · intro h; exact ⟨k2 h, by intro p hp; cases hp⟩
      · intro _ h; simpa using k4 h
      · intro p hp; cases hp
    | some p =>
      rw [paths_hasMore_scan]
      have hl := pathLoop_entries env (PATH_SEPARATOR b) w p.length p (Nat.le_refl _)
      cases hr : nsPathsDirectoryEnumerator.pathLoop env (PATH_SEPARATOR b) w p.length p none with
      | none =>
        rw [hr] at hl
        simp only at hl ⊢
        simp [nsPathsDirectoryEnumerator.pending, hl]
      | some r =>
        rw [hr] at hl
        obtain ⟨p1, m1⟩ := r
        simp only at hl
        obtain ⟨a, b1, c, d⟩ := hl
        cases m1 with
        | some f =>
          have d1 := d rfl
          simp only [nsPathsDirectoryEnumerator.pending, nsPathsDirectoryEnumerator.size, a]
          refine ⟨?_, rfl, ?_, by omega, ?_, ?_⟩
          · cases pathListEntries env (PATH_SEPARATOR b) w (some p1) <;> simp
          · intro h; cases h
          · intro _ _; omega
          · intro q _ _; simp
        | none =>
          have c1 := c rfl
          have e1 := pathListEntries_at_end env (PATH_SEPARATOR b) w p1 c1
          simp only [nsPathsDirectoryEnumerator.pending, nsPathsDirectoryEnumerator.size, a,
            e1, pathListEntries_at_end env (PATH_SEPARATOR b) _ p1 c1, Option.map_some',
            List.nil_append, List.append_nil]
          refine ⟨by rw [k1]; rfl, trivial, ?_, by omega, ?_, ?_⟩
          · intro h
            exact ⟨k2 h, by intro q hq; cases hq; exact c1⟩
          · intro _ h; have := k4 h; omega
          · intro q hq hne; cases hq; exact absurd c1 hne

theorem pathListLeft_false_iff (e : nsPathsDirectoryEnumerator) :
    e.pathListLeft = false ↔ ∀ p, e.mEndPath = some p → p.deref = NUL := by
  obtain ⟨⟨keys, m⟩, ep⟩ := e
  cases ep with
  | none => simp [nsPathsDirectoryEnumerator.pathListLeft]
  | some p => simp [nsPathsDirectoryEnumerator.pathListLeft]

theorem skipSeparators_length_le (sep : Char) (p : CPtr) :
    (skipSeparators sep p).length ≤ p.length := by
  induction p with
  | nil => simp [skipSeparators]
  | cons c cs ih =>
    unfold skipSeparators
    split
    · exact Nat.le_succ_of_le ih
    · exact Nat.le_refl _

theorem PATH_SEPARATOR_ne_NUL (b : Build) : PATH_SEPARATOR b ≠ NUL := by
  unfold PATH_SEPARATOR
  split <;> decide

/-- Two separators at the scan position: the span handed to `Substring` starts
after its end. -/
theorem paths_hasMore_two_separators {σ : Type} (env : Env σ) (b : Build) (rest : CPtr)
    (keys : List String) (w : σ) :
    nsPathsDirectoryEnumerator.HasMoreElements env b
      (nsPathsDirectoryEnumerator.new
        (some (PATH_SEPARATOR b :: PATH_SEPARATOR b :: rest)) keys) w = none := by
  have hne := PATH_SEPARATOR_ne_NUL b
  have hlen := skipSeparators_length_le (PATH_SEPARATOR b) rest
  have hsub : Substring (skipSeparators (PATH_SEPARATOR b) rest) (PATH_SEPARATOR b :: rest)
      = none := by
    unfold Substring
    rw [if_neg]
    simp only [List.length_cons]
    omega
  simp [nsPathsDirectoryEnumerator.HasMoreElements, nsPathsDirectoryEnumerator.new,
    nsAppDirectoryEnumerator.new, nsPathsDirectoryEnumerator.pathPhase,
    nsPathsDirectoryEnumerator.pathLoop, nsPathsDirectoryEnumerator.pathStep,
    CPtr.deref, CPtr.next, hne, skipSeparators, scanToSeparator, hsub]

/-- C2 (evaluation at the failing input): on the path list `::/tmp:` with the POSIX
separator, the first iteration of the loop skips both leading separators with
`pathVar` but advances `mEndPath` by one character only, so it takes
`Substring(pathVar, mEndPath)` with `pathVar` after `mEndPath`: the call has no
well-defined result and nothing is handed out, whatever the file system, the
provider and the keys. The same happens in every build for every path list that
begins with two separators. -/
theorem C2_leading_separators_ill_formed_span :
    (∀ (σ : Type) (env : Env σ) (keys : List String) (w : σ),
      nsPathsDirectoryEnumerator.HasMoreElements env unixBuild
        (nsPathsDirectoryEnumerator.new (some [':', ':', '/', 't', 'm', 'p', ':']) keys) w = none)
    ∧ (∀ (σ : Type) (env : Env σ) (b : Build) (rest : CPtr) (keys : List String) (w : σ),
      nsPathsDirectoryEnumerator.HasMoreElements env b
        (nsPathsDirectoryEnumerator.new
          (some (PATH_SEPARATOR b :: PATH_SEPARATOR b :: rest)) keys) w = none)
    ∧ skipSeparators ':' [':', ':', '/', 't', 'm', 'p', ':'] = ['/', 't', 'm', 'p', ':']
    ∧ scanToSeparator ':' (CPtr.next [':', ':', '/', 't', 'm', 'p', ':'])
        = [':', '/', 't', 'm', 'p', ':']
    ∧ Substring ['/', 't', 'm', 'p', ':'] [':', '/', 't', 'm', 'p', ':'] = none := by
  refine ⟨?_, ?_, by decide, by decide, by decide⟩
  · intro σ env keys w
    rfl
  · intro σ env b rest keys w
    exact paths_hasMore_two_separators env b rest keys w

theorem keys_hasMore_again {σ : Type} (env env2 : Env σ) (e : nsAppDirectoryEnumerator)
    (w w2 : σ) :
    nsAppDirectoryEnumerator.HasMoreElements env2
        (nsAppDirectoryEnumerator.HasMoreElements env e w).2.1 w2
      = ((nsAppDirectoryEnumerator.HasMoreElements env e w).1,
          (nsAppDirectoryEnumerator.HasMoreElements env e w).2.1, w2) := by
  simp only [nsAppDirectoryEnumerator.HasMoreElements]
  cases hm : (nsAppDirectoryEnumerator.keyLoop env e.mCurrentKey e.mNext w).2.1 with
  | some f => simp [keyLoop_some]
  | none =>
    have := keyLoop_none_keys env e.mCurrentKey e.mNext w hm
    simp [this, keyLoop_nil]

theorem paths_hasMore_exhausted {σ : Type} (env : Env σ) (b : Build)
    (e : nsPathsDirectoryEnumerator) (w : σ) (hm : e.mNext = none) (hk : e.mCurrentKey = [])
    (hl : e.pathListLeft = false) :
    nsPathsDirectoryEnumerator.HasMoreElements env b e w = some (false, e, w) := by
  obtain ⟨⟨keys, m⟩, ep⟩ := e
  simp only at hm hk
  subst hm hk
  cases ep with
  | none => rw [paths_hasMore_null]; simp [keyLoop_nil]
  | some p =>
    have hd : p.deref = NUL := (pathListLeft_false_iff _).mp hl p rfl
    rw [paths_hasMore_scan, pathLoop_at_end env _ w _ p none hd]
    simp [keyLoop_nil]

theorem paths_hasMore_false {σ : Type} (env : Env σ) (b : Build)
    (e : nsPathsDirectoryEnumerator) (w : σ) (h : Bool × nsPathsDirectoryEnumerator × σ)
    (hh : nsPathsDirectoryEnumerator.HasMoreElements env b e w = some h) (hb : h.1 = false) :
    h.2.1.mNext = none ∧ h.2.1.mCurrentKey = [] ∧ h.2.1.pathListLeft = false := by
  have hs := paths_hasMore_spec env b e w
  rw [hh] at hs
  simp only at hs
  obtain ⟨_, b1, c, _, _, _⟩ := hs
  have hm : h.2.1.mNext = none := by
    rw [hb] at b1
    cases hx : h.2.1.mNext with
    | none => rfl
    | some f => rw [hx] at b1; cases b1
  exact ⟨hm, (c hm).1, (pathListLeft_false_iff _).mpr (c hm).2⟩

theorem paths_hasMore_again {σ : Type} (env env2 : Env σ) (b : Build)
    (e : nsPathsDirectoryEnumerator) (w w2 : σ) (h : Bool × nsPathsDirectoryEnumerator × σ)
    (hh : nsPathsDirectoryEnumerator.HasMoreElements env b e w = some h) :
    nsPathsDirectoryEnumerator.HasMoreElements env2 b h.2.1 w2 = some (h.1, h.2.1, w2) := by
  cases hb : h.1 with
  | false =>
    obtain ⟨a1, a2, a3⟩ := paths_hasMore_false env b e w h hh hb
    exact paths_hasMore_exhausted env2 b h.2.1 w2 a1 a2 a3
  | true =>
    have hs := paths_hasMore_spec env b e w
    rw [hh] at hs
    simp only at hs
    have b1 := hs.2.1
    rw [hb] at b1
    cases hx : h.2.1.mNext with
    | none => rw [hx] at b1; cases b1
    | some f => exact paths_hasMore_buffered env2 b h.2.1 w2 f hx

/-- C4: `HasMoreElements` is idempotent on both enumerators. A second call right
after a first one (even with another provider, file system or world) reports the
same boolean and leaves all fields of the enumerator (`mCurrentKey`, `mEndPath`,
`mNext`) as the first call left them, and it does not change the world. -/
theorem C4_hasMoreElements_idempotent :
    (∀ (σ : Type) (env env2 : Env σ) (e : nsAppDirectoryEnumerator) (w w2 : σ),
      nsAppDirectoryEnumerator.HasMoreElements env2
          (nsAppDirectoryEnumerator.HasMoreElements env e w).2.1 w2
        = ((nsAppDirectoryEnumerator.HasMoreElements env e w).1,
            (nsAppDirectoryEnumerator.HasMoreElements env e w).2.1, w2))
    ∧ (∀ (σ : Type) (env env2 : Env σ) (b : Build) (e : nsPathsDirectoryEnumerator) (w w2 : σ)
        (h : Bool × nsPathsDirectoryEnumerator × σ),
      nsPathsDirectoryEnumerator.HasMoreElements env b e w = some h →
      nsPathsDirectoryEnumerator.HasMoreElements env2 b h.2.1 w2 = some (h.1, h.2.1, w2)) :=
  ⟨fun _ env env2 e w w2 => keys_hasMore_again env env2 e w w2,
    fun _ env env2 b e w w2 h hh => paths_hasMore_again env env2 b e w w2 h hh⟩

theorem C4_hasMoreElements_idempotent_witness :
    nsPathsDirectoryEnumerator.HasMoreElements scenarioA unixBuild
        (nsPathsDirectoryEnumerator.new (some ['/', 'x', ':', '/', 'P', ':', '/', 'y']) ["K2"]) ()
      = some (true, { mCurrentKey := ["K2"], mNext := some "/P", mEndPath := some ['/', 'y'] }, ())
    ∧ nsPathsDirectoryEnumerator.HasMoreElements scenarioA unixBuild
        { mCurrentKey := ["K2"], mNext := some "/P", mEndPath := some ['/', 'y'] } ()
      = some (true, { mCurrentKey := ["K2"], mNext := some "/P", mEndPath := some ['/', 'y'] }, ()) :=
  ⟨by decide,
    C4_hasMoreElements_idempotent.2 Unit scenarioA scenarioA unixBuild
      (nsPathsDirectoryEnumerator.new (some ['/', 'x', ':', '/', 'P', ':', '/', 'y']) ["K2"]) () ()
      (true, { mCurrentKey := ["K2"], mNext := some "/P", mEndPath := some ['/', 'y'] }, ())
      (by decide)⟩

theorem keys_hasMore_false {σ : Type} (env : Env σ) (e : nsAppDirectoryEnumerator) (w : σ)
    (hb : (nsAppDirectoryEnumerator.HasMoreElements env e w).1 = false) :
    (nsAppDirectoryEnumerator.HasMoreElements env e w).2.1
      = { mCurrentKey := [], mNext := none } := by
  simp only [nsAppDirectoryEnumerator.HasMoreElements] at hb ⊢
  have hm : (nsAppDirectoryEnumerator.keyLoop env e.mCurrentKey e.mNext w).2.1 = none := by
    cases hx : (nsAppDirectoryEnumerator.keyLoop env e.mCurrentKey e.mNext w).2.1 with
    | none => rfl
    | some f => rw [hx] at hb; cases hb
  rw [hm, keyLoop_none_keys env e.mCurrentKey e.mNext w hm]

theorem keys_runOpen_exhausted {σ : Type} (cs : List (Call × Env σ × σ)) :
    nsAppDirectoryEnumerator.runOpen cs { mCurrentKey := [], mNext := none }
      = (cs.map (fun c => Obs.exhausted c.1), { mCurrentKey := [], mNext := none }) := by
  induction cs with
  | nil => rfl
  | cons c cs ih =>
    obtain ⟨c, env, w⟩ := c
    cases c with
    | hasMoreElements =>
      simp only [nsAppDirectoryEnumerator.runOpen, nsAppDirectoryEnumerator.HasMoreElements,
        keyLoop_nil, ih]
      rfl
    | getNext =>
      have hg : nsAppDirectoryEnumerator.GetNext env { mCurrentKey := [], mNext := none } w
          = ((NS_ERROR_FAILURE, none), { mCurrentKey := [], mNext := none }, w) := rfl
      simp only [nsAppDirectoryEnumerator.runOpen, hg, ih]
      rfl

theorem paths_runOpen_exhausted {σ : Type} (b : Build) (e : nsPathsDirectoryEnumerator)
    (hm : e.mNext = none) (hk : e.mCurrentKey = []) (hl : e.pathListLeft = false)
    (cs : List (Call × Env σ × σ)) :
    nsPathsDirectoryEnumerator.runOpen b cs e
      = some (cs.map (fun c => Obs.exhausted c.1), e) := by
  induction cs with
  | nil => rfl
  | cons c cs ih =>
    obtain ⟨c, env, w⟩ := c
    cases c with
    | hasMoreElements =>
      simp only [nsPathsDirectoryEnumerator.runOpen,
        paths_hasMore_exhausted env b e w hm hk hl, ih]
      rfl
    | getNext =>
      have hg : nsPathsDirectoryEnumerator.GetNext env b e w
          = some ((NS_ERROR_FAILURE, none), e, w) := by
        simp [nsPathsDirectoryEnumerator.GetNext, paths_hasMore_exhausted env b e w hm hk hl]
      simp only [nsPathsDirectoryEnumerator.runOpen, hg, ih]
      rfl

/-- C5: exhaustion is permanent on both enumerators. Once `HasMoreElements` has
reported `false`, in every later sequence of calls (each made with whatever
provider, file system and world it meets) every `HasMoreElements` reports `false`
and every `GetNext` fails with `NS_ERROR_FAILURE` and hands out nothing, and the
enumerator stays as it was. -/
theorem C5_exhaustion_permanent :
    (∀ (σ : Type) (env : Env σ) (e : nsAppDirectoryEnumerator) (w : σ)
        (cs : List (Call × Env σ × σ)),
      (nsAppDirectoryEnumerator.HasMoreElements env e w).1 = false →
      nsAppDirectoryEnumerator.runOpen cs (nsAppDirectoryEnumerator.HasMoreElements env e w).2.1
        = (cs.map (fun c => Obs.exhausted c.1),
            (nsAppDirectoryEnumerator.HasMoreElements env e w).2.1))
    ∧ (∀ (σ : Type) (env : Env σ) (b : Build) (e : nsPathsDirectoryEnumerator) (w : σ)
        (h : Bool × nsPathsDirectoryEnumerator × σ) (cs : List (Call × Env σ × σ)),
      nsPathsDirectoryEnumerator.HasMoreElements env b e w = some h → h.1 = false →
      nsPathsDirectoryEnumerator.runOpen b cs h.2.1
        = some (cs.map (fun c => Obs.exhausted c.1), h.2.1))
    ∧ NS_FAILED NS_ERROR_FAILURE = true := by
  refine ⟨?_, ?_, by decide⟩
  · intro σ env e w cs hb
    rw [keys_hasMore_false env e w hb]
    exact keys_runOpen_exhausted cs
  · intro σ env b e w h cs hh hb
    obtain ⟨a1, a2, a3⟩ := paths_hasMore_false env b e w h hh hb
    exact paths_runOpen_exhausted b h.2.1 a1 a2 a3 cs

theorem C5_exhaustion_permanent_witness :
    ((nsAppDirectoryEnumerator.HasMoreElements scenarioA
        (nsAppDirectoryEnumerator.new ["K1"]) ()).1 = false
      ∧ nsAppDirectoryEnumerator.runOpen
          [(Call.getNext, lateEnv, ()), (Call.hasMoreElements, lateEnv, ())]
          (nsAppDirectoryEnumerator.HasMoreElements scenarioA
            (nsAppDirectoryEnumerator.new ["K1"]) ()).2.1
        = ([Obs.next NS_ERROR_FAILURE none, Obs.more false],
            (nsAppDirectoryEnumerator.HasMoreElements scenarioA
              (nsAppDirectoryEnumerator.new ["K1"]) ()).2.1))
    ∧ (nsPathsDirectoryEnumerator.HasMoreElements scenarioA unixBuild
          (nsPathsDirectoryEnumerator.new (some ['/', 'x']) ["K1"]) ()
        = some (false, { mCurrentKey := [], mNext := none, mEndPath := some [] }, ())
      ∧ nsPathsDirectoryEnumerator.runOpen unixBuild
          [(Call.getNext, lateEnv, ()), (Call.hasMoreElements, lateEnv, ())]
          { mCurrentKey := [], mNext := none, mEndPath := some [] }
        = some ([Obs.next NS_ERROR_FAILURE none, Obs.more false],
            { mCurrentKey := [], mNext := none, mEndPath := some [] })) :=
  ⟨⟨by decide,
      C5_exhaustion_permanent.1 Unit scenarioA (nsAppDirectoryEnumerator.new ["K1"]) ()
        [(Call.getNext, lateEnv, ()), (Call.hasMoreElements, lateEnv, ())] (by decide)⟩,
    ⟨by decide,
      C5_exhaustion_permanent.2.1 Unit scenarioA unixBuild
        (nsPathsDirectoryEnumerator.new (some ['/', 'x']) ["K1"]) ()
        (false, { mCurrentKey := [], mNext := none, mEndPath := some [] }, ())
        [(Call.getNext, lateEnv, ()), (Call.hasMoreElements, lateEnv, ())]
        (by decide) rfl⟩⟩

/-- C6: on both enumerators `GetNext` first performs `HasMoreElements`. When that
reports `true` a file `p` is buffered and `GetNext` returns `NS_OK` with `p` and
leaves the enumerator as `HasMoreElements` left it except that `mNext` is null;
when it reports `false`, `GetNext` returns `NS_ERROR_FAILURE` with no file and
leaves the enumerator and the world as `HasMoreElements` left them. -/
theorem C6_getNext_after_hasMoreElements :
    (∀ (σ : Type) (env : Env σ) (e : nsAppDirectoryEnumerator) (w : σ),
      ((nsAppDirectoryEnumerator.HasMoreElements env e w).1 = true →
        ∃ p, (nsAppDirectoryEnumerator.HasMoreElements env e w).2.1.mNext = some p
          ∧ nsAppDirectoryEnumerator.GetNext env e w
            = ((NS_OK, some p),
                { (nsAppDirectoryEnumerator.HasMoreElements env e w).2.1 with mNext := none },
                (nsAppDirectoryEnumerator.HasMoreElements env e w).2.2))
      ∧ ((nsAppDirectoryEnumerator.HasMoreElements env e w).1 = false →
        nsAppDirectoryEnumerator.GetNext env e w
          = ((NS_ERROR_FAILURE, none), (nsAppDirectoryEnumerator.HasMoreElements env e w).2.1,
              (nsAppDirectoryEnumerator.HasMoreElements env e w).2.2)))
    ∧ (∀ (σ : Type) (env : Env σ) (b : Build) (e : nsPathsDirectoryEnumerator) (w : σ),
      (nsPathsDirectoryEnumerator.HasMoreElements env b e w = none →
        nsPathsDirectoryEnumerator.GetNext env b e w = none)
      ∧ ∀ h, nsPathsDirectoryEnumerator.HasMoreElements env b e w = some h →
        (h.1 = true →
          ∃ p, h.2.1.mNext = some p
            ∧ nsPathsDirectoryEnumerator.GetNext env b e w
              = some ((NS_OK, some p), { h.2.1 with mNext := none }, h.2.2))
        ∧ (h.1 = false →
          nsPathsDirectoryEnumerator.GetNext env b e w
            = some ((NS_ERROR_FAILURE, none), h.2.1, h.2.2)))
    ∧ NS_SUCCEEDED NS_OK = true ∧ NS_FAILED NS_ERROR_FAILURE = true := by
  refine ⟨?_, ?_, by decide, by decide⟩
  · intro σ env e w
    constructor
    · intro hb
      have hb2 := hb
      simp only [nsAppDirectoryEnumerator.HasMoreElements] at hb2
      obtain ⟨p, hp⟩ := Option.isSome_iff_exists.mp hb2
      refine ⟨p, ?_, ?_⟩
      · simpa [nsAppDirectoryEnumerator.HasMoreElements] using hp
      · have hm : (nsAppDirectoryEnumerator.HasMoreElements env e w).2.1.mNext = some p := by
          simpa [nsAppDirectoryEnumerator.HasMoreElements] using hp
        simp only [nsAppDirectoryEnumerator.GetNext, hb, hm]
        rfl
    · intro hb
      simp only [nsAppDirectoryEnumerator.GetNext, hb]
      rfl
  · intro σ env b e w
    constructor
    · intro hn
      simp [nsPathsDirectoryEnumerator.GetNext, hn]
    · intro h hh
      constructor
      · intro hb
        have hs := paths_hasMore_spec env b e w
        rw [hh] at hs
        simp only at hs
        have b1 := hs.2.1
        rw [hb] at b1
        obtain ⟨p, hp⟩ := Option.isSome_iff_exists.mp b1.symm
        refine ⟨p, hp, ?_⟩
        simp [nsPathsDirectoryEnumerator.GetNext, hh, hb, hp]
      · intro hb
        simp [nsPathsDirectoryEnumerator.GetNext, hh, hb]

theorem C6_getNext_after_hasMoreElements_witness :
    ((nsAppDirectoryEnumerator.HasMoreElements scenarioA
        (nsAppDirectoryEnumerator.new ["K1", "K2", "K1"]) ()).1 = true
      ∧ ∃ p, (nsAppDirectoryEnumerator.HasMoreElements scenarioA
            (nsAppDirectoryEnumerator.new ["K1", "K2", "K1"]) ()).2.1.mNext = some p
          ∧ nsAppDirectoryEnumerator.GetNext scenarioA
              (nsAppDirectoryEnumerator.new ["K1", "K2", "K1"]) ()
            = ((NS_OK, some p),
                { (nsAppDirectoryEnumerator.HasMoreElements scenarioA
                    (nsAppDirectoryEnumerator.new ["K1", "K2", "K1"]) ()).2.1 with mNext := none },
                (nsAppDirectoryEnumerator.HasMoreElements scenarioA
                  (nsAppDirectoryEnumerator.new ["K1", "K2", "K1"]) ()).2.2))
    ∧ (nsPathsDirectoryEnumerator.HasMoreElements scenarioA unixBuild
          (nsPathsDirectoryEnumerator.new (some ['/', 'x']) ["K1"]) ()
        = some (false, { mCurrentKey := [], mNext := none, mEndPath := some [] }, ())
      ∧ nsPathsDirectoryEnumerator.GetNext scenarioA unixBuild
          (nsPathsDirectoryEnumerator.new (some ['/', 'x']) ["K1"]) ()
        = some ((NS_ERROR_FAILURE, none),
            { mCurrentKey := [], mNext := none, mEndPath := some [] }, ())) :=
  ⟨⟨by decide,
      (C6_getNext_after_hasMoreElements.1 Unit scenarioA
        (nsAppDirectoryEnumerator.new ["K1", "K2", "K1"]) ()).1 (by decide)⟩,
    ⟨by decide,
      ((C6_getNext_after_hasMoreElements.2.1 Unit scenarioA unixBuild
        (nsPathsDirectoryEnumerator.new (some ['/', 'x']) ["K1"]) ()).2
          (false, { mCurrentKey := [], mNext := none, mEndPath := some [] }, ())
          (by decide)).2 rfl⟩⟩

/-! ## An enumerator whose path list is used up -/

theorem paths_hasMore_usedUp {σ : Type} (env : Env σ) (b : Build)
    (e : nsAppDirectoryEnumerator) (ep : Option CPtr) (w : σ)
    (hl : ∀ p, ep = some p → p.deref = NUL) :
    nsPathsDirectoryEnumerator.HasMoreElements env b
        { tonsAppDirectoryEnumerator := e, mEndPath := ep } w
      = some ((nsAppDirectoryEnumerator.HasMoreElements env e w).1,
          { tonsAppDirectoryEnumerator := (nsAppDirectoryEnumerator.HasMoreElements env e w).2.1,
            mEndPath := ep },
          (nsAppDirectoryEnumerator.HasMoreElements env e w).2.2) := by
  obtain ⟨keys, m⟩ := e
  cases m with
  | some f =>
    rw [paths_hasMore_buffered env b _ w f rfl]
    simp [nsAppDirectoryEnumerator.HasMoreElements, keyLoop_some]
  | none =>
    cases ep with
    | none => rw [paths_hasMore_null]; rfl
    | some p =>
      rw [paths_hasMore_scan, pathLoop_at_end env _ w _ p none (hl p rfl)]
      rfl

theorem paths_getNext_usedUp {σ : Type} (env : Env σ) (b : Build)
    (e : nsAppDirectoryEnumerator) (ep : Option CPtr) (w : σ)
    (hl : ∀ p, ep = some p → p.deref = NUL) :
    nsPathsDirectoryEnumerator.GetNext env b
        { tonsAppDirectoryEnumerator := e, mEndPath := ep } w
      = some ((nsAppDirectoryEnumerator.GetNext env e w).1,
          { tonsAppDirectoryEnumerator := (nsAppDirectoryEnumerator.GetNext env e w).2.1,
            mEndPath := ep },
          (nsAppDirectoryEnumerator.GetNext env e w).2.2) := by
  simp only [nsPathsDirectoryEnumerator.GetNext, paths_hasMore_usedUp env b e ep w hl,
    nsAppDirectoryEnumerator.GetNext]
  cases (nsAppDirectoryEnumerator.HasMoreElements env e w).1 <;> rfl

theorem paths_run_usedUp {σ : Type} (env : Env σ) (b : Build) (ep : Option CPtr)
    (hl : ∀ p, ep = some p → p.deref = NUL) :
    ∀ (cs : List Call) (e : nsAppDirectoryEnumerator) (w : σ),
      nsPathsDirectoryEnumerator.run env b cs
          { tonsAppDirectoryEnumerator := e, mEndPath := ep } w
        = some ((nsAppDirectoryEnumerator.run env cs e w).1,
            { tonsAppDirectoryEnumerator := (nsAppDirectoryEnumerator.run env cs e w).2.1,
              mEndPath := ep },
            (nsAppDirectoryEnumerator.run env cs e w).2.2) := by
  intro cs
  induction cs with
  | nil => intro e w; rfl
  | cons c cs ih =>
    intro e w
    cases c with
    | hasMoreElements =>
      simp only [nsPathsDirectoryEnumerator.run, paths_hasMore_usedUp env b e ep w hl, ih,
        nsAppDirectoryEnumerator.run, Option.map_some']
    | getNext =>
      simp only [nsPathsDirectoryEnumerator.run, paths_getNext_usedUp env b e ep w hl, ih,
        nsAppDirectoryEnumerator.run, Option.map_some']

/-- C7 (evaluation at the failing input): with the profile directory `/profile`
present on disk and `AppendNative("searchplugins")` failing, `GetFile` for
`NS_APP_USER_SEARCH_DIR` returns the failure code and nevertheless leaves
`/profile` in `*aResult`; the enumerator over `[NS_APP_USER_SEARCH_DIR]` then hands
out `/profile`, whereas the enumerator over the list without that key hands out
nothing. -/
theorem C7_failed_resolve_is_emitted :
    nsAppFileLocationProvider.GetFile demoSys unixBuild mozillaDefs
        (some mozillaDefs.NS_APP_USER_SEARCH_DIR) nsAppFileLocationProvider.new none
      = ((NS_ERROR_FAILURE, some "/profile"), nsAppFileLocationProvider.new, none)
    ∧ NS_FAILED NS_ERROR_FAILURE = true
    ∧ nsAppDirectoryEnumerator.drain (nsAppFileLocationProvider.env demoSys unixBuild mozillaDefs)
        2 (nsAppDirectoryEnumerator.new [mozillaDefs.NS_APP_USER_SEARCH_DIR])
        (nsAppFileLocationProvider.new, none) = ["/profile"]
    ∧ nsAppDirectoryEnumerator.drain (nsAppFileLocationProvider.env demoSys unixBuild mozillaDefs)
        2 (nsAppDirectoryEnumerator.new [])
        (nsAppFileLocationProvider.new, none) = [] := by
  refine ⟨by decide, by decide, by decide, by decide⟩

/-! ## GetFiles -/

theorem pathListSlot_unset {σ : Type} (sys : Sys σ) (name : String) (keys0 : Option KeyPtr)
    (w : σ) (henv : sys.PR_GetEnv name w = none)
    (hslot : keys0 = none ∨ ∃ p, keys0 = some p ∧ p.chars sys w = []) :
    (pathListSlot sys name keys0 w).chars sys w = [] := by
  rcases hslot with h | ⟨p, h, hp⟩
  · simp [pathListSlot, h, henv, KeyPtr.chars]
  · simp [pathListSlot, h, hp]

/-- C8 (as stated, refuted): the plug-in list is requested twice, first with
`MOZ_PLUGIN_PATH` set to `/o`, then with the variable removed from the environment
(the string `/o` still stands where it was). The second request does not consult
the environment: it reuses the pointer `keys[0]` of the static array and builds its
enumerator over the path list `/o`, not over the empty string. -/
theorem C8_unset_environment_counterexample :
    envSys.PR_GetEnv "MOZ_PLUGIN_PATH" envUnset = none
    ∧ (nsAppFileLocationProvider.GetFiles envSys unixBuild mozillaDefs
        mozillaDefs.NS_APP_PLUGINS_DIR_LIST
        (nsAppFileLocationProvider.GetFiles envSys unixBuild mozillaDefs
          mozillaDefs.NS_APP_PLUGINS_DIR_LIST Statics.initial envSet).2 envUnset).1
      = (NS_OK, some (Enumerator.paths (nsPathsDirectoryEnumerator.new (some ['/', 'o'])
          [NS_USER_PLUGINS_DIR, mozillaDefs.NS_APP_PLUGINS_DIR, NS_SYSTEM_PLUGINS_DIR])))
    ∧ (nsAppFileLocationProvider.GetFiles envSys unixBuild mozillaDefs
        mozillaDefs.NS_APP_PLUGINS_DIR_LIST
        (nsAppFileLocationProvider.GetFiles envSys unixBuild mozillaDefs
          mozillaDefs.NS_APP_PLUGINS_DIR_LIST Statics.initial envSet).2 envUnset).1
      ≠ (NS_OK, some (Enumerator.paths (nsPathsDirectoryEnumerator.new (some [])
          [NS_USER_PLUGINS_DIR, mozillaDefs.NS_APP_PLUGINS_DIR, NS_SYSTEM_PLUGINS_DIR]))) := by
  refine ⟨by decide, by decide, by decide⟩

/-- C8 (amended): (1), (2) when the environment variable is unset and `keys[0]` of
the static array is still null (no such request was made before) or points to an
empty string, `GetFiles` builds the enumerator of the plug-in list (non-Cocoa
builds) and of the search list over the empty string as path list;
(3) an `nsPathsDirectoryEnumerator` whose path list is empty or absent behaves
exactly like the `nsAppDirectoryEnumerator` with the same keys and buffer: for
every sequence of calls the observations, the base-class fields and the world are
the same. -/
theorem C8_empty_path_list_is_key_cursor :
    (∀ (σ : Type) (sys : Sys σ) (b : Build) (d : Defs) (st : Statics) (w : σ),
      b.MOZ_WIDGET_COCOA = false →
      d.NS_APP_PLUGINS_DIR_LIST ≠ d.NS_APP_SEARCH_DIR_LIST →
      d.NS_APP_PLUGINS_DIR_LIST ≠ d.NS_APP_DISTRIBUTION_SEARCH_DIR_LIST →
      sys.PR_GetEnv "MOZ_PLUGIN_PATH" w = none →
      (st.pluginKeys0 = none ∨ ∃ p, st.pluginKeys0 = some p ∧ p.chars sys w = []) →
      (nsAppFileLocationProvider.GetFiles sys b d d.NS_APP_PLUGINS_DIR_LIST st w).1
        = (NS_OK, some (Enumerator.paths (nsPathsDirectoryEnumerator.new (some [])
            ([NS_USER_PLUGINS_DIR, d.NS_APP_PLUGINS_DIR]
              ++ (if b.XP_UNIX then [NS_SYSTEM_PLUGINS_DIR] else []))))))
    ∧ (∀ (σ : Type) (sys : Sys σ) (b : Build) (d : Defs) (st : Statics) (w : σ),
      d.NS_APP_SEARCH_DIR_LIST ≠ d.NS_APP_PLUGINS_DIR_LIST →
      d.NS_APP_SEARCH_DIR_LIST ≠ d.NS_APP_DISTRIBUTION_SEARCH_DIR_LIST →
      sys.PR_GetEnv "MOZ_SEARCH_ENGINE_PATH" w = none →
      (st.searchKeys0 = none ∨ ∃ p, st.searchKeys0 = some p ∧ p.chars sys w = []) →
      (nsAppFileLocationProvider.GetFiles sys b d d.NS_APP_SEARCH_DIR_LIST st w).1
        = (NS_OK, some (Enumerator.paths (nsPathsDirectoryEnumerator.new (some [])
            [d.NS_APP_USER_SEARCH_DIR]))))
    ∧ (∀ (σ : Type) (env : Env σ) (b : Build) (ep : Option CPtr) (cs : List Call)
        (e : nsAppDirectoryEnumerator) (w : σ),
      ep = none ∨ ep = some [] →
      nsPathsDirectoryEnumerator.run env b cs
          { tonsAppDirectoryEnumerator := e, mEndPath := ep } w
        = some ((nsAppDirectoryEnumerator.run env cs e w).1,
            { tonsAppDirectoryEnumerator := (nsAppDirectoryEnumerator.run env cs e w).2.1,
              mEndPath := ep },
            (nsAppDirectoryEnumerator.run env cs e w).2.2)) := by
  refine ⟨?_, ?_, ?_⟩
  · intro σ sys b d st w hc h1 h2 henv hslot
    simp only [nsAppFileLocationProvider.GetFiles, if_true, hc, h1, h2, if_false,
      Bool.false_eq_true, pathListSlot_unset sys _ _ w henv hslot]
  · intro σ sys b d st w h1 h2 henv hslot
    simp only [nsAppFileLocationProvider.GetFiles, if_true, h1, h2, if_false,
      pathListSlot_unset sys _ _ w henv hslot]
  · intro σ env b ep cs e w hep
    refine paths_run_usedUp env b ep ?_ cs e w
    intro p hp
    rcases hep with h | h
    · rw [h] at hp; cases hp
    · rw [h] at hp; cases hp; rfl

theorem C8_empty_path_list_is_key_cursor_witness :
    (nsAppFileLocationProvider.GetFiles demoSys unixBuild mozillaDefs
        mozillaDefs.NS_APP_PLUGINS_DIR_LIST Statics.initial none).1
      = (NS_OK, some (Enumerator.paths (nsPathsDirectoryEnumerator.new (some [])
          ([NS_USER_PLUGINS_DIR, mozillaDefs.NS_APP_PLUGINS_DIR]
            ++ (if unixBuild.XP_UNIX then [NS_SYSTEM_PLUGINS_DIR] else [])))))
    ∧ (nsAppFileLocationProvider.GetFiles demoSys unixBuild mozillaDefs
        mozillaDefs.NS_APP_SEARCH_DIR_LIST Statics.initial none).1
      = (NS_OK, some (Enumerator.paths (nsPathsDirectoryEnumerator.new (some [])
          [mozillaDefs.NS_APP_USER_SEARCH_DIR])))
    ∧ nsPathsDirectoryEnumerator.run scenarioA unixBuild [Call.hasMoreElements, Call.getNext]
        { tonsAppDirectoryEnumerator := nsAppDirectoryEnumerator.new ["K1", "K2"],
          mEndPath := some [] } ()
      = some ((nsAppDirectoryEnumerator.run scenarioA [Call.hasMoreElements, Call.getNext]
            (nsAppDirectoryEnumerator.new ["K1", "K2"]) ()).1,
          { tonsAppDirectoryEnumerator :=
              (nsAppDirectoryEnumerator.run scenarioA [Call.hasMoreElements, Call.getNext]
                (nsAppDirectoryEnumerator.new ["K1", "K2"]) ()).2.1,
            mEndPath := some [] },
          (nsAppDirectoryEnumerator.run scenarioA [Call.hasMoreElements, Call.getNext]
            (nsAppDirectoryEnumerator.new ["K1", "K2"]) ()).2.2) :=
  ⟨C8_empty_path_list_is_key_cursor.1 (Option CPtr) demoSys unixBuild mozillaDefs
      Statics.initial none rfl (by decide) (by decide) (by decide) (Or.inl rfl),
    C8_empty_path_list_is_key_cursor.2.1 (Option CPtr) demoSys unixBuild mozillaDefs
      Statics.initial none (by decide) (by decide) (by decide) (Or.inl rfl),
    C8_empty_path_list_is_key_cursor.2.2 Unit scenarioA unixBuild (some [])
      [Call.hasMoreElements, Call.getNext] (nsAppDirectoryEnumerator.new ["K1", "K2"]) ()
      (Or.inr rfl)⟩

/-- C9: for the request `NS_APP_DISTRIBUTION_SEARCH_DIR_LIST`, in every build, with
every outside world and whatever the statics hold, `GetFiles` returns `NS_OK` and
hands back an enumerator whose `HasMoreElements` reports `false` with every
provider and file system. -/
theorem C9_distribution_search_list_is_empty :
    ∀ (σ : Type) (sys : Sys σ) (b : Build) (d : Defs) (st : Statics) (w : σ),
      (nsAppFileLocationProvider.GetFiles sys b d d.NS_APP_DISTRIBUTION_SEARCH_DIR_LIST st w).1.1
          = NS_OK
        ∧ NS_SUCCEEDED NS_OK = true
        ∧ ∃ e, (nsAppFileLocationProvider.GetFiles sys b d
                  d.NS_APP_DISTRIBUTION_SEARCH_DIR_LIST st w).1.2 = some e
            ∧ ∀ (τ : Type) (env : Env τ) (w2 : τ),
                (Enumerator.HasMoreElements env b e w2).map (fun h => h.1) = some false := by
  intro σ sys b d st w
  simp only [nsAppFileLocationProvider.GetFiles, if_true, NS_NewEmptyEnumerator]
  exact ⟨trivial, by decide, Enumerator.empty, rfl, fun _ _ _ => rfl⟩

/-- C10: for a key that is none of the keys `GetFile` compares `aProp` with,
`GetFile` returns the failure code `NS_ERROR_FAILURE` and hands back no file, and
the provider (with its cached `mMozBinDirectory`) and the outside world are as
they were, whatever the code outside the file would have answered. -/
theorem C10_unrecognized_key :
    ∀ (σ : Type) (sys : Sys σ) (b : Build) (d : Defs) (aProp : String)
      (self : nsAppFileLocationProvider) (w : σ),
      aProp ∉ recognizedKeys b d →
      nsAppFileLocationProvider.GetFile sys b d (some aProp) self w
          = ((NS_ERROR_FAILURE, none), self, w)
        ∧ NS_FAILED NS_ERROR_FAILURE = true := by
  intro σ sys b d aProp self w h
  refine ⟨?_, by decide⟩
  obtain ⟨cocoa, win, unix, ext, outside, lib64, bsd⟩ := b
  cases cocoa <;> cases unix <;>
    simp [recognizedKeys] at h <;>
    simp [nsAppFileLocationProvider.GetFile, nsAppFileLocationProvider.branches, h]

theorem C10_unrecognized_key_witness :
    "Nope" ∉ recognizedKeys unixBuild mozillaDefs
    ∧ nsAppFileLocationProvider.GetFile demoSys unixBuild mozillaDefs (some "Nope")
          { mMozBinDirectory := some "/bin" } none
        = ((NS_ERROR_FAILURE, none), { mMozBinDirectory := some "/bin" }, none)
    ∧ NS_FAILED NS_ERROR_FAILURE = true :=
  ⟨by decide,
    C10_unrecognized_key (Option CPtr) demoSys unixBuild mozillaDefs "Nope"
      { mMozBinDirectory := some "/bin" } none (by decide)⟩

/-! ## GetFile: the argument check -/

/-- C11 (as stated, refuted): called with the empty key, `GetFile` does not return
`NS_ERROR_INVALID_ARG`: the empty string is compared with every key like any other
string, matches none, and the call returns `NS_ERROR_FAILURE`. -/
theorem C11_empty_key_counterexample :
    nsAppFileLocationProvider.GetFile demoSys unixBuild mozillaDefs (some "")
        nsAppFileLocationProvider.new none
      = ((NS_ERROR_FAILURE, none), nsAppFileLocationProvider.new, none)
    ∧ NS_ERROR_FAILURE ≠ NS_ERROR_INVALID_ARG := by
  refine ⟨by decide, by decide⟩

/-- C11 (amended): called with a null key, `GetFile` returns `NS_ERROR_INVALID_ARG`
(a failure code) with no file and changes nothing; called with the empty key,
which is none of the keys it compares with, it returns `NS_ERROR_FAILURE` with no
file and changes nothing, as for every other unrecognized key. -/
theorem C11_null_key_invalid_arg :
    ∀ (σ : Type) (sys : Sys σ) (b : Build) (d : Defs) (self : nsAppFileLocationProvider)
      (w : σ),
      nsAppFileLocationProvider.GetFile sys b d none self w
          = ((NS_ERROR_INVALID_ARG, none), self, w)
        ∧ NS_FAILED NS_ERROR_INVALID_ARG = true
        ∧ ("" ∉ recognizedKeys b d →
            nsAppFileLocationProvider.GetFile sys b d (some "") self w
              = ((NS_ERROR_FAILURE, none), self, w)) := by
  intro σ sys b d self w
  refine ⟨rfl, by decide, ?_⟩
  intro h
  obtain ⟨cocoa, win, unix, ext, outside, lib64, bsd⟩ := b
  cases cocoa <;> cases unix <;>
    simp [recognizedKeys] at h <;>
    simp [nsAppFileLocationProvider.GetFile, nsAppFileLocationProvider.branches, h]

theorem C11_null_key_invalid_arg_witness :
    nsAppFileLocationProvider.GetFile demoSys unixBuild mozillaDefs (some "")
        nsAppFileLocationProvider.new none
      = ((NS_ERROR_FAILURE, none), nsAppFileLocationProvider.new, none) :=
  (C11_null_key_invalid_arg (Option CPtr) demoSys unixBuild mozillaDefs
    nsAppFileLocationProvider.new none).2.2 (by decide)

/-! ## GetFile: the keys derived from the base directory -/

theorem cloneBin_cases {σ : Type} (sys : Sys σ) (dir : Path)
    (self : nsAppFileLocationProvider) (w : σ) :
    (NS_FAILED (nsAppFileLocationProvider.cloneBin sys dir self w).1.1 = true
        ∧ (nsAppFileLocationProvider.cloneBin sys dir self w).1.2 = none)
      ∨ (nsAppFileLocationProvider.cloneBin sys dir self w).1 = (NS_OK, some dir) := by
  unfold nsAppFileLocationProvider.cloneBin
  cases h : NS_FAILED (sys.Clone dir) <;> simp [h]

/-- `CloneMozBinDirectory` either fails and hands back nothing, or returns `NS_OK`
with a directory. -/
theorem CloneMozBinDirectory_cases {σ : Type} (sys : Sys σ) (d : Defs)
    (self : nsAppFileLocationProvider) (w : σ) :
    (NS_FAILED (nsAppFileLocationProvider.CloneMozBinDirectory sys d self w).1.1 = true
        ∧ (nsAppFileLocationProvider.CloneMozBinDirectory sys d self w).1.2 = none)
      ∨ ∃ base, (nsAppFileLocationProvider.CloneMozBinDirectory sys d self w).1
          = (NS_OK, some base) := by
  unfold nsAppFileLocationProvider.CloneMozBinDirectory
  cases hm : self.mMozBinDirectory with
  | some dir =>
    simp only
    rcases cloneBin_cases sys dir self w with h | h
    · exact Or.inl h
    · exact Or.inr ⟨dir, h⟩
  | none =>
    simp only
    cases hs : NS_FAILED (sys.do_GetService w).1 with
    | true => simp [hs]
    | false =>
      simp only [Bool.false_eq_true, if_false]
      cases h1 : (sys.directoryService_Get d.NS_XPCOM_CURRENT_PROCESS_DIR
          (sys.do_GetService w).2).1 with
      | ok dir =>
        simp only
        rcases cloneBin_cases sys dir { mMozBinDirectory := some dir }
          (sys.directoryService_Get d.NS_XPCOM_CURRENT_PROCESS_DIR (sys.do_GetService w).2).2
          with h | h
        · exact Or.inl h
        · exact Or.inr ⟨dir, h⟩
      | error e1 =>
        simp only
        cases h2 : (sys.directoryService_Get d.NS_OS_CURRENT_PROCESS_DIR
            (sys.directoryService_Get d.NS_XPCOM_CURRENT_PROCESS_DIR
              (sys.do_GetService w).2).2).1 with
        | ok dir =>
          simp only
          rcases cloneBin_cases sys dir { mMozBinDirectory := some dir }
            (sys.directoryService_Get d.NS_OS_CURRENT_PROCESS_DIR
              (sys.directoryService_Get d.NS_XPCOM_CURRENT_PROCESS_DIR
                (sys.do_GetService w).2).2).2 with h | h
          · exact Or.inl h
          · exact Or.inr ⟨dir, h⟩
        | error e => exact Or.inl ⟨e.failed, rfl⟩

theorem NS_SUCCEEDED_failure (e : Failure) : NS_SUCCEEDED e.rv = false := by
  simp [NS_SUCCEEDED, e.failed]

theorem NS_SUCCEEDED_of_failed (rv : Nsresult) (h : NS_FAILED rv = true) :
    NS_SUCCEEDED rv = false := by
  simp [NS_SUCCEEDED, h]

/-- The end of `GetFile` (lines 223-228) after a branch that built its file in
`localFile` on a base directory `c` with one or two appended components. -/
theorem getFile_bin_append {σ : Type} (sys : Sys σ) (names : List String)
    (c : (Nsresult × Option Path) × nsAppFileLocationProvider × σ)
    (r : (Nsresult × Option Path) × nsAppFileLocationProvider × σ)
    (hr : r = names.foldl (fun acc name => thenAppend sys.AppendRelativeNativePath name acc) c) :
    (∀ base, c.1 = (NS_OK, some base) →
        (if r.1.2.isSome && NS_SUCCEEDED r.1.1 then ((NS_OK, r.1.2), r.2)
          else ((r.1.1, (none : Option Path)), r.2))
          = ((match sys.appendAll base names with
              | Except.ok p => (NS_OK, some p)
              | Except.error e => (e.rv, none)), c.2))
      ∧ (NS_FAILED c.1.1 = true → c.1.2 = none →
          (if r.1.2.isSome && NS_SUCCEEDED r.1.1 then ((NS_OK, r.1.2), r.2)
            else ((r.1.1, (none : Option Path)), r.2))
            = ((c.1.1, none), c.2)) := by
  subst hr
  induction names generalizing c with
  | nil =>
    constructor
    · intro base hb
      obtain ⟨c1, c2⟩ := c
      simp only at hb
      subst hb
      simp [Sys.appendAll, NS_SUCCEEDED, NS_FAILED, NS_OK]
    · intro hf hn
      obtain ⟨⟨rv, lf⟩, c2⟩ := c
      simp only at hf hn
      subst hn
      simp
  | cons name names ih =>
    constructor
    · intro base hb
      obtain ⟨c1, c2⟩ := c
      simp only at hb
      subst hb
      simp only [List.foldl_cons, Sys.appendAll]
      cases ha : sys.AppendRelativeNativePath base name with
      | ok f1 =>
        have h1 : thenAppend sys.AppendRelativeNativePath name ((NS_OK, some base), c2)
            = ((NS_OK, some f1), c2) := by
          simp [thenAppend, ha, NS_SUCCEEDED, NS_FAILED, NS_OK]
        rw [h1]
        exact (ih ((NS_OK, some f1), c2)).1 f1 rfl
      | error e =>
        have h1 : thenAppend sys.AppendRelativeNativePath name ((NS_OK, some base), c2)
            = ((e.rv, some base), c2) := by
          simp [thenAppend, ha, NS_SUCCEEDED, NS_FAILED, NS_OK]
        rw [h1]
        have hstay : ∀ (ns : List String),
            ns.foldl (fun acc name => thenAppend sys.AppendRelativeNativePath name acc)
              ((e.rv, some base), c2) = ((e.rv, some base), c2) := by
          intro ns
          induction ns with
          | nil => rfl
          | cons n ns ih2 =>
            simp only [List.foldl_cons]
            have : thenAppend sys.AppendRelativeNativePath n ((e.rv, some base), c2)
                = ((e.rv, some base), c2) := by
              simp [thenAppend, NS_SUCCEEDED_failure]
            rw [this]; exact ih2
        rw [hstay]
        simp [NS_SUCCEEDED_failure]
    · intro hf hn
      simp only [List.foldl_cons]
      have h1 : thenAppend sys.AppendRelativeNativePath name c = c := by
        simp [thenAppend, NS_SUCCEEDED_of_failed _ hf]
      rw [h1]
      exact (ih c).2 hf hn

/-- The branch of each derived key: `CloneMozBinDirectory`, then the appends. -/
theorem branches_derived {σ : Type} (sys : Sys σ) (b : Build) (d : Defs)
    (self : nsAppFileLocationProvider) (w : σ) (k : String) (names : List String)
    (hnd : (recognizedKeys b d).Nodup) (hk : (k, names) ∈ derivedKeys d) :
    nsAppFileLocationProvider.branches sys b d k self w
      = (((names.foldl (fun acc name => thenAppend sys.AppendRelativeNativePath name acc)
            (nsAppFileLocationProvider.CloneMozBinDirectory sys d self w)).1, none),
          (names.foldl (fun acc name => thenAppend sys.AppendRelativeNativePath name acc)
            (nsAppFileLocationProvider.CloneMozBinDirectory sys d self w)).2) := by
  obtain ⟨cocoa, win, unix, ext, outside, lib64, bsd⟩ := b
  simp only [derivedKeys, List.mem_cons, Prod.mk.injEq, List.mem_singleton, List.not_mem_nil,
    or_false] at hk
  rcases hk with ⟨h1, h2⟩ | ⟨h1, h2⟩ | ⟨h1, h2⟩ | ⟨h1, h2⟩ | ⟨h1, h2⟩ | ⟨h1, h2⟩ <;>
    subst h1 h2 <;>
    cases cocoa <;> cases unix <;>
    simp [recognizedKeys] at hnd <;>
    simp [nsAppFileLocationProvider.branches, hnd, eq_comm, DEFAULTS_DIR_NAME,
      DEFAULTS_PREF_DIR_NAME, RES_DIR_NAME, CHROME_DIR_NAME, PLUGINS_DIR_NAME, SEARCH_DIR_NAME]

/-- C12: for each derived key (defaults, pref defaults, res, chrome, plugins,
search) `GetFile` takes the base directory from `CloneMozBinDirectory` and appends
the key's relative suffix ("defaults"; "defaults" then "pref"; "res"; "chrome";
"plugins"; "searchplugins"): with a base directory and successful appends it
returns `NS_OK` and that path (a failing append gives that failure and no path);
and when `CloneMozBinDirectory` fails, `GetFile` returns that same failure code and
no path. `CloneMozBinDirectory` does one or the other. The keys of the header are
taken to be distinct. -/
theorem C12_derived_keys :
    ∀ (σ : Type) (sys : Sys σ) (b : Build) (d : Defs) (self : nsAppFileLocationProvider)
      (w : σ) (k : String) (names : List String),
      (recognizedKeys b d).Nodup → (k, names) ∈ derivedKeys d →
      (∀ base, (nsAppFileLocationProvider.CloneMozBinDirectory sys d self w).1
            = (NS_OK, some base) →
          nsAppFileLocationProvider.GetFile sys b d (some k) self w
            = ((match sys.appendAll base names with
                | Except.ok p => (NS_OK, some p)
                | Except.error e => (e.rv, none)),
               (nsAppFileLocationProvider.CloneMozBinDirectory sys d self w).2))
        ∧ (NS_FAILED (nsAppFileLocationProvider.CloneMozBinDirectory sys d self w).1.1 = true →
          nsAppFileLocationProvider.GetFile sys b d (some k) self w
            = (((nsAppFileLocationProvider.CloneMozBinDirectory sys d self w).1.1, none),
               (nsAppFileLocationProvider.CloneMozBinDirectory sys d self w).2))
        ∧ (NS_FAILED (nsAppFileLocationProvider.CloneMozBinDirectory sys d self w).1.1 = true
            ∨ ∃ base, (nsAppFileLocationProvider.CloneMozBinDirectory sys d self w).1
                = (NS_OK, some base)) := by
  intro σ sys b d self w k names hnd hk
  have hbr := branches_derived sys b d self w k names hnd hk
  have hfin := getFile_bin_append sys names
    (nsAppFileLocationProvider.CloneMozBinDirectory sys d self w) _ rfl
  have hcases := CloneMozBinDirectory_cases sys d self w
  refine ⟨?_, ?_, ?_⟩
  · intro base hb
    simp only [nsAppFileLocationProvider.GetFile, hbr]
    exact hfin.1 base hb
  · intro hf
    have hn : (nsAppFileLocationProvider.CloneMozBinDirectory sys d self w).1.2 = none := by
      rcases hcases with h | ⟨base, h⟩
      · exact h.2
      · rw [h] at hf; simp [NS_FAILED, NS_OK] at hf
    simp only [nsAppFileLocationProvider.GetFile, hbr]
    exact hfin.2 hf hn
  · rcases hcases with h | h
    · exact Or.inl h.1
    · exact Or.inr h

theorem C12_derived_keys_witness :
    nsAppFileLocationProvider.GetFile fsSys unixBuild mozillaDefs
        (some mozillaDefs.NS_APP_PREF_DEFAULTS_50_DIR) nsAppFileLocationProvider.new FS.empty
      = ((match fsSys.appendAll "/app" ["defaults", "pref"] with
          | Except.ok p => (NS_OK, some p)
          | Except.error e => (e.rv, none)),
         (nsAppFileLocationProvider.CloneMozBinDirectory fsSys mozillaDefs
            nsAppFileLocationProvider.new FS.empty).2)
    ∧ nsAppFileLocationProvider.GetFile fsSys unixBuild mozillaDefs
        (some mozillaDefs.NS_APP_PREF_DEFAULTS_50_DIR) nsAppFileLocationProvider.new FS.empty
      = ((NS_OK, some "/app/defaults/pref"), { mMozBinDirectory := some "/app" }, FS.empty) :=
  ⟨(C12_derived_keys FS fsSys unixBuild mozillaDefs nsAppFileLocationProvider.new FS.empty
      mozillaDefs.NS_APP_PREF_DEFAULTS_50_DIR ["defaults", "pref"] (by decide) (by decide)).1
      "/app" (by decide),
    by decide⟩

/-! ## The cached base directory -/

theorem thenAppend_snd {S : Type} (append : Path → String → XResult Path) (name : String)
    (r : (Nsresult × Option Path) × S) : (thenAppend append name r).2 = r.2 := by
  unfold thenAppend
  split
  · split
    · split <;> rfl
    · rfl
  · rfl

theorem CloneMozBinDirectory_cached {σ : Type} (sys : Sys σ) (d : Defs)
    (self : nsAppFileLocationProvider) (w : σ) (dir : Path)
    (hc : self.mMozBinDirectory = some dir) :
    nsAppFileLocationProvider.CloneMozBinDirectory sys d self w
      = ((if NS_FAILED (sys.Clone dir) then (sys.Clone dir, none) else (NS_OK, some dir)),
          self, w) := by
  simp only [nsAppFileLocationProvider.CloneMozBinDirectory, hc,
    nsAppFileLocationProvider.cloneBin]
  split <;> rfl

theorem ite_keeps {σ T : Type} (self X : nsAppFileLocationProvider) (c : Prop) [Decidable c]
    (a b : T × nsAppFileLocationProvider × σ)
    (ha : a.2.1 = self ∨ a.2.1 = X) (hb : b.2.1 = self ∨ b.2.1 = X) :
    (if c then a else b).2.1 = self ∨ (if c then a else b).2.1 = X := by
  split <;> assumption

/-- The provider after the comparisons of `GetFile`: as before, or as
`CloneMozBinDirectory` left it. -/
theorem branches_provider {σ : Type} (sys : Sys σ) (b : Build) (d : Defs) (aProp : String)
    (self : nsAppFileLocationProvider) (w : σ) :
    (nsAppFileLocationProvider.branches sys b d aProp self w).2.1 = self
      ∨ (nsAppFileLocationProvider.branches sys b d aProp self w).2.1
          = (nsAppFileLocationProvider.CloneMozBinDirectory sys d self w).2.1 := by
  unfold nsAppFileLocationProvider.branches
  repeat' with_reducible apply ite_keeps
  all_goals first
    | exact Or.inl rfl
    | (right; rfl)
    | (right; simp only [thenAppend_snd]; done)
    | (left; split <;> first | rfl | (split <;> rfl))
    | (left; dsimp only; split <;> first | rfl | (split <;> rfl))

theorem GetFile_keeps_cache {σ : Type} (sys : Sys σ) (b : Build) (d : Defs)
    (aProp : Option String) (self : nsAppFileLocationProvider) (w : σ) (dir : Path)
    (hc : self.mMozBinDirectory = some dir) :
    (nsAppFileLocationProvider.GetFile sys b d aProp self w).2.1 = self := by
  cases aProp with
  | none => rfl
  | some k =>
    have hp := branches_provider sys b d k self w
    rw [CloneMozBinDirectory_cached sys d self w dir hc] at hp
    simp only [or_self] at hp
    simp only [nsAppFileLocationProvider.GetFile]
    split <;> exact hp

theorem resolveSeq_keeps_cache {σ : Type} (b : Build) (d : Defs) (dir : Path)
    (calls : List (Sys σ × Option String × σ)) :
    ∀ (self : nsAppFileLocationProvider), self.mMozBinDirectory = some dir →
      nsAppFileLocationProvider.resolveSeq b d calls self = self := by
  induction calls with
  | nil => intro self _; rfl
  | cons c calls ih =>
    intro self hc
    obtain ⟨sys, aProp, w⟩ := c
    simp only [nsAppFileLocationProvider.resolveSeq]
    rw [GetFile_keeps_cache sys b d aProp self w dir hc]
    exact ih self hc

/-- What `CloneMozBinDirectory` obtains, it caches: after a successful call
`mMozBinDirectory` holds the directory handed back. -/
theorem CloneMozBinDirectory_caches {σ : Type} (sys : Sys σ) (d : Defs)
    (self : nsAppFileLocationProvider) (w : σ) (base : Path)
    (h : (nsAppFileLocationProvider.CloneMozBinDirectory sys d self w).1 = (NS_OK, some base)) :
    (nsAppFileLocationProvider.CloneMozBinDirectory sys d self w).2.1.mMozBinDirectory
      = some base := by
  have hcb : ∀ (dir : Path) (s : nsAppFileLocationProvider) (w1 : σ),
      s.mMozBinDirectory = some dir →
      (nsAppFileLocationProvider.cloneBin sys dir s w1).1 = (NS_OK, some base) →
      (nsAppFileLocationProvider.cloneBin sys dir s w1).2.1.mMozBinDirectory = some base := by
    intro dir s w1 hs hcl
    unfold nsAppFileLocationProvider.cloneBin at hcl ⊢
    cases hf : NS_FAILED (sys.Clone dir) with
    | true => simp [hf] at hcl
    | false =>
      simp only [hf, Bool.false_eq_true, if_false, Prod.mk.injEq, Option.some.injEq,
        true_and] at hcl ⊢
      rw [hs, hcl]
  unfold nsAppFileLocationProvider.CloneMozBinDirectory at h ⊢
  cases hm : self.mMozBinDirectory with
  | some dir =>
    simp only [hm] at h ⊢
    exact hcb dir self w hm h
  | none =>
    simp only [hm] at h ⊢
    cases hs : NS_FAILED (sys.do_GetService w).1 with
    | true => simp [hs] at h
    | false =>
      simp only [hs, Bool.false_eq_true, if_false] at h ⊢
      cases h1 : (sys.directoryService_Get d.NS_XPCOM_CURRENT_PROCESS_DIR
          (sys.do_GetService w).2).1 with
      | ok dir =>
        simp only [h1] at h ⊢
        exact hcb dir _ _ rfl h
      | error e1 =>
        simp only [h1] at h ⊢
        cases h2 : (sys.directoryService_Get d.NS_OS_CURRENT_PROCESS_DIR
            (sys.directoryService_Get d.NS_XPCOM_CURRENT_PROCESS_DIR
              (sys.do_GetService w).2).2).1 with
        | ok dir =>
          simp only [h2] at h ⊢
          exact hcb dir _ _ rfl h
        | error e => simp [h2] at h

/-- C13: the base directory is computed at most once per provider.
(1) A successful `CloneMozBinDirectory` leaves the directory it hands back in
`mMozBinDirectory`.
(2) Once `mMozBinDirectory` is set, no sequence of `GetFile` calls, whatever the
keys, the worlds and the answers of the code outside the file, changes the provider.
(3) With `mMozBinDirectory` set, `CloneMozBinDirectory` only clones it: the world is
untouched (the directory service is not asked) and the result is the cached
directory, or the failure of `Clone`.
(4) With `mMozBinDirectory` set (and `Clone` succeeding), `GetFile` of a derived key
returns the cached directory with the key's suffix appended and leaves provider
and world untouched. -/
theorem C13_base_directory_cached :
    (∀ (σ : Type) (sys : Sys σ) (d : Defs) (self : nsAppFileLocationProvider) (w : σ)
        (base : Path),
      (nsAppFileLocationProvider.CloneMozBinDirectory sys d self w).1 = (NS_OK, some base) →
      (nsAppFileLocationProvider.CloneMozBinDirectory sys d self w).2.1.mMozBinDirectory
        = some base)
    ∧ (∀ (σ : Type) (b : Build) (d : Defs) (dir : Path)
        (calls : List (Sys σ × Option String × σ)) (self : nsAppFileLocationProvider),
      self.mMozBinDirectory = some dir →
      nsAppFileLocationProvider.resolveSeq b d calls self = self)
    ∧ (∀ (σ : Type) (sys : Sys σ) (d : Defs) (self : nsAppFileLocationProvider) (w : σ)
        (dir : Path),
      self.mMozBinDirectory = some dir →
      nsAppFileLocationProvider.CloneMozBinDirectory sys d self w
        = ((if NS_FAILED (sys.Clone dir) then (sys.Clone dir, none) else (NS_OK, some dir)),
            self, w))
    ∧ (∀ (σ : Type) (sys : Sys σ) (b : Build) (d : Defs) (self : nsAppFileLocationProvider)
        (w : σ) (dir : Path) (k : String) (names : List String),
      (recognizedKeys b d).Nodup → (k, names) ∈ derivedKeys d →
      self.mMozBinDirectory = some dir → NS_FAILED (sys.Clone dir) = false →
      nsAppFileLocationProvider.GetFile sys b d (some k) self w
        = ((match sys.appendAll dir names with
            | Except.ok p => (NS_OK, some p)
            | Except.error e => (e.rv, none)), self, w)) := by
  refine ⟨?_, ?_, ?_, ?_⟩
  · intro σ sys d self w base h
    exact CloneMozBinDirectory_caches sys d self w base h
  · intro σ b d dir calls self hc
    exact resolveSeq_keeps_cache b d dir calls self hc
  · intro σ sys d self w dir hc
    exact CloneMozBinDirectory_cached sys d self w dir hc
  · intro σ sys b d self w dir k names hnd hk hc hcl
    have hbr := branches_derived sys b d self w k names hnd hk
    have hfin := getFile_bin_append sys names
      (nsAppFileLocationProvider.CloneMozBinDirectory sys d self w) _ rfl
    have hcl2 := CloneMozBinDirectory_cached sys d self w dir hc
    simp only [hcl, Bool.false_eq_true, if_false] at hcl2
    simp only [nsAppFileLocationProvider.GetFile, hbr]
    have := hfin.1 dir (by rw [hcl2])
    rw [this, hcl2]

theorem C13_base_directory_cached_witness :
    (nsAppFileLocationProvider.CloneMozBinDirectory fsSys mozillaDefs
        nsAppFileLocationProvider.new FS.empty).2.1.mMozBinDirectory = some "/app"
    ∧ nsAppFileLocationProvider.resolveSeq unixBuild mozillaDefs
        [(demoSys, some "ARes", none), (demoSys, some "AppRegD", none), (demoSys, none, none)]
        { mMozBinDirectory := some "/app" } = { mMozBinDirectory := some "/app" }
    ∧ nsAppFileLocationProvider.CloneMozBinDirectory demoSys mozillaDefs
        { mMozBinDirectory := some "/app" } none
      = ((if NS_FAILED (demoSys.Clone "/app") then (demoSys.Clone "/app", none)
          else (NS_OK, some "/app")), { mMozBinDirectory := some "/app" }, none)
    ∧ nsAppFileLocationProvider.GetFile demoSys unixBuild mozillaDefs (some "ARes")
        { mMozBinDirectory := some "/app" } none
      = ((match demoSys.appendAll "/app" ["res"] with
          | Except.ok p => (NS_OK, some p)
          | Except.error e => (e.rv, none)), { mMozBinDirectory := some "/app" }, none) :=
  ⟨C13_base_directory_cached.1 FS fsSys mozillaDefs nsAppFileLocationProvider.new FS.empty
      "/app" (by decide),
    C13_base_directory_cached.2.1 (Option CPtr) unixBuild mozillaDefs "/app"
      [(demoSys, some "ARes", none), (demoSys, some "AppRegD", none), (demoSys, none, none)]
      { mMozBinDirectory := some "/app" } rfl,
    C13_base_directory_cached.2.2.1 (Option CPtr) demoSys mozillaDefs
      { mMozBinDirectory := some "/app" } none "/app" rfl,
    C13_base_directory_cached.2.2.2 (Option CPtr) demoSys unixBuild mozillaDefs
      { mMozBinDirectory := some "/app" } none "/app" "ARes" ["res"]
      (by decide) (by decide) rfl (by decide)⟩

/-- C14 (as stated, refuted): the start-up signal is available (`/app`) and nothing
is cached, yet `CloneMozBinDirectory` fails and hands back no path, because `Clone`
of the directory fails; and the directory has been cached by then. -/
theorem C14_clone_failure_counterexample :
    (cloneFailSys.directoryService_Get mozillaDefs.NS_XPCOM_CURRENT_PROCESS_DIR FS.empty).1
      = Except.ok "/app"
    ∧ nsAppFileLocationProvider.CloneMozBinDirectory cloneFailSys mozillaDefs
        nsAppFileLocationProvider.new FS.empty
      = ((NS_ERROR_FAILURE, none), { mMozBinDirectory := some "/app" }, FS.empty)
    ∧ NS_FAILED NS_ERROR_FAILURE = true := by
  refine ⟨rfl, by decide, by decide⟩

/-- C14 (amended): with nothing cached, `CloneMozBinDirectory`
(1) fails with the code of `do_GetService`, caching nothing, when the directory
service cannot be obtained;
(2) otherwise asks for `NS_XPCOM_CURRENT_PROCESS_DIR` and, if that is available,
caches it and clones it without asking for `NS_OS_CURRENT_PROCESS_DIR`;
(3) only if that is unavailable asks for `NS_OS_CURRENT_PROCESS_DIR` and, if that
is available, caches it and clones it;
(4) fails with the second failure code, caching nothing, when neither is available.
In (2) and (3) the call succeeds with the directory unless `Clone` fails, in which
case it returns that failure and no path while the directory stays cached. -/
theorem C14_base_directory_fallback :
    ∀ (σ : Type) (sys : Sys σ) (d : Defs) (self : nsAppFileLocationProvider) (w : σ),
      self.mMozBinDirectory = none →
      (NS_FAILED (sys.do_GetService w).1 = true →
        nsAppFileLocationProvider.CloneMozBinDirectory sys d self w
          = (((sys.do_GetService w).1, none), self, (sys.do_GetService w).2))
      ∧ (NS_FAILED (sys.do_GetService w).1 = false →
        ∀ dir, (sys.directoryService_Get d.NS_XPCOM_CURRENT_PROCESS_DIR
            (sys.do_GetService w).2).1 = Except.ok dir →
        nsAppFileLocationProvider.CloneMozBinDirectory sys d self w
          = ((if NS_FAILED (sys.Clone dir) then (sys.Clone dir, none) else (NS_OK, some dir)),
              { mMozBinDirectory := some dir },
              (sys.directoryService_Get d.NS_XPCOM_CURRENT_PROCESS_DIR
                (sys.do_GetService w).2).2))
      ∧ (NS_FAILED (sys.do_GetService w).1 = false →
        ∀ e1 dir, (sys.directoryService_Get d.NS_XPCOM_CURRENT_PROCESS_DIR
            (sys.do_GetService w).2).1 = Except.error e1 →
          (sys.directoryService_Get d.NS_OS_CURRENT_PROCESS_DIR
            (sys.directoryService_Get d.NS_XPCOM_CURRENT_PROCESS_DIR
              (sys.do_GetService w).2).2).1 = Except.ok dir →
        nsAppFileLocationProvider.CloneMozBinDirectory sys d self w
          = ((if NS_FAILED (sys.Clone dir) then (sys.Clone dir, none) else (NS_OK, some dir)),
              { mMozBinDirectory := some dir },
              (sys.directoryService_Get d.NS_OS_CURRENT_PROCESS_DIR
                (sys.directoryService_Get d.NS_XPCOM_CURRENT_PROCESS_DIR
                  (sys.do_GetService w).2).2).2))
      ∧ (NS_FAILED (sys.do_GetService w).1 = false →
        ∀ e1 e2, (sys.directoryService_Get d.NS_XPCOM_CURRENT_PROCESS_DIR
            (sys.do_GetService w).2).1 = Except.error e1 →
          (sys.directoryService_Get d.NS_OS_CURRENT_PROCESS_DIR
            (sys.directoryService_Get d.NS_XPCOM_CURRENT_PROCESS_DIR
              (sys.do_GetService w).2).2).1 = Except.error e2 →
        nsAppFileLocationProvider.CloneMozBinDirectory sys d self w
            = ((e2.rv, none), self,
                (sys.directoryService_Get d.NS_OS_CURRENT_PROCESS_DIR
                  (sys.directoryService_Get d.NS_XPCOM_CURRENT_PROCESS_DIR
                    (sys.do_GetService w).2).2).2)
          ∧ NS_FAILED e2.rv = true) := by
  intro σ sys d self w hc
  refine ⟨?_, ?_, ?_, ?_⟩
  · intro hs
    simp [nsAppFileLocationProvider.CloneMozBinDirectory, hc, hs]
  · intro hs dir h1
    simp only [nsAppFileLocationProvider.CloneMozBinDirectory, hc, hs, h1,
      nsAppFileLocationProvider.cloneBin, Bool.false_eq_true, if_false]
    split <;> rfl
  · intro hs e1 dir h1 h2
    simp only [nsAppFileLocationProvider.CloneMozBinDirectory, hc, hs, h1, h2,
      nsAppFileLocationProvider.cloneBin, Bool.false_eq_true, if_false]
    split <;> rfl
  · intro hs e1 e2 h1 h2
    refine ⟨?_, e2.failed⟩
    simp only [nsAppFileLocationProvider.CloneMozBinDirectory, hc, hs, h1, h2,
      Bool.false_eq_true, if_false]

theorem C14_base_directory_fallback_witness :
    nsAppFileLocationProvider.CloneMozBinDirectory fsSys mozillaDefs
        nsAppFileLocationProvider.new FS.empty
      = ((if NS_FAILED (fsSys.Clone "/app") then (fsSys.Clone "/app", none)
          else (NS_OK, some "/app")),
          { mMozBinDirectory := some "/app" },
          (fsSys.directoryService_Get mozillaDefs.NS_XPCOM_CURRENT_PROCESS_DIR
            (fsSys.do_GetService FS.empty).2).2)
    ∧ (nsAppFileLocationProvider.CloneMozBinDirectory demoSys mozillaDefs
        nsAppFileLocationProvider.new none
      = ((Failure.generic.rv, none), nsAppFileLocationProvider.new,
          (demoSys.directoryService_Get mozillaDefs.NS_OS_CURRENT_PROCESS_DIR
            (demoSys.directoryService_Get mozillaDefs.NS_XPCOM_CURRENT_PROCESS_DIR
              (demoSys.do_GetService none).2).2).2)
      ∧ NS_FAILED Failure.generic.rv = true) :=
  ⟨(C14_base_directory_fallback FS fsSys mozillaDefs nsAppFileLocationProvider.new FS.empty
      rfl).2.1 (by decide) "/app" rfl,
    (C14_base_directory_fallback (Option CPtr) demoSys mozillaDefs
      nsAppFileLocationProvider.new none rfl).2.2.2 (by decide) Failure.generic
      Failure.generic rfl rfl⟩

/-! ## GetProductDirectory -/

/-- `GetProductDirectory` is its first part followed by the existence check and the
creation (lines 319-331). -/
theorem GetProductDirectory_eq {σ : Type} (sys : Sys σ) (b : Build) (d : Defs)
    (aLocal : Bool) (w : σ) :
    nsAppFileLocationProvider.GetProductDirectory sys b d aLocal w
      = match nsAppFileLocationProvider.productPath sys b d aLocal w with
        | (Except.error e, w1) => ((e.rv, none), w1)
        | (Except.ok localDir, w1) =>
          if NS_FAILED
              (if NS_SUCCEEDED (sys.Exists localDir w1).1 && !(sys.Exists localDir w1).2 then
                sys.Create localDir DIRECTORY_TYPE 0o700 w1
              else ((sys.Exists localDir w1).1, w1)).1 then
            (((if NS_SUCCEEDED (sys.Exists localDir w1).1 && !(sys.Exists localDir w1).2 then
                sys.Create localDir DIRECTORY_TYPE 0o700 w1
              else ((sys.Exists localDir w1).1, w1)).1, none),
             (if NS_SUCCEEDED (sys.Exists localDir w1).1 && !(sys.Exists localDir w1).2 then
                sys.Create localDir DIRECTORY_TYPE 0o700 w1
              else ((sys.Exists localDir w1).1, w1)).2)
          else
            (((if NS_SUCCEEDED (sys.Exists localDir w1).1 && !(sys.Exists localDir w1).2 then
                sys.Create localDir DIRECTORY_TYPE 0o700 w1
              else ((sys.Exists localDir w1).1, w1)).1, some localDir),
             (if NS_SUCCEEDED (sys.Exists localDir w1).1 && !(sys.Exists localDir w1).2 then
                sys.Create localDir DIRECTORY_TYPE 0o700 w1
              else ((sys.Exists localDir w1).1, w1)).2) := by
  unfold nsAppFileLocationProvider.GetProductDirectory nsAppFileLocationProvider.productPath
  simp only
  by_cases hs : NS_FAILED (sys.do_GetService w).1 = true
  · simp only [hs, if_true, dite_true]
  · simp only [hs, if_false, dite_false]
    cases hg : (sys.directoryService_Get d.XRE_EXECUTABLE_FILE (sys.do_GetService w).2).1 with
    | error e => rfl
    | ok exeFile =>
      simp only
      cases hu : (sys.TorBrowser_GetUserDataDir exeFile
          (sys.directoryService_Get d.XRE_EXECUTABLE_FILE (sys.do_GetService w).2).2).1 with
      | error e => rfl
      | ok localDir0 =>
        simp only
        cases ha : (if b.TOR_BROWSER_DATA_OUTSIDE_APP_DIR = true then
            sys.AppendNative localDir0 "Browser"
          else sys.AppendRelativeNativePath localDir0
            ("Data" ++ XPCOM_FILE_PATH_SEPARATOR b ++ "Browser")) with
        | error e => rfl
        | ok localDir1 =>
          simp only
          cases hc : (if aLocal = true then sys.AppendNative localDir1 "Caches"
              else Except.ok localDir1) with
          | error e => rfl
          | ok localDir => rfl

theorem productPath_recordCreate {σ : Type} (sys : Sys σ) (b : Build) (d : Defs)
    (aLocal : Bool) (w : σ) (log : List (Path × Nat × Nat)) :
    nsAppFileLocationProvider.productPath sys.recordCreate b d aLocal (w, log)
      = ((nsAppFileLocationProvider.productPath sys b d aLocal w).1,
          ((nsAppFileLocationProvider.productPath sys b d aLocal w).2, log)) := by
  unfold nsAppFileLocationProvider.productPath
  simp only [Sys.recordCreate]
  by_cases hs : NS_FAILED (sys.do_GetService w).1 = true
  · simp only [hs, dite_true]
  · simp only [hs, dite_false]
    cases hg : (sys.directoryService_Get d.XRE_EXECUTABLE_FILE (sys.do_GetService w).2).1 with
    | error e => rfl
    | ok exeFile =>
      simp only
      cases hu : (sys.TorBrowser_GetUserDataDir exeFile
          (sys.directoryService_Get d.XRE_EXECUTABLE_FILE (sys.do_GetService w).2).2).1 with
      | error e => rfl
      | ok localDir0 =>
        simp only
        cases ha : (if b.TOR_BROWSER_DATA_OUTSIDE_APP_DIR = true then
            sys.AppendNative localDir0 "Browser"
          else sys.AppendRelativeNativePath localDir0
            ("Data" ++ XPCOM_FILE_PATH_SEPARATOR b ++ "Browser")) with
        | error e => rfl
        | ok localDir1 => rfl

/-- C15: let `localDir` be the product directory computed by the first part of
`GetProductDirectory`, and let every `Create` call be recorded.
(1) If `localDir` does not exist, exactly one `Create` call is made, for `localDir`
with type `DIRECTORY_TYPE` and permissions `0700`; if it fails, the call returns
its failure code and no path, otherwise its code and `localDir`.
(2) If `localDir` exists, no `Create` call is made, the world is as the first part
left it, and `localDir` is handed back.
(3) In case (1) with a failing `Create`, `GetFile` for the product directory key
returns that failure code and no path. -/
theorem C15_product_directory_creation :
    ∀ (σ : Type) (sys : Sys σ) (b : Build) (d : Defs) (aLocal : Bool) (w : σ)
      (log : List (Path × Nat × Nat)) (localDir : Path) (w1 : σ),
      nsAppFileLocationProvider.productPath sys b d aLocal w = (Except.ok localDir, w1) →
      (NS_SUCCEEDED (sys.Exists localDir w1).1 = true → (sys.Exists localDir w1).2 = false →
        nsAppFileLocationProvider.GetProductDirectory sys.recordCreate b d aLocal (w, log)
          = ((if NS_FAILED (sys.Create localDir DIRECTORY_TYPE 0o700 w1).1 then
                ((sys.Create localDir DIRECTORY_TYPE 0o700 w1).1, none)
              else ((sys.Create localDir DIRECTORY_TYPE 0o700 w1).1, some localDir)),
             ((sys.Create localDir DIRECTORY_TYPE 0o700 w1).2,
               log ++ [(localDir, DIRECTORY_TYPE, 0o700)])))
      ∧ (NS_SUCCEEDED (sys.Exists localDir w1).1 = true → (sys.Exists localDir w1).2 = true →
        nsAppFileLocationProvider.GetProductDirectory sys.recordCreate b d aLocal (w, log)
          = (((sys.Exists localDir w1).1, some localDir), (w1, log)))
      ∧ (aLocal = false →
        NS_SUCCEEDED (sys.Exists localDir w1).1 = true → (sys.Exists localDir w1).2 = false →
        NS_FAILED (sys.Create localDir DIRECTORY_TYPE 0o700 w1).1 = true →
        ∀ (self : nsAppFileLocationProvider),
          nsAppFileLocationProvider.GetFile sys.recordCreate b d
              (some d.NS_APP_APPLICATION_REGISTRY_DIR) self (w, log)
            = (((sys.Create localDir DIRECTORY_TYPE 0o700 w1).1, none), self,
                ((sys.Create localDir DIRECTORY_TYPE 0o700 w1).2,
                  log ++ [(localDir, DIRECTORY_TYPE, 0o700)]))) := by
  intro σ sys b d aLocal w log localDir w1 hp
  have hp2 := productPath_recordCreate sys b d aLocal w log
  rw [hp] at hp2
  simp only at hp2
  have h1 : NS_SUCCEEDED (sys.Exists localDir w1).1 = true → (sys.Exists localDir w1).2 = false →
      nsAppFileLocationProvider.GetProductDirectory sys.recordCreate b d aLocal (w, log)
        = ((if NS_FAILED (sys.Create localDir DIRECTORY_TYPE 0o700 w1).1 then
              ((sys.Create localDir DIRECTORY_TYPE 0o700 w1).1, none)
            else ((sys.Create localDir DIRECTORY_TYPE 0o700 w1).1, some localDir)),
           ((sys.Create localDir DIRECTORY_TYPE 0o700 w1).2,
             log ++ [(localDir, DIRECTORY_TYPE, 0o700)])) := by
    intro hx he
    rw [GetProductDirectory_eq, hp2]
    simp only [Sys.recordCreate, hx, he, Bool.not_false, Bool.and_self, if_true]
    split <;> rfl
  refine ⟨h1, ?_, ?_⟩
  · intro hx he
    rw [GetProductDirectory_eq, hp2]
    have hnf : NS_FAILED (sys.Exists localDir w1).1 = false := by
      simpa [NS_SUCCEEDED] using hx
    simp [Sys.recordCreate, hx, he, hnf]
  · intro hl hx he hf self
    subst hl
    have hg := h1 hx he
    simp only [hf, if_true] at hg
    simp [nsAppFileLocationProvider.GetFile, nsAppFileLocationProvider.branches, hg]

theorem C15_product_directory_creation_witness :
    nsAppFileLocationProvider.GetProductDirectory fsSys.recordCreate unixBuild mozillaDefs false
        (FS.empty, [])
      = ((NS_OK, some "/app/TorBrowser/Data/Browser"),
          ({ existing := ["/app/TorBrowser/Data/Browser"],
             creates := [("/app/TorBrowser/Data/Browser", 1, 448)] },
           [("/app/TorBrowser/Data/Browser", 1, 448)]))
    ∧ nsAppFileLocationProvider.GetProductDirectory fsSys.recordCreate unixBuild mozillaDefs false
        ({ existing := ["/app/TorBrowser/Data/Browser"], creates := [] }, [])
      = ((NS_OK, some "/app/TorBrowser/Data/Browser"),
          ({ existing := ["/app/TorBrowser/Data/Browser"], creates := [] }, [])) :=
  ⟨(C15_product_directory_creation FS fsSys unixBuild mozillaDefs false FS.empty []
      "/app/TorBrowser/Data/Browser" FS.empty rfl).1 (by decide) (by decide),
    (C15_product_directory_creation FS fsSys unixBuild mozillaDefs false
      { existing := ["/app/TorBrowser/Data/Browser"], creates := [] } []
      "/app/TorBrowser/Data/Browser"
      { existing := ["/app/TorBrowser/Data/Browser"], creates := [] } rfl).2.1
      (by decide) (by decide)⟩

/-- Two consecutive calls of `GetProductDirectory`, with every `Create` recorded:
if the directory is missing at the first call, is created successfully, is computed
again by the second call and exists then, the first call makes the one `Create`
call and the second makes none, and both hand back the directory. -/
theorem GetProductDirectory_twice {σ : Type} (sys : Sys σ) (b : Build) (d : Defs)
    (aLocal : Bool) (w w1 w3 : σ) (log : List (Path × Nat × Nat)) (localDir : Path)
    (hp : nsAppFileLocationProvider.productPath sys b d aLocal w = (Except.ok localDir, w1))
    (hx : NS_SUCCEEDED (sys.Exists localDir w1).1 = true)
    (he : (sys.Exists localDir w1).2 = false)
    (hc : NS_FAILED (sys.Create localDir DIRECTORY_TYPE 0o700 w1).1 = false)
    (hp2 : nsAppFileLocationProvider.productPath sys b d aLocal
        (sys.Create localDir DIRECTORY_TYPE 0o700 w1).2 = (Except.ok localDir, w3))
    (hx2 : NS_SUCCEEDED (sys.Exists localDir w3).1 = true)
    (he2 : (sys.Exists localDir w3).2 = true) :
    nsAppFileLocationProvider.GetProductDirectory sys.recordCreate b d aLocal (w, log)
        = (((sys.Create localDir DIRECTORY_TYPE 0o700 w1).1, some localDir),
            ((sys.Create localDir DIRECTORY_TYPE 0o700 w1).2,
              log ++ [(localDir, DIRECTORY_TYPE, 0o700)]))
      ∧ nsAppFileLocationProvider.GetProductDirectory sys.recordCreate b d aLocal
          ((sys.Create localDir DIRECTORY_TYPE 0o700 w1).2,
            log ++ [(localDir, DIRECTORY_TYPE, 0o700)])
        = (((sys.Exists localDir w3).1, some localDir),
            (w3, log ++ [(localDir, DIRECTORY_TYPE, 0o700)])) := by
  have hnf : NS_FAILED (sys.Exists localDir w3).1 = false := by
    simpa [NS_SUCCEEDED] using hx2
  have q1 := productPath_recordCreate sys b d aLocal w log
  rw [hp] at q1
  have q2 := productPath_recordCreate sys b d aLocal
    (sys.Create localDir DIRECTORY_TYPE 0o700 w1).2 (log ++ [(localDir, DIRECTORY_TYPE, 0o700)])
  rw [hp2] at q2
  constructor
  · rw [GetProductDirectory_eq, q1]
    simp [Sys.recordCreate, hx, he, hc]
  · rw [GetProductDirectory_eq, q2]
    simp [Sys.recordCreate, hx2, he2, hnf]

theorem productPath_answers (a : Answers) (b : Build) (d : Defs) (aLocal : Bool) (w w0 : FS) :
    nsAppFileLocationProvider.productPath a.sys b d aLocal w
      = ((nsAppFileLocationProvider.productPath a.sys b d aLocal w0).1, w) := by
  unfold nsAppFileLocationProvider.productPath
  simp only [Answers.sys]
  by_cases hs : NS_FAILED a.serviceRv = true
  · simp only [hs, dite_true]
  · simp only [hs, dite_false]
    cases hg : a.directoryGet d.XRE_EXECUTABLE_FILE with
    | error e => rfl
    | ok exeFile =>
      simp only
      cases hu : a.userDataDir exeFile with
      | error e => rfl
      | ok localDir0 =>
        simp only
        cases ha : (if b.TOR_BROWSER_DATA_OUTSIDE_APP_DIR = true then
            a.appendNative localDir0 "Browser"
          else a.appendRelative localDir0
            ("Data" ++ XPCOM_FILE_PATH_SEPARATOR b ++ "Browser")) with
        | error e => rfl
        | ok localDir1 => rfl

theorem GetProductDirectory_answers_create (a : Answers) (b : Build) (d : Defs)
    (aLocal : Bool) (w : FS) (p : Path)
    (hp : (nsAppFileLocationProvider.productPath a.sys b d aLocal w).1 = Except.ok p)
    (hmiss : p ∉ w.existing) (hc : NS_FAILED (a.createRv p) = false) :
    nsAppFileLocationProvider.GetProductDirectory a.sys b d aLocal w
      = ((a.createRv p, some p),
          { existing := p :: w.existing,
            creates := w.creates ++ [(p, DIRECTORY_TYPE, 0o700)] }) := by
  have h := productPath_answers a b d aLocal w w
  rw [hp] at h
  have hok : NS_SUCCEEDED NS_OK = true := by decide
  rw [GetProductDirectory_eq, h]
  simp [Answers.sys, hmiss, hc, hok]

theorem GetProductDirectory_answers_exists (a : Answers) (b : Build) (d : Defs)
    (aLocal : Bool) (w : FS) (p : Path)
    (hp : (nsAppFileLocationProvider.productPath a.sys b d aLocal w).1 = Except.ok p)
    (hex : p ∈ w.existing) :
    nsAppFileLocationProvider.GetProductDirectory a.sys b d aLocal w
      = ((NS_OK, some p), w) := by
  have h := productPath_answers a b d aLocal w w
  rw [hp] at h
  have hok : NS_SUCCEEDED NS_OK = true := by decide
  have hnf : NS_FAILED NS_OK = false := by decide
  rw [GetProductDirectory_eq, h]
  simp [Answers.sys, hex, hok, hnf]

/-- C16: two consecutive product-directory resolves.
(1) In every outside world, with every `Create` recorded: if the directory is
missing at the first call, its creation succeeds, the second call computes the same
directory and finds it, then both calls hand back the directory, the first makes
the one `Create` call (type `DIRECTORY_TYPE`, permissions `0700`) and the second
makes none.
(2) Over a file system (a file exists once it has been created) with answers that
do not depend on the world: if the product directory `p` is not in the file system
and its creation succeeds, the first `GetProductDirectory` hands back `p` and makes
the one `Create` call, and the second hands back `p` again and leaves the file
system with its record of `Create` calls as it was. -/
theorem C16_product_directory_twice :
    (∀ (σ : Type) (sys : Sys σ) (b : Build) (d : Defs) (aLocal : Bool) (w w1 w3 : σ)
        (log : List (Path × Nat × Nat)) (localDir : Path),
      nsAppFileLocationProvider.productPath sys b d aLocal w = (Except.ok localDir, w1) →
      NS_SUCCEEDED (sys.Exists localDir w1).1 = true →
      (sys.Exists localDir w1).2 = false →
      NS_FAILED (sys.Create localDir DIRECTORY_TYPE 0o700 w1).1 = false →
      nsAppFileLocationProvider.productPath sys b d aLocal
        (sys.Create localDir DIRECTORY_TYPE 0o700 w1).2 = (Except.ok localDir, w3) →
      NS_SUCCEEDED (sys.Exists localDir w3).1 = true →
      (sys.Exists localDir w3).2 = true →
      nsAppFileLocationProvider.GetProductDirectory sys.recordCreate b d aLocal (w, log)
          = (((sys.Create localDir DIRECTORY_TYPE 0o700 w1).1, some localDir),
              ((sys.Create localDir DIRECTORY_TYPE 0o700 w1).2,
                log ++ [(localDir, DIRECTORY_TYPE, 0o700)]))
        ∧ nsAppFileLocationProvider.GetProductDirectory sys.recordCreate b d aLocal
            ((sys.Create localDir DIRECTORY_TYPE 0o700 w1).2,
              log ++ [(localDir, DIRECTORY_TYPE, 0o700)])
          = (((sys.Exists localDir w3).1, some localDir),
              (w3, log ++ [(localDir, DIRECTORY_TYPE, 0o700)])))
    ∧ (∀ (a : Answers) (b : Build) (d : Defs) (aLocal : Bool) (w : FS) (p : Path),
      (nsAppFileLocationProvider.productPath a.sys b d aLocal w).1 = Except.ok p →
      p ∉ w.existing → NS_FAILED (a.createRv p) = false →
      nsAppFileLocationProvider.GetProductDirectory a.sys b d aLocal w
          = ((a.createRv p, some p),
              { existing := p :: w.existing,
                creates := w.creates ++ [(p, DIRECTORY_TYPE, 0o700)] })
        ∧ nsAppFileLocationProvider.GetProductDirectory a.sys b d aLocal
            { existing := p :: w.existing,
              creates := w.creates ++ [(p, DIRECTORY_TYPE, 0o700)] }
          = ((NS_OK, some p),
              { existing := p :: w.existing,
                creates := w.creates ++ [(p, DIRECTORY_TYPE, 0o700)] })) := by
  refine ⟨?_, ?_⟩
  · intro σ sys b d aLocal w w1 w3 log localDir hp hx he hc hp2 hx2 he2
    exact GetProductDirectory_twice sys b d aLocal w w1 w3 log localDir hp hx he hc hp2 hx2 he2
  · intro a b d aLocal w p hp hmiss hc
    refine ⟨GetProductDirectory_answers_create a b d aLocal w p hp hmiss hc, ?_⟩
    refine GetProductDirectory_answers_exists a b d aLocal _ p ?_ (by simp)
    rw [productPath_answers a b d aLocal _ w]
    exact hp

theorem C16_product_directory_twice_witness :
    (nsAppFileLocationProvider.GetProductDirectory torAnswers.sys unixBuild mozillaDefs false
        FS.empty
      = ((torAnswers.createRv "/app/TorBrowser/Data/Browser",
            some "/app/TorBrowser/Data/Browser"),
          { existing := "/app/TorBrowser/Data/Browser" :: FS.empty.existing,
            creates := FS.empty.creates
              ++ [("/app/TorBrowser/Data/Browser", DIRECTORY_TYPE, 0o700)] })
      ∧ nsAppFileLocationProvider.GetProductDirectory torAnswers.sys unixBuild mozillaDefs false
          { existing := "/app/TorBrowser/Data/Browser" :: FS.empty.existing,
            creates := FS.empty.creates
              ++ [("/app/TorBrowser/Data/Browser", DIRECTORY_TYPE, 0o700)] }
        = ((NS_OK, some "/app/TorBrowser/Data/Browser"),
            { existing := "/app/TorBrowser/Data/Browser" :: FS.empty.existing,
              creates := FS.empty.creates
                ++ [("/app/TorBrowser/Data/Browser", DIRECTORY_TYPE, 0o700)] }))
    ∧ (nsAppFileLocationProvider.GetProductDirectory fsSys.recordCreate unixBuild mozillaDefs
          true (FS.empty, [])).1
        = (NS_OK, some "/app/TorBrowser/Data/Browser/Caches") :=
  ⟨C16_product_directory_twice.2 torAnswers unixBuild mozillaDefs false FS.empty
      "/app/TorBrowser/Data/Browser" rfl (by decide) (by decide),
    congrArg Prod.fst
      (C16_product_directory_twice.1 FS fsSys unixBuild mozillaDefs true FS.empty FS.empty
        { existing := ["/app/TorBrowser/Data/Browser/Caches"],
          creates := [("/app/TorBrowser/Data/Browser/Caches", 1, 448)] }
        [] "/app/TorBrowser/Data/Browser/Caches" rfl (by decide) (by decide) (by decide)
        rfl (by decide) (by decide)).1⟩

/-! ## GetFile: result code and result -/

theorem okHasFile_failed (rv : Nsresult) (f : Option Path) (h : NS_FAILED rv = true) :
    okHasFile (rv, f) := by
  intro hs
  rw [NS_SUCCEEDED_of_failed rv h] at hs
  cases hs

theorem okHasFile_some (rv : Nsresult) (f : Path) : okHasFile (rv, some f) := fun _ => rfl

theorem okHasFile_out (x : XResult Path) : okHasFile x.out := by
  cases x with
  | ok f => exact okHasFile_some _ f
  | error e => exact okHasFile_failed _ _ e.failed

theorem okHasFile_thenAppend {S : Type} (append : Path → String → XResult Path)
    (name : String) (r : (Nsresult × Option Path) × S) (h : okHasFile r.1) :
    okHasFile (thenAppend append name r).1 := by
  unfold thenAppend
  split
  · split
    · split
      · exact okHasFile_some _ _
      · exact okHasFile_some _ _
    · exact h
  · exact h

theorem okHasFile_cloneBin {σ : Type} (sys : Sys σ) (dir : Path)
    (self : nsAppFileLocationProvider) (w : σ) :
    okHasFile (nsAppFileLocationProvider.cloneBin sys dir self w).1 := by
  rcases cloneBin_cases sys dir self w with h | h
  · intro hs; rw [NS_SUCCEEDED_of_failed _ h.1] at hs; cases hs
  · rw [h]; exact okHasFile_some _ _

theorem okHasFile_CloneMozBinDirectory {σ : Type} (sys : Sys σ) (d : Defs)
    (self : nsAppFileLocationProvider) (w : σ) :
    okHasFile (nsAppFileLocationProvider.CloneMozBinDirectory sys d self w).1 := by
  rcases CloneMozBinDirectory_cases sys d self w with h | ⟨base, h⟩
  · intro hs; rw [NS_SUCCEEDED_of_failed _ h.1] at hs; cases hs
  · rw [h]; exact okHasFile_some _ _

theorem okHasFile_GetProductDirectory {σ : Type} (sys : Sys σ) (b : Build) (d : Defs)
    (aLocal : Bool) (w : σ) :
    okHasFile (nsAppFileLocationProvider.GetProductDirectory sys b d aLocal w).1 := by
  rw [GetProductDirectory_eq]
  cases hp : nsAppFileLocationProvider.productPath sys b d aLocal w with
  | mk x w1 =>
    cases x with
    | error e => exact okHasFile_failed _ _ e.failed
    | ok localDir =>
      simp only
      generalize (if (NS_SUCCEEDED (sys.Exists localDir w1).1
          && !(sys.Exists localDir w1).2) = true then
            sys.Create localDir DIRECTORY_TYPE 0o700 w1
          else ((sys.Exists localDir w1).1, w1)) = cr
      by_cases hf : NS_FAILED cr.1 = true
      · rw [if_pos hf]; exact okHasFile_failed _ _ hf
      · rw [if_neg hf]; exact okHasFile_some _ _

theorem okHasFile_GetDefaultUserProfileRoot {σ : Type} (sys : Sys σ) (b : Build) (d : Defs)
    (aLocal : Bool) (w : σ) :
    okHasFile (nsAppFileLocationProvider.GetDefaultUserProfileRoot sys b d aLocal w).1 := by
  unfold nsAppFileLocationProvider.GetDefaultUserProfileRoot
  simp only
  split
  · rename_i hf
    exact okHasFile_failed _ _ hf
  · exact okHasFile_GetProductDirectory sys b d aLocal w

theorem okHasFile_macPluginFolder {σ : Type} (sys : Sys σ) (domain : FSDomain) (w : σ) :
    okHasFile (macPluginFolder sys domain w).1 := by
  unfold macPluginFolder
  simp only
  split
  · exact okHasFile_out _
  · exact okHasFile_failed _ _ (by decide)

theorem ite_branchOk {S : Type} (c : Prop) [Decidable c]
    (a b : ((Nsresult × Option Path) × Option Path) × S)
    (ha : branchOk a) (hb : branchOk b) : branchOk (if c then a else b) := by
  split <;> assumption

theorem branchOk_of {S : Type} (r : Nsresult × Option Path) (s : S) (h : okHasFile r) :
    branchOk (((r, none), s) : ((Nsresult × Option Path) × Option Path) × S) :=
  fun hs => Or.inl (h hs)

/-- After the comparisons of `GetFile`, a success code comes with a file. -/
theorem branches_ok {σ : Type} (sys : Sys σ) (b : Build) (d : Defs) (aProp : String)
    (self : nsAppFileLocationProvider) (w : σ) :
    branchOk (nsAppFileLocationProvider.branches sys b d aProp self w) := by
  unfold nsAppFileLocationProvider.branches
  repeat' with_reducible apply ite_branchOk
  all_goals beta_reduce
  all_goals try with_reducible apply branchOk_of
  all_goals try with_reducible apply okHasFile_thenAppend
  all_goals try with_reducible apply okHasFile_thenAppend
  all_goals try with_reducible apply okHasFile_GetProductDirectory
  all_goals try with_reducible apply okHasFile_GetDefaultUserProfileRoot
  all_goals try with_reducible apply okHasFile_CloneMozBinDirectory
  all_goals try with_reducible apply okHasFile_macPluginFolder
  all_goals try with_reducible apply okHasFile_out
  all_goals try with_reducible exact okHasFile_failed _ _ (by decide)
  · split
    · split
      · exact branchOk_of _ _ (okHasFile_out _)
      · exact branchOk_of _ _ (okHasFile_failed _ _ (by decide))
    · exact branchOk_of _ _ (okHasFile_failed _ _ (by decide))
  · dsimp only
    split
    · split
      · exact fun _ => Or.inr rfl
      · rename_i e _
        intro hs
        rw [NS_SUCCEEDED_failure e] at hs
        cases hs
    · rename_i e _
      intro hs
      rw [NS_SUCCEEDED_failure e] at hs
      cases hs

theorem ite_null {S : Type} (c : Prop) [Decidable c]
    (a b : ((Nsresult × Option Path) × Option Path) × S)
    (ha : c → a.1.2 = none) (hb : b.1.2 = none) : (if c then a else b).1.2 = none := by
  split
  · rename_i h; exact ha h
  · exact hb

/-- Only the branch of `NS_APP_USER_SEARCH_DIR` writes `*aResult` itself. -/
theorem branches_result_null {σ : Type} (sys : Sys σ) (b : Build) (d : Defs) (aProp : String)
    (self : nsAppFileLocationProvider) (w : σ) (hne : aProp ≠ d.NS_APP_USER_SEARCH_DIR) :
    (nsAppFileLocationProvider.branches sys b d aProp self w).1.2 = none := by
  unfold nsAppFileLocationProvider.branches
  repeat' with_reducible apply ite_null
  all_goals first
    | (intro _; rfl)
    | rfl
    | (intro h; exact absurd h hne)
    | (intro _; split <;> first | rfl | (split <;> rfl))

/-- The end of `GetFile` (lines 223-228): a success code comes with a file, and,
unless the key is `NS_APP_USER_SEARCH_DIR`, a failure code comes without one. -/
theorem GetFile_handshake {σ : Type} (sys : Sys σ) (b : Build) (d : Defs)
    (aProp : Option String) (self : nsAppFileLocationProvider) (w : σ) :
    (NS_SUCCEEDED (nsAppFileLocationProvider.GetFile sys b d aProp self w).1.1 = true →
        (nsAppFileLocationProvider.GetFile sys b d aProp self w).1.2.isSome = true)
      ∧ (aProp ≠ some d.NS_APP_USER_SEARCH_DIR →
          NS_FAILED (nsAppFileLocationProvider.GetFile sys b d aProp self w).1.1 = true →
          (nsAppFileLocationProvider.GetFile sys b d aProp self w).1.2 = none) := by
  cases aProp with
  | none =>
    constructor
    · intro h
      have h2 : NS_SUCCEEDED NS_ERROR_INVALID_ARG = false := by decide
      exact absurd (h2.symm.trans h) (by decide)
    · intro _ _; rfl
  | some k =>
    have hok := branches_ok sys b d k self w
    simp only [nsAppFileLocationProvider.GetFile]
    constructor
    · intro hs
      by_cases hc : ((nsAppFileLocationProvider.branches sys b d k self w).1.1.2.isSome
          && NS_SUCCEEDED (nsAppFileLocationProvider.branches sys b d k self w).1.1.1) = true
      · rw [if_pos hc] at hs ⊢
        simp only [Bool.and_eq_true] at hc
        exact hc.1
      · rw [if_neg hc] at hs ⊢
        simp only at hs ⊢
        rcases hok hs with h | h
        · exact absurd (by simp [h, hs]) hc
        · exact h
    · intro hne hf
      have hk : k ≠ d.NS_APP_USER_SEARCH_DIR := fun h => hne (by rw [h])
      have hnull := branches_result_null sys b d k self w hk
      by_cases hc : ((nsAppFileLocationProvider.branches sys b d k self w).1.1.2.isSome
          && NS_SUCCEEDED (nsAppFileLocationProvider.branches sys b d k self w).1.1.1) = true
      · rw [if_pos hc] at hf
        have h2 : NS_FAILED NS_OK = false := by decide
        exact absurd (h2.symm.trans hf) (by decide)
      · rw [if_neg hc]
        exact hnull

/-- C17 (evaluation at the failing input): with the profile directory `/profile`
and a failing `AppendNative("searchplugins")`, `GetFile` for
`NS_APP_USER_SEARCH_DIR` returns the failure code `NS_ERROR_FAILURE` and hands back
the path `/profile` all the same. For every other key, and for a null key, the
result code and the result agree: a success code comes with a path and a failure
code with none; for `NS_APP_USER_SEARCH_DIR` itself a success code comes with a
path. -/
theorem C17_failure_code_with_path :
    (nsAppFileLocationProvider.GetFile demoSys unixBuild mozillaDefs
        (some mozillaDefs.NS_APP_USER_SEARCH_DIR) nsAppFileLocationProvider.new none).1
      = (NS_ERROR_FAILURE, some "/profile")
    ∧ NS_FAILED NS_ERROR_FAILURE = true
    ∧ (demoSys.NS_GetSpecialDirectory mozillaDefs.NS_APP_USER_PROFILE_50_DIR none).1
        = Except.ok "/profile"
    ∧ demoSys.AppendNative "/profile" SEARCH_DIR_NAME = Except.error Failure.generic
    ∧ (∀ (σ : Type) (sys : Sys σ) (b : Build) (d : Defs) (aProp : Option String)
        (self : nsAppFileLocationProvider) (w : σ),
        (NS_SUCCEEDED (nsAppFileLocationProvider.GetFile sys b d aProp self w).1.1 = true →
          (nsAppFileLocationProvider.GetFile sys b d aProp self w).1.2.isSome = true)
        ∧ (aProp ≠ some d.NS_APP_USER_SEARCH_DIR →
            NS_FAILED (nsAppFileLocationProvider.GetFile sys b d aProp self w).1.1 = true →
            (nsAppFileLocationProvider.GetFile sys b d aProp self w).1.2 = none)) := by
  refine ⟨by decide, by decide, rfl, rfl, ?_⟩
  intro σ sys b d aProp self w
  exact GetFile_handshake sys b d aProp self w

/-! ## Monotone consumption -/

theorem scanToSeparator_suffix (sep : Char) (p : CPtr) : scanToSeparator sep p <:+ p := by
  induction p with
  | nil => exact List.suffix_refl _
  | cons c cs ih =>
    unfold scanToSeparator
    split
    · exact List.IsSuffix.trans ih (List.suffix_cons c cs)
    · exact List.suffix_refl _

theorem skipOneSeparator_suffix (sep : Char) (p : CPtr) : skipOneSeparator sep p <:+ p := by
  unfold skipOneSeparator CPtr.next
  split
  · exact List.tail_suffix p
  · exact List.suffix_refl _

theorem pathStep_suffix {σ : Type} (env : Env σ) (sep : Char) (w : σ) (p : CPtr)
    (r : CPtr × Option Path)
    (h : nsPathsDirectoryEnumerator.pathStep env sep w p = some r) : r.1 <:+ p := by
  have h1 : skipOneSeparator sep (scanToSeparator sep p.next) <:+ p :=
    (skipOneSeparator_suffix sep _).trans
      ((scanToSeparator_suffix sep _).trans (List.tail_suffix p))
  unfold nsPathsDirectoryEnumerator.pathStep at h
  simp only at h
  split at h
  · cases h
  · split at h
    · split at h <;> (cases h; exact h1)
    · cases h; exact h1

theorem pathLoop_suffix {σ : Type} (env : Env σ) (sep : Char) (w : σ) :
    ∀ (n : Nat) (p : CPtr) (m : Option Path) (r : CPtr × Option Path),
      nsPathsDirectoryEnumerator.pathLoop env sep w n p m = some r → r.1 <:+ p := by
  intro n
  induction n with
  | zero =>
    intro p m r h
    cases m with
    | some f => rw [pathLoop_some] at h; cases h; exact List.suffix_refl _
    | none =>
      simp only [nsPathsDirectoryEnumerator.pathLoop, Option.some.injEq] at h
      subst h
      exact List.suffix_refl _
  | succ n ih =>
    intro p m r h
    cases m with
    | some f => rw [pathLoop_some] at h; cases h; exact List.suffix_refl _
    | none =>
      by_cases hd : p.deref = NUL
      · rw [pathLoop_at_end env sep w _ p none hd] at h
        cases h; exact List.suffix_refl _
      · simp only [nsPathsDirectoryEnumerator.pathLoop, hd, if_false] at h
        cases hs : nsPathsDirectoryEnumerator.pathStep env sep w p with
        | none => rw [hs] at h; cases h
        | some r1 =>
          rw [hs] at h
          exact (ih r1.1 r1.2 r h).trans (pathStep_suffix env sep w p r1 hs)

theorem keyLoop_suffix {σ : Type} (env : Env σ) (keys : List String) :
    ∀ (m : Option Path) (w : σ),
      (nsAppDirectoryEnumerator.keyLoop env keys m w).1 <:+ keys := by
  induction keys with
  | nil => intro m w; rw [keyLoop_nil]
  | cons k keys ih =>
    intro m w
    cases m with
    | some f => rw [keyLoop_some]
    | none =>
      simp only [nsAppDirectoryEnumerator.keyLoop]
      split
      · split
        · exact List.suffix_cons k keys
        · exact (ih _ _).trans (List.suffix_cons k keys)
      · exact (ih _ _).trans (List.suffix_cons k keys)

theorem keys_hasMore_monotone {σ : Type} (env : Env σ) (e : nsAppDirectoryEnumerator)
    (w : σ) :
    (nsAppDirectoryEnumerator.HasMoreElements env e w).2.1.mCurrentKey <:+ e.mCurrentKey :=
  keyLoop_suffix env e.mCurrentKey e.mNext w

theorem keys_getNext_monotone {σ : Type} (env : Env σ) (e : nsAppDirectoryEnumerator)
    (w : σ) :
    (nsAppDirectoryEnumerator.GetNext env e w).2.1.mCurrentKey <:+ e.mCurrentKey := by
  unfold nsAppDirectoryEnumerator.GetNext
  simp only
  split <;> exact keys_hasMore_monotone env e w

theorem paths_hasMore_monotone {σ : Type} (env : Env σ) (b : Build)
    (e : nsPathsDirectoryEnumerator) (w : σ) (h : Bool × nsPathsDirectoryEnumerator × σ)
    (hh : nsPathsDirectoryEnumerator.HasMoreElements env b e w = some h) :
    h.2.1.mCurrentKey <:+ e.mCurrentKey ∧ CPtr.notBefore h.2.1.mEndPath e.mEndPath := by
  obtain ⟨⟨keys, m⟩, ep⟩ := e
  cases m with
  | some f =>
    rw [paths_hasMore_buffered env b _ w f rfl] at hh
    cases hh
    refine ⟨List.suffix_refl _, ?_⟩
    cases ep with
    | none => trivial
    | some p => exact List.suffix_refl p
  | none =>
    cases ep with
    | none =>
      rw [paths_hasMore_null] at hh
      cases hh
      exact ⟨keyLoop_suffix env keys none w, trivial⟩
    | some p =>
      rw [paths_hasMore_scan] at hh
      cases hl : nsPathsDirectoryEnumerator.pathLoop env (PATH_SEPARATOR b) w p.length p none with
      | none => rw [hl] at hh; cases hh
      | some r =>
        have hsuf := pathLoop_suffix env (PATH_SEPARATOR b) w p.length p none r hl
        rw [hl] at hh
        obtain ⟨p1, m1⟩ := r
        cases m1 with
        | some f =>
          simp only [Option.some.injEq] at hh
          subst hh
          exact ⟨List.suffix_refl _, hsuf⟩
        | none =>
          simp only [Option.some.injEq] at hh
          subst hh
          exact ⟨keyLoop_suffix env keys none w, hsuf⟩

theorem paths_getNext_monotone {σ : Type} (env : Env σ) (b : Build)
    (e : nsPathsDirectoryEnumerator) (w : σ)
    (g : (Nsresult × Option Path) × nsPathsDirectoryEnumerator × σ)
    (hg : nsPathsDirectoryEnumerator.GetNext env b e w = some g) :
    g.2.1.mCurrentKey <:+ e.mCurrentKey ∧ CPtr.notBefore g.2.1.mEndPath e.mEndPath := by
  unfold nsPathsDirectoryEnumerator.GetNext at hg
  cases hh : nsPathsDirectoryEnumerator.HasMoreElements env b e w with
  | none => rw [hh] at hg; cases hg
  | some h =>
    rw [hh] at hg
    simp only at hg
    have hm := paths_hasMore_monotone env b e w h hh
    cases hb : h.1 with
    | false =>
      simp only [hb, Bool.not_false, if_true, Option.some.injEq] at hg
      subst hg
      exact hm
    | true =>
      simp only [hb, Bool.not_true, Bool.false_eq_true, if_false, Option.some.injEq] at hg
      subst hg
      exact hm

/-- C18: consumption is monotone on both enumerators.
(1), (2) After every `HasMoreElements` or `GetNext` the remaining keys are a final
segment of the previous remaining keys, and `mEndPath` is not before its previous
value.
(3) An iteration of the tokenizing loop moves `mEndPath` forward by at least one
character, and (4) running the loop for more iterations than the distance of
`mEndPath` to the terminator changes nothing, so the loop ends.
(5) Once `mEndPath` is null or at the terminator, `HasMoreElements` and `GetNext`
leave it there and do what the inherited key scan does.
(6) Moving forward means a scan position that does not decrease. -/
theorem C18_monotone_consumption :
    (∀ (σ : Type) (env : Env σ) (e : nsAppDirectoryEnumerator) (w : σ),
      (nsAppDirectoryEnumerator.HasMoreElements env e w).2.1.mCurrentKey <:+ e.mCurrentKey
        ∧ (nsAppDirectoryEnumerator.GetNext env e w).2.1.mCurrentKey <:+ e.mCurrentKey)
    ∧ (∀ (σ : Type) (env : Env σ) (b : Build) (e : nsPathsDirectoryEnumerator) (w : σ),
      (∀ h, nsPathsDirectoryEnumerator.HasMoreElements env b e w = some h →
        h.2.1.mCurrentKey <:+ e.mCurrentKey ∧ CPtr.notBefore h.2.1.mEndPath e.mEndPath)
      ∧ (∀ g, nsPathsDirectoryEnumerator.GetNext env b e w = some g →
        g.2.1.mCurrentKey <:+ e.mCurrentKey ∧ CPtr.notBefore g.2.1.mEndPath e.mEndPath))
    ∧ (∀ (σ : Type) (env : Env σ) (sep : Char) (w : σ) (p : CPtr) (r : CPtr × Option Path),
      p.deref ≠ NUL → nsPathsDirectoryEnumerator.pathStep env sep w p = some r →
      r.1 <:+ p ∧ r.1.length < p.length)
    ∧ (∀ (σ : Type) (env : Env σ) (sep : Char) (w : σ) (p : CPtr) (m : Option Path) (k : Nat),
      nsPathsDirectoryEnumerator.pathLoop env sep w (p.length + k) p m
        = nsPathsDirectoryEnumerator.pathLoop env sep w p.length p m)
    ∧ (∀ (σ : Type) (env : Env σ) (b : Build) (e : nsPathsDirectoryEnumerator) (w : σ),
      e.pathListLeft = false →
      nsPathsDirectoryEnumerator.HasMoreElements env b e w
          = some ((nsAppDirectoryEnumerator.HasMoreElements env
                    e.tonsAppDirectoryEnumerator w).1,
              { tonsAppDirectoryEnumerator :=
                  (nsAppDirectoryEnumerator.HasMoreElements env
                    e.tonsAppDirectoryEnumerator w).2.1,
                mEndPath := e.mEndPath },
              (nsAppDirectoryEnumerator.HasMoreElements env
                e.tonsAppDirectoryEnumerator w).2.2)
        ∧ nsPathsDirectoryEnumerator.GetNext env b e w
          = some ((nsAppDirectoryEnumerator.GetNext env e.tonsAppDirectoryEnumerator w).1,
              { tonsAppDirectoryEnumerator :=
                  (nsAppDirectoryEnumerator.GetNext env e.tonsAppDirectoryEnumerator w).2.1,
                mEndPath := e.mEndPath },
              (nsAppDirectoryEnumerator.GetNext env e.tonsAppDirectoryEnumerator w).2.2))
    ∧ (∀ (S p q : CPtr), q <:+ p → p <:+ S →
      scanOffset S p ≤ scanOffset S q ∧ scanOffset S q ≤ S.length) := by
  refine ⟨?_, ?_, ?_, ?_, ?_, ?_⟩
  · intro σ env e w
    exact ⟨keys_hasMore_monotone env e w, keys_getNext_monotone env e w⟩
  · intro σ env b e w
    exact ⟨fun h hh => paths_hasMore_monotone env b e w h hh,
      fun g hg => paths_getNext_monotone env b e w g hg⟩
  · intro σ env sep w p r hd hs
    exact ⟨pathStep_suffix env sep w p r hs, pathStep_length_lt env sep w p r hd hs⟩
  · intro σ env sep w p m k
    exact pathLoop_fuel env sep w p.length p m k (Nat.le_refl _)
  · intro σ env b e w hl
    have hl2 := (pathListLeft_false_iff e).mp hl
    exact ⟨paths_hasMore_usedUp env b e.tonsAppDirectoryEnumerator e.mEndPath w hl2,
      paths_getNext_usedUp env b e.tonsAppDirectoryEnumerator e.mEndPath w hl2⟩
  · intro S p q hq hp
    have h1 := hq.length_le
    have h2 := hp.length_le
    unfold scanOffset
    omega

theorem C18_monotone_consumption_witness :
    nsPathsDirectoryEnumerator.HasMoreElements scenarioA unixBuild
        (nsPathsDirectoryEnumerator.new (some ['/', 'x', ':', '/', 'P']) ["K1"]) ()
      = some (true, { mCurrentKey := ["K1"], mNext := some "/P", mEndPath := some [] }, ())
    ∧ (["K1"] <:+ ["K1"]
      ∧ CPtr.notBefore (some []) (some ['/', 'x', ':', '/', 'P']))
    ∧ (([] : CPtr) <:+ ['/', 'P'] ∧ ([] : CPtr).length < ['/', 'P'].length) :=
  ⟨by decide,
    (C18_monotone_consumption.2.1 Unit scenarioA unixBuild
      (nsPathsDirectoryEnumerator.new (some ['/', 'x', ':', '/', 'P']) ["K1"]) ()).1
      (true, { mCurrentKey := ["K1"], mNext := some "/P", mEndPath := some [] }, ())
      (by decide),
    C18_monotone_consumption.2.2.1 Unit scenarioA ':' () ['/', 'P'] ([], some "/P")
      (by decide) (by decide)⟩

/-! ## Zero-length spans -/

/-- C19 (as stated, refuted): the path list is the single separator `:`, and the
file system reports every file as existing. The loop takes the zero-length span
between the separator and the terminator, builds a file from it and checks its
existence; `HasMoreElements` buffers the file with the empty path and `GetNext`
hands it out. -/
theorem C19_empty_span_counterexample :
    Substring (skipSeparators ':' [':']) (scanToSeparator ':' (CPtr.next [':'])) = some []
    ∧ lateEnv.NS_NewNativeLocalFile [] = some ""
    ∧ nsPathsDirectoryEnumerator.HasMoreElements lateEnv unixBuild
        (nsPathsDirectoryEnumerator.new (some [':']) []) ()
      = some (true, { mCurrentKey := [], mNext := some "", mEndPath := some [] }, ())
    ∧ nsPathsDirectoryEnumerator.GetNext lateEnv unixBuild
        (nsPathsDirectoryEnumerator.new (some [':']) []) ()
      = some ((NS_OK, some ""), { mCurrentKey := [], mNext := none, mEndPath := some [] }, ()) := by
  refine ⟨by decide, by decide, by decide, by decide⟩

/-- C19 (amended): an iteration of the loop whose candidate span has length zero
hands the empty span to `NS_NewNativeLocalFile` like any other span, and assigns to
`mNext` the file that comes back when there is one and `Exists` succeeds on it and
reports it as existing; otherwise the iteration produces nothing, reports no error,
and scanning goes on behind the span. A separator that stands right before the
terminator gives such a span. -/
theorem C19_empty_span_goes_to_constructor :
    (∀ (σ : Type) (env : Env σ) (sep : Char) (w : σ) (p : CPtr),
      Substring (skipSeparators sep p) (scanToSeparator sep p.next) = some [] →
      nsPathsDirectoryEnumerator.pathStep env sep w p
          = some (skipOneSeparator sep (scanToSeparator sep p.next),
              (env.NS_NewNativeLocalFile []).filter (fun f => env.existsOk f w))
        ∧ ((env.NS_NewNativeLocalFile []).filter (fun f => env.existsOk f w) = none →
          nsPathsDirectoryEnumerator.pathStep env sep w p
            = some (skipOneSeparator sep (scanToSeparator sep p.next), none)))
    ∧ (∀ (sep : Char),
      Substring (skipSeparators sep [sep]) (scanToSeparator sep (CPtr.next [sep])) = some []) := by
  refine ⟨?_, ?_⟩
  · intro σ env sep w p hspan
    have h1 : nsPathsDirectoryEnumerator.pathStep env sep w p
        = some (skipOneSeparator sep (scanToSeparator sep p.next),
            (env.NS_NewNativeLocalFile []).filter (fun f => env.existsOk f w)) := by
      unfold nsPathsDirectoryEnumerator.pathStep
      simp only [hspan]
      cases hf : env.NS_NewNativeLocalFile [] with
      | none => rfl
      | some f =>
        cases hx : env.existsOk f w <;> simp [Option.filter, hx]
    refine ⟨h1, ?_⟩
    intro hnone
    rw [h1, hnone]
  · intro sep
    simp [skipSeparators, scanToSeparator, CPtr.next, Substring]

theorem C19_empty_span_goes_to_constructor_witness :
    nsPathsDirectoryEnumerator.pathStep scenarioA ':' () [':']
      = some (skipOneSeparator ':' (scanToSeparator ':' (CPtr.next [':'])), none) :=
  ((C19_empty_span_goes_to_constructor.1 Unit scenarioA ':' () [':'] (by decide)).2
    (by decide))

/-! ## The path list of a request -/

theorem GetFiles_plugins_null {σ : Type} (sys : Sys σ) (b : Build) (d : Defs) (st : Statics)
    (w : σ) (hc : b.MOZ_WIDGET_COCOA = false)
    (h1 : d.NS_APP_PLUGINS_DIR_LIST ≠ d.NS_APP_SEARCH_DIR_LIST)
    (h2 : d.NS_APP_PLUGINS_DIR_LIST ≠ d.NS_APP_DISTRIBUTION_SEARCH_DIR_LIST)
    (hslot : st.pluginKeys0 = none) :
    nsAppFileLocationProvider.GetFiles sys b d d.NS_APP_PLUGINS_DIR_LIST st w
      = ((NS_OK, some (Enumerator.paths (nsPathsDirectoryEnumerator.new
            (some (((sys.PR_GetEnv "MOZ_PLUGIN_PATH" w).map (fun a => sys.charsAt a w)).getD []))
            ([NS_USER_PLUGINS_DIR, d.NS_APP_PLUGINS_DIR]
              ++ (if b.XP_UNIX then [NS_SYSTEM_PLUGINS_DIR] else []))))),
          { st with
            pluginKeys0 :=
              some (((sys.PR_GetEnv "MOZ_PLUGIN_PATH" w).map KeyPtr.env).getD KeyPtr.nullstr) }) := by
  have hs : pathListSlot sys "MOZ_PLUGIN_PATH" st.pluginKeys0 w
      = ((sys.PR_GetEnv "MOZ_PLUGIN_PATH" w).map KeyPtr.env).getD KeyPtr.nullstr := by
    rw [hslot]
    unfold pathListSlot
    cases sys.PR_GetEnv "MOZ_PLUGIN_PATH" w <;> rfl
  have hch : (((sys.PR_GetEnv "MOZ_PLUGIN_PATH" w).map KeyPtr.env).getD KeyPtr.nullstr).chars sys w
      = ((sys.PR_GetEnv "MOZ_PLUGIN_PATH" w).map (fun a => sys.charsAt a w)).getD [] := by
    cases sys.PR_GetEnv "MOZ_PLUGIN_PATH" w <;> rfl
  simp only [nsAppFileLocationProvider.GetFiles, if_true, hc, h1, h2, if_false,
    Bool.false_eq_true, hs, hch]

theorem GetFiles_plugins_kept {σ : Type} (sys : Sys σ) (b : Build) (d : Defs) (st : Statics)
    (w : σ) (p : KeyPtr) (hc : b.MOZ_WIDGET_COCOA = false)
    (h1 : d.NS_APP_PLUGINS_DIR_LIST ≠ d.NS_APP_SEARCH_DIR_LIST)
    (h2 : d.NS_APP_PLUGINS_DIR_LIST ≠ d.NS_APP_DISTRIBUTION_SEARCH_DIR_LIST)
    (hslot : st.pluginKeys0 = some p) :
    nsAppFileLocationProvider.GetFiles sys b d d.NS_APP_PLUGINS_DIR_LIST st w
      = ((NS_OK, some (Enumerator.paths (nsPathsDirectoryEnumerator.new (some (p.chars sys w))
            ([NS_USER_PLUGINS_DIR, d.NS_APP_PLUGINS_DIR]
              ++ (if b.XP_UNIX then [NS_SYSTEM_PLUGINS_DIR] else []))))), st) := by
  have hs : pathListSlot sys "MOZ_PLUGIN_PATH" st.pluginKeys0 w = p := by
    rw [hslot]; rfl
  simp only [nsAppFileLocationProvider.GetFiles, if_true, hc, h1, h2, if_false,
    Bool.false_eq_true, hs]
  rw [← hslot]

theorem GetFiles_search_null {σ : Type} (sys : Sys σ) (b : Build) (d : Defs) (st : Statics)
    (w : σ) (h1 : d.NS_APP_SEARCH_DIR_LIST ≠ d.NS_APP_PLUGINS_DIR_LIST)
    (h2 : d.NS_APP_SEARCH_DIR_LIST ≠ d.NS_APP_DISTRIBUTION_SEARCH_DIR_LIST)
    (hslot : st.searchKeys0 = none) :
    nsAppFileLocationProvider.GetFiles sys b d d.NS_APP_SEARCH_DIR_LIST st w
      = ((NS_OK, some (Enumerator.paths (nsPathsDirectoryEnumerator.new
            (some (((sys.PR_GetEnv "MOZ_SEARCH_ENGINE_PATH" w).map
              (fun a => sys.charsAt a w)).getD []))
            [d.NS_APP_USER_SEARCH_DIR]))),
          { st with
            searchKeys0 :=
              some (((sys.PR_GetEnv "MOZ_SEARCH_ENGINE_PATH" w).map KeyPtr.env).getD
                KeyPtr.nullstr) }) := by
  have hs : pathListSlot sys "MOZ_SEARCH_ENGINE_PATH" st.searchKeys0 w
      = ((sys.PR_GetEnv "MOZ_SEARCH_ENGINE_PATH" w).map KeyPtr.env).getD KeyPtr.nullstr := by
    rw [hslot]
    unfold pathListSlot
    cases sys.PR_GetEnv "MOZ_SEARCH_ENGINE_PATH" w <;> rfl
  have hch :
      (((sys.PR_GetEnv "MOZ_SEARCH_ENGINE_PATH" w).map KeyPtr.env).getD KeyPtr.nullstr).chars sys w
      = ((sys.PR_GetEnv "MOZ_SEARCH_ENGINE_PATH" w).map (fun a => sys.charsAt a w)).getD [] := by
    cases sys.PR_GetEnv "MOZ_SEARCH_ENGINE_PATH" w <;> rfl
  simp only [nsAppFileLocationProvider.GetFiles, if_true, h1, h2, if_false, hs, hch]

theorem GetFiles_search_kept {σ : Type} (sys : Sys σ) (b : Build) (d : Defs) (st : Statics)
    (w : σ) (p : KeyPtr) (h1 : d.NS_APP_SEARCH_DIR_LIST ≠ d.NS_APP_PLUGINS_DIR_LIST)
    (h2 : d.NS_APP_SEARCH_DIR_LIST ≠ d.NS_APP_DISTRIBUTION_SEARCH_DIR_LIST)
    (hslot : st.searchKeys0 = some p) :
    nsAppFileLocationProvider.GetFiles sys b d d.NS_APP_SEARCH_DIR_LIST st w
      = ((NS_OK, some (Enumerator.paths (nsPathsDirectoryEnumerator.new (some (p.chars sys w))
            [d.NS_APP_USER_SEARCH_DIR]))), st) := by
  have hs : pathListSlot sys "MOZ_SEARCH_ENGINE_PATH" st.searchKeys0 w = p := by
    rw [hslot]; rfl
  simp only [nsAppFileLocationProvider.GetFiles, if_true, h1, h2, if_false, hs]
  rw [← hslot]

/-- C20 (as stated, refuted): the plug-in list is requested twice, first with
`MOZ_PLUGIN_PATH` set to `/o`, then with the variable set to `/n` in newly allocated
storage (the string `/o` still stands where it was). At the second request the
variable has the value `/n`, but the request builds its enumerator over `/o`, which
it reaches through the pointer the first request left in the static array, not over
the value the variable has at the time of the call. -/
theorem C20_changed_environment_counterexample :
    (envSys.PR_GetEnv "MOZ_PLUGIN_PATH" envReplaced).map (fun a => envSys.charsAt a envReplaced)
      = some ['/', 'n']
    ∧ (nsAppFileLocationProvider.GetFiles envSys unixBuild mozillaDefs
        mozillaDefs.NS_APP_PLUGINS_DIR_LIST
        (nsAppFileLocationProvider.GetFiles envSys unixBuild mozillaDefs
          mozillaDefs.NS_APP_PLUGINS_DIR_LIST Statics.initial envSet).2
        envReplaced).1
      = (NS_OK, some (Enumerator.paths (nsPathsDirectoryEnumerator.new (some ['/', 'o'])
          [NS_USER_PLUGINS_DIR, mozillaDefs.NS_APP_PLUGINS_DIR, NS_SYSTEM_PLUGINS_DIR])))
    ∧ (nsAppFileLocationProvider.GetFiles envSys unixBuild mozillaDefs
        mozillaDefs.NS_APP_PLUGINS_DIR_LIST
        (nsAppFileLocationProvider.GetFiles envSys unixBuild mozillaDefs
          mozillaDefs.NS_APP_PLUGINS_DIR_LIST Statics.initial envSet).2
        envReplaced).1
      ≠ (NS_OK, some (Enumerator.paths (nsPathsDirectoryEnumerator.new (some ['/', 'n'])
          [NS_USER_PLUGINS_DIR, mozillaDefs.NS_APP_PLUGINS_DIR, NS_SYSTEM_PLUGINS_DIR]))) := by
  refine ⟨by decide, by decide, by decide⟩

/-- C20 (amended): for the plug-in list (non-Cocoa builds) and the search list,
(1), (4) a `GetFiles` call made while `keys[0]` of the request's static array is
null calls `PR_GetEnv` and builds its enumerator over the value the environment
variable has at that call, or over the empty string if it is unset, and leaves in
`keys[0]` the pointer `PR_GetEnv` returned, or the address of `nullstr` if it is
unset;
(2), (5) a call made when `keys[0]` is not null builds its enumerator over the
characters that pointer leads to at the time of the call, whatever `PR_GetEnv`
would return, and leaves the statics as they are;
(3), (6) so of two calls of which the first finds `keys[0]` null, the second builds
its enumerator over the characters that stand, in the world of the second call, at
the address the variable's value had in the world of the first call, and over the
empty string if the variable was unset at the first call. -/
theorem C20_path_list_read_once :
    (∀ (σ : Type) (sys : Sys σ) (b : Build) (d : Defs) (st : Statics) (w : σ),
      b.MOZ_WIDGET_COCOA = false →
      d.NS_APP_PLUGINS_DIR_LIST ≠ d.NS_APP_SEARCH_DIR_LIST →
      d.NS_APP_PLUGINS_DIR_LIST ≠ d.NS_APP_DISTRIBUTION_SEARCH_DIR_LIST →
      st.pluginKeys0 = none →
      nsAppFileLocationProvider.GetFiles sys b d d.NS_APP_PLUGINS_DIR_LIST st w
        = ((NS_OK, some (Enumerator.paths (nsPathsDirectoryEnumerator.new
              (some (((sys.PR_GetEnv "MOZ_PLUGIN_PATH" w).map
                (fun a => sys.charsAt a w)).getD []))
              ([NS_USER_PLUGINS_DIR, d.NS_APP_PLUGINS_DIR]
                ++ (if b.XP_UNIX then [NS_SYSTEM_PLUGINS_DIR] else []))))),
            { st with
              pluginKeys0 :=
                some (((sys.PR_GetEnv "MOZ_PLUGIN_PATH" w).map KeyPtr.env).getD
                  KeyPtr.nullstr) }))
    ∧ (∀ (σ : Type) (sys : Sys σ) (b : Build) (d : Defs) (st : Statics) (w : σ) (p : KeyPtr),
      b.MOZ_WIDGET_COCOA = false →
      d.NS_APP_PLUGINS_DIR_LIST ≠ d.NS_APP_SEARCH_DIR_LIST →
      d.NS_APP_PLUGINS_DIR_LIST ≠ d.NS_APP_DISTRIBUTION_SEARCH_DIR_LIST →
      st.pluginKeys0 = some p →
      nsAppFileLocationProvider.GetFiles sys b d d.NS_APP_PLUGINS_DIR_LIST st w
        = ((NS_OK, some (Enumerator.paths (nsPathsDirectoryEnumerator.new
              (some (p.chars sys w))
              ([NS_USER_PLUGINS_DIR, d.NS_APP_PLUGINS_DIR]
                ++ (if b.XP_UNIX then [NS_SYSTEM_PLUGINS_DIR] else []))))), st))
    ∧ (∀ (σ : Type) (sys : Sys σ) (b : Build) (d : Defs) (st : Statics) (w1 w2 : σ),
      b.MOZ_WIDGET_COCOA = false →
      d.NS_APP_PLUGINS_DIR_LIST ≠ d.NS_APP_SEARCH_DIR_LIST →
      d.NS_APP_PLUGINS_DIR_LIST ≠ d.NS_APP_DISTRIBUTION_SEARCH_DIR_LIST →
      st.pluginKeys0 = none →
      (nsAppFileLocationProvider.GetFiles sys b d d.NS_APP_PLUGINS_DIR_LIST
          (nsAppFileLocationProvider.GetFiles sys b d d.NS_APP_PLUGINS_DIR_LIST st w1).2 w2).1
        = (NS_OK, some (Enumerator.paths (nsPathsDirectoryEnumerator.new
              (some (((sys.PR_GetEnv "MOZ_PLUGIN_PATH" w1).map
                (fun a => sys.charsAt a w2)).getD []))
              ([NS_USER_PLUGINS_DIR, d.NS_APP_PLUGINS_DIR]
                ++ (if b.XP_UNIX then [NS_SYSTEM_PLUGINS_DIR] else []))))))
    ∧ (∀ (σ : Type) (sys : Sys σ) (b : Build) (d : Defs) (st : Statics) (w : σ),
      d.NS_APP_SEARCH_DIR_LIST ≠ d.NS_APP_PLUGINS_DIR_LIST →
      d.NS_APP_SEARCH_DIR_LIST ≠ d.NS_APP_DISTRIBUTION_SEARCH_DIR_LIST →
      st.searchKeys0 = none →
      nsAppFileLocationProvider.GetFiles sys b d d.NS_APP_SEARCH_DIR_LIST st w
        = ((NS_OK, some (Enumerator.paths (nsPathsDirectoryEnumerator.new
              (some (((sys.PR_GetEnv "MOZ_SEARCH_ENGINE_PATH" w).map
                (fun a => sys.charsAt a w)).getD []))
              [d.NS_APP_USER_SEARCH_DIR]))),
            { st with
              searchKeys0 :=
                some (((sys.PR_GetEnv "MOZ_SEARCH_ENGINE_PATH" w).map KeyPtr.env).getD
                  KeyPtr.nullstr) }))
    ∧ (∀ (σ : Type) (sys : Sys σ) (b : Build) (d : Defs) (st : Statics) (w : σ) (p : KeyPtr),
      d.NS_APP_SEARCH_DIR_LIST ≠ d.NS_APP_PLUGINS_DIR_LIST →
      d.NS_APP_SEARCH_DIR_LIST ≠ d.NS_APP_DISTRIBUTION_SEARCH_DIR_LIST →
      st.searchKeys0 = some p →
      nsAppFileLocationProvider.GetFiles sys b d d.NS_APP_SEARCH_DIR_LIST st w
        = ((NS_OK, some (Enumerator.paths (nsPathsDirectoryEnumerator.new
              (some (p.chars sys w)) [d.NS_APP_USER_SEARCH_DIR]))), st))
    ∧ (∀ (σ : Type) (sys : Sys σ) (b : Build) (d : Defs) (st : Statics) (w1 w2 : σ),
      d.NS_APP_SEARCH_DIR_LIST ≠ d.NS_APP_PLUGINS_DIR_LIST →
      d.NS_APP_SEARCH_DIR_LIST ≠ d.NS_APP_DISTRIBUTION_SEARCH_DIR_LIST →
      st.searchKeys0 = none →
      (nsAppFileLocationProvider.GetFiles sys b d d.NS_APP_SEARCH_DIR_LIST
          (nsAppFileLocationProvider.GetFiles sys b d d.NS_APP_SEARCH_DIR_LIST st w1).2 w2).1
        = (NS_OK, some (Enumerator.paths (nsPathsDirectoryEnumerator.new
              (some (((sys.PR_GetEnv "MOZ_SEARCH_ENGINE_PATH" w1).map
                (fun a => sys.charsAt a w2)).getD []))
              [d.NS_APP_USER_SEARCH_DIR])))) := by
  refine ⟨?_, ?_, ?_, ?_, ?_, ?_⟩
  · intro σ sys b d st w hc h1 h2 hslot
    exact GetFiles_plugins_null sys b d st w hc h1 h2 hslot
  · intro σ sys b d st w p hc h1 h2 hslot
    exact GetFiles_plugins_kept sys b d st w p hc h1 h2 hslot
  · intro σ sys b d st w1 w2 hc h1 h2 hslot
    rw [GetFiles_plugins_null sys b d st w1 hc h1 h2 hslot,
      GetFiles_plugins_kept sys b d _ w2 _ hc h1 h2 rfl]
    cases sys.PR_GetEnv "MOZ_PLUGIN_PATH" w1 <;> rfl
  · intro σ sys b d st w h1 h2 hslot
    exact GetFiles_search_null sys b d st w h1 h2 hslot
  · intro σ sys b d st w p h1 h2 hslot
    exact GetFiles_search_kept sys b d st w p h1 h2 hslot
  · intro σ sys b d st w1 w2 h1 h2 hslot
    rw [GetFiles_search_null sys b d st w1 h1 h2 hslot,
      GetFiles_search_kept sys b d _ w2 _ h1 h2 rfl]
    cases sys.PR_GetEnv "MOZ_SEARCH_ENGINE_PATH" w1 <;> rfl

theorem C20_path_list_read_once_witness :
    nsAppFileLocationProvider.GetFiles envSys unixBuild mozillaDefs
        mozillaDefs.NS_APP_PLUGINS_DIR_LIST Statics.initial envSet
      = ((NS_OK, some (Enumerator.paths (nsPathsDirectoryEnumerator.new (some ['/', 'o'])
            [NS_USER_PLUGINS_DIR, mozillaDefs.NS_APP_PLUGINS_DIR, NS_SYSTEM_PLUGINS_DIR]))),
          { version := 0, cocoaKeys := none, pluginKeys0 := some (KeyPtr.env 1),
            searchKeys0 := none })
    ∧ (nsAppFileLocationProvider.GetFiles envSys unixBuild mozillaDefs
        mozillaDefs.NS_APP_PLUGINS_DIR_LIST
        (nsAppFileLocationProvider.GetFiles envSys unixBuild mozillaDefs
          mozillaDefs.NS_APP_PLUGINS_DIR_LIST Statics.initial envSet).2 envOverwritten).1
      = (NS_OK, some (Enumerator.paths (nsPathsDirectoryEnumerator.new (some ['/', 'n'])
            [NS_USER_PLUGINS_DIR, mozillaDefs.NS_APP_PLUGINS_DIR, NS_SYSTEM_PLUGINS_DIR])))
    ∧ (nsAppFileLocationProvider.GetFiles envSys unixBuild mozillaDefs
        mozillaDefs.NS_APP_PLUGINS_DIR_LIST
        (nsAppFileLocationProvider.GetFiles envSys unixBuild mozillaDefs
          mozillaDefs.NS_APP_PLUGINS_DIR_LIST Statics.initial Environ.empty).2 envSet).1
      = (NS_OK, some (Enumerator.paths (nsPathsDirectoryEnumerator.new (some [])
            [NS_USER_PLUGINS_DIR, mozillaDefs.NS_APP_PLUGINS_DIR, NS_SYSTEM_PLUGINS_DIR])))
    ∧ nsAppFileLocationProvider.GetFiles envSys unixBuild mozillaDefs
        mozillaDefs.NS_APP_SEARCH_DIR_LIST
        { version := 0, cocoaKeys := none, pluginKeys0 := none,
          searchKeys0 := some (KeyPtr.env 1) } envReplaced
      = ((NS_OK, some (Enumerator.paths (nsPathsDirectoryEnumerator.new (some ['/', 'o'])
            [mozillaDefs.NS_APP_USER_SEARCH_DIR]))),
          { version := 0, cocoaKeys := none, pluginKeys0 := none,
            searchKeys0 := some (KeyPtr.env 1) }) :=
  ⟨C20_path_list_read_once.1 Environ envSys unixBuild mozillaDefs Statics.initial
      envSet rfl (by decide) (by decide) rfl,
    C20_path_list_read_once.2.2.1 Environ envSys unixBuild mozillaDefs Statics.initial
      envSet envOverwritten rfl (by decide) (by decide) rfl,
    C20_path_list_read_once.2.2.1 Environ envSys unixBuild mozillaDefs Statics.initial
      Environ.empty envSet rfl (by decide) (by decide) rfl,
    C20_path_list_read_once.2.2.2.2.1 Environ envSys unixBuild mozillaDefs
      { version := 0, cocoaKeys := none, pluginKeys0 := none,
        searchKeys0 := some (KeyPtr.env 1) }
      envReplaced (KeyPtr.env 1) (by decide) (by decide) rfl⟩

theorem C17_failure_code_with_path_witness :
    (nsAppFileLocationProvider.GetFile fsSys unixBuild mozillaDefs
        (some mozillaDefs.NS_APP_RES_DIR) nsAppFileLocationProvider.new FS.empty).1.2.isSome
      = true
    ∧ (nsAppFileLocationProvider.GetFile demoSys unixBuild mozillaDefs
        (some mozillaDefs.NS_APP_RES_DIR) nsAppFileLocationProvider.new none).1.2 = none :=
  ⟨(C17_failure_code_with_path.2.2.2.2 FS fsSys unixBuild mozillaDefs
      (some mozillaDefs.NS_APP_RES_DIR) nsAppFileLocationProvider.new FS.empty).1 (by decide),
    (C17_failure_code_with_path.2.2.2.2 (Option CPtr) demoSys unixBuild mozillaDefs
      (some mozillaDefs.NS_APP_RES_DIR) nsAppFileLocationProvider.new none).2
      (by decide) (by decide)⟩

/-! ## The candidate span -/

theorem skipSeparators_suffix (sep : Char) (p : CPtr) : skipSeparators sep p <:+ p := by
  induction p with
  | nil => exact List.suffix_refl _
  | cons c cs ih =>
    unfold skipSeparators
    split
    · exact ih.trans (List.suffix_cons c cs)
    · exact List.suffix_refl _

/-- The span of an iteration is ill-formed exactly when two separators stand at
the scan position. -/
theorem span_ill_formed_iff (sep : Char) (p : CPtr) (hd : p.deref ≠ NUL) :
    Substring (skipSeparators sep p) (scanToSeparator sep p.next) = none
      ↔ ∃ rest, p = sep :: sep :: rest := by
  cases p with
  | nil => exact absurd rfl hd
  | cons c cs =>
    have hscan := scanToSeparator_length_le sep cs
    by_cases hc : c = sep
    · subst hc
      cases cs with
      | nil => simp [Substring, skipSeparators, scanToSeparator, CPtr.next]
      | cons c2 cs2 =>
        by_cases hc2 : c2 = c
        · subst hc2
          have hskip := skipSeparators_length_le c2 cs2
          constructor
          · intro _; exact ⟨cs2, rfl⟩
          · intro _
            simp only [Substring, skipSeparators, scanToSeparator, CPtr.next, List.tail_cons,
              if_true, ne_eq, not_true_eq_false, and_false, if_false, List.length_cons]
            rw [if_neg (by omega)]
        · constructor
          · intro h
            have hs2 := scanToSeparator_length_le c (c2 :: cs2)
            simp only [Substring, skipSeparators, CPtr.next, List.tail_cons, if_true, hc2,
              if_false] at h
            rw [if_pos hs2] at h
            cases h
          · rintro ⟨rest, h⟩
            simp only [List.cons.injEq, true_and] at h
            exact absurd h.1 hc2
    · constructor
      · intro h
        simp only [Substring, skipSeparators, hc, if_false, CPtr.next, List.tail_cons,
          List.length_cons] at h
        rw [if_pos (by omega)] at h
        cases h
      · rintro ⟨rest, h⟩
        simp only [List.cons.injEq] at h
        exact absurd h.1 hc

/-- C21 (evaluation at the failing input): on the path list `::a` (separator `:`)
the first iteration has `pathVar` at offset 2 and `mEndPath` at offset 1, so the
span handed to `Substring` has its start after its end and the iteration has no
well-defined result; on `/a:::/b` the same happens in the iteration after `/a` was
handed out. What does hold in every iteration, for every path list: `pathVar` and
`mEndPath` stay inside the string (offsets at most its length, the terminator is
the last character read) and `mEndPath` moves forward; and the span is ill-formed
exactly when two separators stand at the scan position. -/
theorem C21_span_start_after_end :
    (scanOffset [':', ':', 'a'] (skipSeparators ':' [':', ':', 'a']) = 2
      ∧ scanOffset [':', ':', 'a'] (scanToSeparator ':' (CPtr.next [':', ':', 'a'])) = 1
      ∧ Substring (skipSeparators ':' [':', ':', 'a'])
          (scanToSeparator ':' (CPtr.next [':', ':', 'a'])) = none)
    ∧ (∀ (σ : Type) (env : Env σ) (w : σ),
        nsPathsDirectoryEnumerator.pathStep env ':' w [':', ':', 'a'] = none)
    ∧ nsPathsDirectoryEnumerator.run lateEnv unixBuild
        [Call.hasMoreElements, Call.getNext]
        (nsPathsDirectoryEnumerator.new (some ['/', 'a', ':', ':', ':', '/', 'b']) []) ()
      = some ([Obs.more true, Obs.next NS_OK (some "/a")],
          { mCurrentKey := [], mNext := none, mEndPath := some [':', ':', '/', 'b'] }, ())
    ∧ nsPathsDirectoryEnumerator.HasMoreElements lateEnv unixBuild
        { mCurrentKey := [], mNext := none, mEndPath := some [':', ':', '/', 'b'] } () = none
    ∧ (∀ (sep : Char) (S p : CPtr), p <:+ S →
        skipSeparators sep p <:+ S ∧ scanToSeparator sep p.next <:+ S
          ∧ scanOffset S (skipSeparators sep p) ≤ S.length
          ∧ scanOffset S (scanToSeparator sep p.next) ≤ S.length
          ∧ (p.deref ≠ NUL → scanOffset S p < scanOffset S (scanToSeparator sep p.next)))
    ∧ (∀ (sep : Char) (p : CPtr), p.deref ≠ NUL →
        (Substring (skipSeparators sep p) (scanToSeparator sep p.next) = none
          ↔ ∃ rest, p = sep :: sep :: rest)) := by
  refine ⟨by decide, ?_, by decide, by decide, ?_, ?_⟩
  · intro σ env w
    rfl
  · intro sep S p hp
    have h1 : skipSeparators sep p <:+ S := (skipSeparators_suffix sep p).trans hp
    have h2 : scanToSeparator sep p.next <:+ S :=
      ((scanToSeparator_suffix sep p.next).trans (List.tail_suffix p)).trans hp
    refine ⟨h1, h2, Nat.sub_le _ _, Nat.sub_le _ _, ?_⟩
    intro hd
    have hpos := deref_ne_NUL_length_pos p hd
    have hlen := scanToSeparator_length_le sep p.next
    have htail : p.next.length = p.length - 1 := by simp [CPtr.next]
    have hple := hp.length_le
    unfold scanOffset
    omega
  · intro sep p hd
    exact span_ill_formed_iff sep p hd

theorem C21_span_start_after_end_witness :
    (Substring (skipSeparators ':' [':', ':', '/', 'b'])
        (scanToSeparator ':' (CPtr.next [':', ':', '/', 'b'])) = none
      ↔ ∃ rest, [':', ':', '/', 'b'] = ':' :: ':' :: rest)
    ∧ scanOffset ['/', 'a', ':', ':', ':', '/', 'b'] [':', ':', '/', 'b']
        < scanOffset ['/', 'a', ':', ':', ':', '/', 'b']
            (scanToSeparator ':' (CPtr.next [':', ':', '/', 'b'])) :=
  ⟨C21_span_start_after_end.2.2.2.2.2 ':' [':', ':', '/', 'b'] (by decide),
    (C21_span_start_after_end.2.2.2.2.1 ':' ['/', 'a', ':', ':', ':', '/', 'b']
      [':', ':', '/', 'b'] (by decide)).2.2.2.2 (by decide)⟩

end XPCOM
